import Mathlib

/-!
# Deployment-progress tracking of the Backend.im CLI

A shallow embedding of the two deployment watches of the CLI
(`cli/internal/commands/deploy.go`, `cli/internal/api/websocket.go`,
`cli/internal/api/client.go`), of the deploy command around them, of the file
collector (`cli/internal/files/project.go`) and of the status and stream
handlers of the mock service (`mock-api/main.go`), together with theorems about
them.

Conventions of the embedding:

* Go strings are `String`; the stage of a deployment is the raw string the
  server sent (`"queued"`, `"complete"`, `"failed"`, ...), exactly as the code
  compares it.
* A Go `error` is an `Option Err` (`none` is `nil`).
* Standard output is a `List Line`; every constructor of `Line` is one print
  site of the source and `Line.render` gives the text of the line.
* The network is an explicit parameter: the polling watch receives the answer of
  the `i`-th status request as `GetStatus i`, the streaming watch receives a
  connection `Conn`, the list of outcomes of successive `ReadJSON` calls.
* Fields `requests`, `reads` and `seen` of the results are ghost fields: they
  count the transport calls made and record the observations consumed; they do
  not influence the computation.
* The file system is the list of entries a walk of the project directory
  visits; the maps of the mock service are functions; a time is a number of
  nanoseconds and the clock readings of a request are parameters.
* The length of a Go string is its number of bytes, `String.utf8ByteSize`; a
  run-time panic of a handler is the result `HandlerResult.panic`.
-/

namespace BackendIm

/-! ## Errors -/

/-- Go error values: `msg` is an error created without wrapping (also an error
coming from the transport), `wrap pre inner` is `fmt.Errorf(pre ++ "%w", inner)`. -/
inductive Err where
  | msg (text : String)
  | wrap (pre : String) (inner : Err)
  deriving DecidableEq, Repr

/-- The method `Error()` of a Go error: its message. -/
def Err.Error : Err → String
  | .msg t => t
  | .wrap p e => p ++ e.Error

/-! ## Wire types (`client.go`, `websocket.go`) -/

/-- The struct `api.StatusResponse`. -/
structure StatusResponse where
  ID : String := ""
  ProjectID : String := ""
  CommitHash : String := ""
  Status : String := ""
  URL : String := ""
  Logs : List String := []
  deriving DecidableEq, Repr

/-- The struct `api.DeploymentUpdate`. -/
structure DeploymentUpdate where
  DeploymentID : String := ""
  ProjectID : String := ""
  CommitHash : String := ""
  Status : String := ""
  Namespace : String := ""
  PVC : String := ""
  URL : String := ""
  Logs : List String := []
  deriving DecidableEq, Repr

/-! ## Standard output -/

/-- One line written to standard output; one constructor per print site of
`deploy.go`. -/
inductive Line where
  /-- `fmt.Println("🔌 Connecting to WebSocket...")` -/
  | connecting
  /-- `fmt.Println("👀 Streaming deployment updates...")` -/
  | streaming
  /-- `fmt.Println("")` -/
  | blank
  /-- The status line of `pollForDeploymentURL`, with the last log line of the
  response when it has one. -/
  | pollStatus (stage : String) (lastLog : Option String)
  /-- The status line of the streaming callback. -/
  | streamStatus (stage ns pvc : String)
  /-- `fmt.Printf("   %s\n", log)` -/
  | log (text : String)
  /-- `fmt.Printf("🌐 Deployment URL: %s\n", finalURL)` -/
  | url (u : String)
  /-- `fmt.Println("✅ Deployment completed successfully")` -/
  | completed
  deriving DecidableEq, Repr

/-- The text of a line, without its final newline. -/
def Line.render : Line → String
  | .connecting => "🔌 Connecting to WebSocket..."
  | .streaming => "👀 Streaming deployment updates..."
  | .blank => ""
  | .pollStatus stage lastLog =>
      "📊 Status: " ++ stage ++
        (match lastLog with
         | some l => " - " ++ l
         | none => "")
  | .streamStatus stage ns pvc =>
      "📊 Status: " ++ stage ++
        (if ns ≠ "" then " (namespace: " ++ ns ++ ")" else "") ++
        (if pvc ≠ "" then " (PVC: " ++ pvc ++ ")" else "")
  | .log t => "   " ++ t
  | .url u => "🌐 Deployment URL: " ++ u
  | .completed => "✅ Deployment completed successfully"

/-- The stage a status-change line announces; `none` for every other line. -/
def Line.stage? : Line → Option String
  | .pollStatus stage _ => some stage
  | .streamStatus stage _ _ => some stage
  | _ => none

/-- The log text a line shows: the text of a log line of the streaming watch,
or the log line appended to a status line of the polling watch. -/
def Line.log? : Line → Option String
  | .log t => some t
  | .pollStatus _ lastLog => lastLog
  | _ => none

/-- The URL of a deployment-URL line; `none` for every other line. -/
def Line.url? : Line → Option String
  | .url u => some u
  | _ => none

/-- The stages of the status-change lines of an output, in order. -/
def statusStages (out : List Line) : List String := out.filterMap Line.stage?

/-- The log texts an output shows, in order. -/
def shownLogs (out : List Line) : List String := out.filterMap Line.log?

/-- The URLs of the deployment-URL lines of an output, in order. -/
def urlLines (out : List Line) : List String := out.filterMap Line.url?

/-! ## The polling watch (`pollForDeploymentURL`, deploy.go 102-141) -/

/-- The attempt budget `maxAttempts := 30`. -/
def maxAttempts : Nat := 30

/-- What `pollForDeploymentURL` returns (`url`, `err`) and prints (`out`);
`requests` counts the calls of `GetStatus`, `seen` lists the responses that
were received. -/
structure PollResult where
  url : String
  err : Option Err
  out : List Line
  requests : Nat
  seen : List StatusResponse
  deriving DecidableEq, Repr

/-- Lines 113-121: the status line is printed only when the stage differs from
`lastStatus`; it carries the last log line of the response when there is one. -/
def pollShow (lastStatus : String) (out : List Line) (status : StatusResponse) :
    String × List Line :=
  if status.Status ≠ lastStatus then
    (status.Status, out ++ [Line.pollStatus status.Status status.Logs.getLast?])
  else
    (lastStatus, out)

/-- Lines 123-133: the two return statements inside the loop body; `none` means
that the body falls through to the sleep and the next attempt. -/
def pollVerdict (status : StatusResponse) : Option (String × Option Err) :=
  match (if status.Status = "complete" then
           (if status.URL ≠ "" then some (status.URL, (none : Option Err)) else none)
         else none) with
  | some r => some r
  | none =>
      if status.Status = "failed" then some ("", some (Err.msg "deployment failed"))
      else none

/-- The loop `for attempt < maxAttempts` of `pollForDeploymentURL`; the first
argument is `maxAttempts - attempt`, the number of iterations left. -/
def pollLoop (GetStatus : Nat → Except Err StatusResponse) :
    Nat → Nat → String → List Line → PollResult
  | 0, attempt, _, out =>
      { url := ""
        err := some (Err.msg ("timeout waiting for deployment URL (after " ++
                 toString maxAttempts ++ " seconds)"))
        out := out, requests := attempt, seen := [] }
  | left + 1, attempt, lastStatus, out =>
      match GetStatus attempt with
      | .error e =>
          { url := "", err := some e, out := out, requests := attempt + 1, seen := [] }
      | .ok status =>
          let shown := pollShow lastStatus out status
          match pollVerdict status with
          | some (u, e) =>
              { url := u, err := e, out := shown.2, requests := attempt + 1, seen := [status] }
          | none =>
              let r := pollLoop GetStatus left (attempt + 1) shown.1 shown.2
              { r with seen := status :: r.seen }

/-- The function `pollForDeploymentURL`: `GetStatus i` is the outcome of the
`i`-th call `apiClient.GetStatus(deploymentID)` (counting from 0). -/
def pollForDeploymentURL (GetStatus : Nat → Except Err StatusResponse) : PollResult :=
  pollLoop GetStatus maxAttempts 0 "" []

/-! ## The streaming client (`websocket.go`) -/

/-- The constant `DefaultAPIURL` of `client.go`. -/
def DefaultAPIURL : String := "http://localhost:8080"

/-- The close code `websocket.CloseNormalClosure` of the websocket library. -/
def CloseNormalClosure : Int := 1000

/-- The close code `websocket.CloseGoingAway` of the websocket library. -/
def CloseGoingAway : Int := 1001

/-- The ways `conn.ReadJSON` fails, as `StreamUpdates` tells them apart; each
carries the underlying error. -/
inductive ReadErr where
  /-- A `*websocket.CloseError` with its close code. -/
  | close (code : Int) (e : Err)
  /-- An error whose method `Timeout()` answers true (read deadline exceeded). -/
  | timeout (e : Err)
  /-- Any other error: network failure, undecodable message. -/
  | other (e : Err)
  deriving DecidableEq, Repr

/-- The outcome of one call of `conn.ReadJSON`. -/
inductive ReadResult where
  | msg (update : DeploymentUpdate)
  | fail (e : ReadErr)
  deriving DecidableEq, Repr

/-- An open connection: the outcomes of its successive reads, and the failure
every read returns once that list is used up. -/
structure Conn where
  reads : List ReadResult
  eof : ReadErr
  deriving DecidableEq, Repr

/-- The struct `WebSocketClient`. -/
structure WebSocketClient where
  baseURL : String
  conn : Option Conn
  deriving DecidableEq, Repr

/-- The function `strings.HasPrefix`. -/
def HasPrefix (s p : String) : Bool := p.data.isPrefixOf s.data

/-- The slice `s[n:]` for an `n` that ends an ASCII prefix of `s`. -/
def sliceFrom (s : String) (n : Nat) : String := ⟨s.data.drop n⟩

/-- The constructor `NewWebSocketClient`. -/
def NewWebSocketClient (baseURL : String) : WebSocketClient :=
  { baseURL := if baseURL = "" then DefaultAPIURL else baseURL, conn := none }

/-- Lines 29-37 of `Connect`: the conversion of the base URL to a websocket URL. -/
def wsBaseOf (baseURL : String) : String :=
  if HasPrefix baseURL "http://" then "ws://" ++ sliceFrom baseURL 7
  else if HasPrefix baseURL "https://" then "wss://" ++ sliceFrom baseURL 8
  else if !HasPrefix baseURL "ws://" && !HasPrefix baseURL "wss://" then "ws://" ++ baseURL
  else baseURL

/-- Line 40 of `Connect`: the URL that is dialled. -/
def connectURL (baseURL deploymentID : String) : String :=
  wsBaseOf baseURL ++ "/ws?deploymentId=" ++ deploymentID

/-- The method `WebSocketClient.Connect`; `dial url` is the outcome of
`dialer.Dial(url, nil)`. -/
def WebSocketClient.Connect (dial : String → Except Err Conn) (c : WebSocketClient)
    (deploymentID : String) : WebSocketClient × Option Err :=
  let url := connectURL c.baseURL deploymentID
  match dial url with
  | .error e => (c, some (Err.wrap ("failed to connect to WebSocket at " ++ url ++ ": ") e))
  | .ok conn => ({ c with conn := some conn }, none)

/-- Lines 80-96 of `StreamUpdates`: what the method returns when a read fails. -/
def readFailure : ReadErr → Option Err
  | .close code e =>
      if code = CloseNormalClosure ∨ code = CloseGoingAway then none
      else some (Err.wrap ("WebSocket closed with code " ++ toString code ++ ": ") e)
  | .timeout _ => some (Err.msg "WebSocket read timeout - connection may be stale")
  | .other e => some (Err.wrap "failed to read WebSocket message: " e)

/-- What `StreamUpdates` returns (`err`), the state its callback ended in,
the number of `ReadJSON` calls made and the updates handed to the callback. -/
structure StreamResult (σ : Type) where
  state : σ
  err : Option Err
  reads : Nat
  seen : List DeploymentUpdate

/-- The `for` loop of `StreamUpdates` over the reads still to come. -/
def streamLoop {σ : Type} (callback : σ → DeploymentUpdate → σ × Option Err) :
    List ReadResult → ReadErr → σ → StreamResult σ
  | [], eof, s => { state := s, err := readFailure eof, reads := 1, seen := [] }
  | .fail e :: _, _, s => { state := s, err := readFailure e, reads := 1, seen := [] }
  | .msg update :: rest, eof, s =>
      match callback s update with
      | (s1, some err) => { state := s1, err := some err, reads := 1, seen := [update] }
      | (s1, none) =>
          if update.Status = "complete" ∨ update.Status = "failed" then
            { state := s1, err := none, reads := 1, seen := [update] }
          else
            let r := streamLoop callback rest eof s1
            { r with reads := r.reads + 1, seen := update :: r.seen }

/-- The method `WebSocketClient.StreamUpdates`; the callback is a closure over
mutable variables, here a function on its state `σ`. -/
def WebSocketClient.StreamUpdates {σ : Type} (c : WebSocketClient)
    (callback : σ → DeploymentUpdate → σ × Option Err) (s : σ) : StreamResult σ :=
  match c.conn with
  | none =>
      { state := s, err := some (Err.msg "not connected - call Connect() first")
        reads := 0, seen := [] }
  | some conn => streamLoop callback conn.reads conn.eof s

/-! ## The streaming watch (`streamDeploymentUpdates`, deploy.go 144-211) -/

/-- The variables the callback of `streamDeploymentUpdates` closes over, and
the output written so far. -/
structure StreamState where
  lastStatus : String
  finalURL : String
  out : List Line
  deriving DecidableEq, Repr

/-- The callback passed to `StreamUpdates` (deploy.go 164-204). -/
def deployCallback (s : StreamState) (update : DeploymentUpdate) : StreamState × Option Err :=
  let shown : String × List Line :=
    if update.Status ≠ s.lastStatus then
      (update.Status, s.out ++ [Line.streamStatus update.Status update.Namespace update.PVC])
    else (s.lastStatus, s.out)
  let out := shown.2 ++ update.Logs.map Line.log
  let finalURL := if update.URL ≠ "" then update.URL else s.finalURL
  if update.Status = "complete" then
    ({ lastStatus := shown.1, finalURL := finalURL
       out := out ++ [Line.blank] ++ [if finalURL ≠ "" then Line.url finalURL else Line.completed] },
     none)
  else if update.Status = "failed" then
    ({ lastStatus := shown.1, finalURL := finalURL, out := out },
     some (Err.msg "deployment failed"))
  else
    ({ lastStatus := shown.1, finalURL := finalURL, out := out }, none)

/-- What `streamDeploymentUpdates` returns (`err`) and prints (`out`); `inner`
is the error `StreamUpdates` returned, `finalURL` the last value of the
variable of that name, `reads` and `seen` as in `StreamResult`. -/
structure WatchResult where
  err : Option Err
  out : List Line
  inner : Option Err
  finalURL : String
  reads : Nat
  seen : List DeploymentUpdate
  deriving DecidableEq, Repr

/-- The function `streamDeploymentUpdates`; `baseURL` is `apiClient.BaseURL()`,
the third argument of the source is never used. -/
def streamDeploymentUpdates (dial : String → Except Err Conn)
    (baseURL deploymentID _websocketURL : String) : WatchResult :=
  let wsClient := NewWebSocketClient baseURL
  match wsClient.Connect dial deploymentID with
  | (_, some e) =>
      { err := some (Err.wrap "failed to connect to WebSocket: " e)
        out := [Line.connecting], inner := none, finalURL := "", reads := 0, seen := [] }
  | (wsClient, none) =>
      let r := wsClient.StreamUpdates deployCallback
        { lastStatus := "", finalURL := "", out := [Line.connecting, Line.streaming, Line.blank] }
      { err := match r.err with
               | some e => some (Err.wrap "WebSocket streaming error: " e)
               | none => none
        out := r.state.out, inner := r.err, finalURL := r.state.finalURL
        reads := r.reads, seen := r.seen }

/-! ## Specification-side definitions and folds used by the theorems -/

/-- The error `pollForDeploymentURL` returns when its attempt budget is used up. -/
def pollTimeout : Err := Err.msg "timeout waiting for deployment URL (after 30 seconds)"

/-- An observation stage that ends neither watch: not `complete`, not `failed`. -/
def NonTerminal (stage : String) : Prop := stage ≠ "complete" ∧ stage ≠ "failed"

instance (stage : String) : Decidable (NonTerminal stage) := by
  unfold NonTerminal; infer_instance

/-- Written from the specification of stage dedup: the stages for which a status
change is displayed. A stage is displayed exactly when it differs from the stage
of the observation immediately before it (`prev`); the first observation has no
predecessor and is always displayed. -/
def stageChanges : Option String → List String → List String
  | _, [] => []
  | prev, s :: rest =>
      if prev = some s then stageChanges (some s) rest else s :: stageChanges (some s) rest

/-- The display state of the polling watch after it has shown the responses of
a list, one after the other, with `pollShow`. -/
def pollShowAll (lastStatus : String) (out : List Line) : List StatusResponse → String × List Line
  | [] => (lastStatus, out)
  | s :: rest => pollShowAll (pollShow lastStatus out s).1 (pollShow lastStatus out s).2 rest

/-- The log texts the polling watch shows for a list of responses, when the
stage displayed last was `prev`: the last log line of each response whose stage
differs from the stage before it. -/
def pollLogsShown : String → List StatusResponse → List String
  | _, [] => []
  | prev, s :: rest =>
      if s.Status ≠ prev then s.Logs.getLast?.toList ++ pollLogsShown s.Status rest
      else pollLogsShown prev rest

/-- The state of a callback after it has been called on the updates of a list,
one after the other. -/
def callbackAll {σ : Type} (callback : σ → DeploymentUpdate → σ × Option Err) (s : σ) :
    List DeploymentUpdate → σ
  | [] => s
  | u :: rest => callbackAll callback (callback s u).1 rest

/-- The state in which `streamDeploymentUpdates` starts the stream: nothing
shown yet, no URL, the two banner lines and a blank line printed. -/
def streamStart : StreamState :=
  { lastStatus := "", finalURL := "", out := [Line.connecting, Line.streaming, Line.blank] }

/-! ## Concrete inputs used to instantiate the theorems -/

/-- A status response with stage `building` and no URL. -/
def exBuilding : StatusResponse := { ID := "dep-1", Status := "building" }

/-- A status response with stage `complete` and a URL. -/
def exDone : StatusResponse :=
  { ID := "dep-1", Status := "complete", URL := "https://abc123def456.backend.im" }

/-- A status response with stage `complete` and no URL. -/
def exDoneNoURL : StatusResponse := { ID := "dep-1", Status := "complete" }

/-- A status response with stage `failed`. -/
def exFailed : StatusResponse := { ID := "dep-1", Status := "failed" }

/-- A status response with a given stage and log lines. -/
def exStatus (stage : String) (logs : List String) : StatusResponse :=
  { ID := "dep-1", Status := stage, Logs := logs }

/-- A streamed update with a given stage, URL and log lines. -/
def exUpdate (stage url : String) (logs : List String) : DeploymentUpdate :=
  { DeploymentID := "dep-1", Status := stage, URL := url, Logs := logs }

/-- A dial that succeeds with a connection delivering the given updates and then
closed by the server with the normal close code. -/
def exDial (updates : List DeploymentUpdate) : String → Except Err Conn :=
  fun _ => .ok { reads := updates.map ReadResult.msg
                 eof := ReadErr.close 1000 (Err.msg "websocket: close 1000 (normal)") }

/-- Status requests answered by the responses of a list, in order; every
request after them fails. -/
def exServer (responses : List StatusResponse) : Nat → Except Err StatusResponse :=
  fun i =>
    match responses.get? i with
    | some r => .ok r
    | none => .error (Err.msg "request failed: connection refused")

/-! ## The HTTP client (`client.go`) -/

/-- An outbound HTTP request: method, URL, body and the header fields set by
the caller. -/
structure HttpRequest where
  Method : String
  URL : String
  Body : Option String
  Header : List (String × String)
  deriving DecidableEq, Repr

/-- An HTTP response: status code and body. -/
structure HttpResponse where
  StatusCode : Int
  Body : String
  deriving DecidableEq, Repr

/-- The method `http.Header.Set` for a key in canonical form: the key gets the
one value given, replacing any earlier value. -/
def headerSet (h : List (String × String)) (key value : String) : List (String × String) :=
  h.filter (fun kv => kv.1 != key) ++ [(key, value)]

/-- The struct `api.Client`; its field `httpClient` is the transport `Transport`
passed to the methods that send a request. -/
structure Client where
  baseURL : String
  authToken : String
  deriving DecidableEq, Repr

/-- What the client sees of the network: `NewRequest method url` is the error
of `http.NewRequest` (`none` when the request is created), `Do req` the outcome
of `httpClient.Do(req)`. -/
structure Transport where
  NewRequest : String → String → Option Err
  Do : HttpRequest → Except Err HttpResponse

/-- The constructor `NewClient`; the argument is the value of the environment
variable `BACKEND_IM_API_URL`. -/
def NewClient (envAPIURL : String) : Client :=
  { baseURL := if envAPIURL = "" then DefaultAPIURL else envAPIURL, authToken := "" }

/-- The method `Client.BaseURL`. -/
def Client.BaseURL (c : Client) : String := c.baseURL

/-- The method `Client.SetAuthToken`. -/
def Client.SetAuthToken (c : Client) (token : String) : Client :=
  { c with authToken := token }

/-- The request `Client.get` hands to `httpClient.Do` (client.go 151-158). -/
def Client.getRequest (c : Client) (path : String) : HttpRequest :=
  let req : HttpRequest := { Method := "GET", URL := c.baseURL ++ path, Body := none, Header := [] }
  if c.authToken ≠ "" then
    { req with Header := headerSet req.Header "Authorization" ("Bearer " ++ c.authToken) }
  else req

/-- The request `Client.post` hands to `httpClient.Do` (client.go 120-128);
`jsonData` is the marshalled body. -/
def Client.postRequest (c : Client) (path jsonData : String) : HttpRequest :=
  let req : HttpRequest :=
    { Method := "POST", URL := c.baseURL ++ path, Body := some jsonData
      Header := headerSet [] "Content-Type" "application/json" }
  if c.authToken ≠ "" then
    { req with Header := headerSet req.Header "Authorization" ("Bearer " ++ c.authToken) }
  else req

/-- Lines 136-147 and 166-177 of `client.go`: the treatment of a response,
shared by `get` and `post`; `decode` is the JSON decoding into the response
value (every caller passes a non-nil `response`). -/
def handleResponse {α : Type} (decode : String → Except Err α) (resp : HttpResponse) :
    Except Err α :=
  if resp.StatusCode < 200 ∨ resp.StatusCode ≥ 300 then
    .error (Err.msg ("API error (" ++ toString resp.StatusCode ++ "): " ++ resp.Body))
  else
    match decode resp.Body with
    | .error e => .error (Err.wrap "failed to decode response: " e)
    | .ok v => .ok v

/-- The method `Client.get`. -/
def Client.get {α : Type} (c : Client) (net : Transport) (decode : String → Except Err α)
    (path : String) : Except Err α :=
  match net.NewRequest "GET" (c.baseURL ++ path) with
  | some e => .error (Err.wrap "failed to create request: " e)
  | none =>
      match net.Do (c.getRequest path) with
      | .error e => .error (Err.wrap "request failed: " e)
      | .ok resp => handleResponse decode resp

/-- The method `Client.post`; `marshal` is the outcome of `json.Marshal(body)`. -/
def Client.post {α : Type} (c : Client) (net : Transport) (decode : String → Except Err α)
    (path : String) (marshal : Except Err String) : Except Err α :=
  match marshal with
  | .error e => .error (Err.wrap "failed to marshal request: " e)
  | .ok jsonData =>
      match net.NewRequest "POST" (c.baseURL ++ path) with
      | some e => .error (Err.wrap "failed to create request: " e)
      | none =>
          match net.Do (c.postRequest path jsonData) with
          | .error e => .error (Err.wrap "request failed: " e)
          | .ok resp => handleResponse decode resp

/-- The method `Client.GetStatus`. -/
def Client.GetStatus (c : Client) (net : Transport)
    (decode : String → Except Err StatusResponse) (deploymentID : String) :
    Except Err StatusResponse :=
  c.get net decode ("/api/status/" ++ deploymentID)

/-- The connection request of `WebSocketClient.Connect`: `dialer.Dial(url, nil)`
is called with the URL of `connectURL` and no request header. -/
def WebSocketClient.connectRequest (c : WebSocketClient) (deploymentID : String) :
    HttpRequest :=
  { Method := "GET", URL := connectURL c.baseURL deploymentID, Body := none, Header := [] }

/-! ## The file collector (`files/project.go`) -/

/-- A `*` of a `filepath.Match` pattern: it matches any sequence of characters
other than the separator `/`; `k` matches the rest of the pattern. -/
def matchStar (k : List Char → Bool) : List Char → Bool
  | [] => k []
  | c :: cs => k (c :: cs) || (c != '/' && matchStar k cs)

/-- The function `filepath.Match` of the Go library on the characters of a
pattern and of a name, for patterns built from literal characters, `*` (any
sequence of non-separator characters) and `?` (one non-separator character);
the patterns of `shouldIgnore` use nothing else. The whole name must match. -/
def globMatch : List Char → List Char → Bool
  | [], name => name.isEmpty
  | p :: ps, name =>
      if p = '*' then matchStar (globMatch ps) name
      else
        match name with
        | [] => false
        | c :: cs =>
            if p = '?' then c != '/' && globMatch ps cs
            else p == c && globMatch ps cs

/-- The call `filepath.Match(pattern, name)`. -/
def filepathMatch (pattern name : String) : Bool := globMatch pattern.data name.data

/-- The list `ignorePatterns` of `shouldIgnore`. -/
def ignorePatterns : List String :=
  [".git/", "__pycache__/", "*.pyc", ".env", "node_modules/", ".backend-im/"]

/-- The loop of `shouldIgnore` over the patterns. The test
`len(path) >= len(pattern) && path[:len(pattern)] == pattern` compares the
first bytes of the path with the pattern, which is `HasPrefix path pattern`. -/
def shouldIgnoreLoop (path : String) : List String → Bool
  | [] => false
  | pattern :: rest =>
      if filepathMatch pattern path then true
      else if pattern.data.getLast? = some '/' ∧ HasPrefix path pattern then true
      else shouldIgnoreLoop path rest

/-- The function `shouldIgnore`. -/
def shouldIgnore (path : String) : Bool := shouldIgnoreLoop path ignorePatterns

/-- The function `filepath.Base`: the last element of a path, after removal of
trailing separators; `.` for the empty path and `/` for a path of separators
only. -/
def filepathBase (path : String) : String :=
  if path = "" then "."
  else
    let trimmed := (path.data.reverse.dropWhile (fun c => c == '/'))
    if trimmed = [] then "/"
    else ⟨(trimmed.takeWhile (fun c => c != '/')).reverse⟩

/-- One call of the function that `filepath.Walk` is given: the path visited,
its path relative to the project directory (`filepath.Rel`), whether it is a
directory, the error the walk reports for it, and the outcome of
`os.ReadFile(path)`. -/
structure WalkEntry where
  path : String
  relPath : String
  isDir : Bool
  walkErr : Option Err
  content : Except Err String

/-- The assignment `files[key] = value` on a map kept as a list of pairs. -/
def mapInsert (files : List (String × String)) (key value : String) : List (String × String) :=
  files.filter (fun kv => kv.1 != key) ++ [(key, value)]

/-- The function passed to `filepath.Walk` by `ReadProjectFiles` (project.go
34-62): the map after the call and the error returned. -/
def walkFn (files : List (String × String)) (e : WalkEntry) :
    List (String × String) × Option Err :=
  match e.walkErr with
  | some err => (files, some err)
  | none =>
      if e.isDir then (files, none)
      else if (filepathBase e.path).data.head? = some '.' then (files, none)
      else if shouldIgnore e.relPath then (files, none)
      else
        match e.content with
        | .error err =>
            (files, some (Err.wrap ("failed to read file " ++ e.path ++ ": ") err))
        | .ok content => (mapInsert files e.relPath content, none)

/-- The walk: the function is called on the entries in order and the first
error it returns ends the walk. -/
def walkLoop (files : List (String × String)) : List WalkEntry →
    List (String × String) × Option Err
  | [] => (files, none)
  | e :: rest =>
      match walkFn files e with
      | (files1, some err) => (files1, some err)
      | (files1, none) => walkLoop files1 rest

/-- The function `ReadProjectFiles`; `fs projectDir` lists the entries that
`filepath.Walk(projectDir, ...)` visits, in order. -/
def ReadProjectFiles (fs : String → List WalkEntry) (projectDir : String) :
    List (String × String) × Option Err :=
  walkLoop [] (fs projectDir)

/-- The directory components of a relative path: its elements but the last. -/
def dirComponents (relPath : String) : List String :=
  ((relPath.data.splitOn '/').dropLast).map String.mk

/-- A file entry of a walk of the directory `proj`, readable, with the given
relative path and content. -/
def exFile (relPath content : String) : WalkEntry :=
  { path := "proj/" ++ relPath, relPath := relPath, isDir := false, walkErr := none
    content := .ok content }

/-- A directory entry of a walk of the directory `proj`. -/
def exDir (relPath : String) : WalkEntry :=
  { path := "proj/" ++ relPath, relPath := relPath, isDir := true, walkErr := none
    content := .error (Err.msg "is a directory") }

/-! ## The deploy command (`NewDeployCommand`, deploy.go 14-99, and `main`) -/

/-- The struct `api.DeployResponse`. -/
structure DeployResponse where
  DeploymentID : String := ""
  ProjectID : String := ""
  CommitHash : String := ""
  Status : String := ""
  WebSocketURL : String := ""
  deriving DecidableEq, Repr

/-- What the deploy command writes: a line on standard output, a line on
standard error, or a line of one of the two watches. -/
inductive CmdLine where
  | out (text : String)
  | warn (text : String)
  | watch (line : Line)
  deriving DecidableEq, Repr

/-- What the command reads from its surroundings: the flags `watch`, `dir` and
`project`, the positional arguments, the outcome of `auth.LoadToken` (the
access token), the file system, the environment variable `BACKEND_IM_API_URL`,
the outcome of `apiClient.Deploy`, the answers to the status requests and the
outcome of dialling the stream endpoint. -/
structure DeployEnv where
  watch : Bool
  dir : String
  project : String
  args : List String
  LoadToken : Except Err String
  fs : String → List WalkEntry
  apiURL : String
  Deploy : Client → List (String × String) → String → Except Err DeployResponse
  GetStatus : Nat → Except Err StatusResponse
  dial : String → Except Err Conn

/-- What `RunE` returns and what the command has written. -/
structure CmdResult where
  err : Option Err
  out : List CmdLine
  deriving DecidableEq, Repr

/-- Lines 73-90 of `RunE`: the watch of the deployment and the return value. -/
def deployWatch (env : DeployEnv) (apiClient : Client) (deployResp : DeployResponse)
    (out : List CmdLine) : CmdResult :=
  if env.watch then
    let r := streamDeploymentUpdates env.dial apiClient.BaseURL deployResp.DeploymentID
      deployResp.WebSocketURL
    match r.err with
    | some e =>
        { err := some (Err.wrap "failed to stream updates: " e)
          out := out ++ r.out.map CmdLine.watch }
    | none => { err := none, out := out ++ r.out.map CmdLine.watch }
  else
    let out1 := out ++ [CmdLine.out "⏳ Waiting for deployment to complete..."]
    let r := pollForDeploymentURL env.GetStatus
    match r.err with
    | some e =>
        { err := none
          out := out1 ++ r.out.map CmdLine.watch ++
            [CmdLine.warn ("⚠️  Warning: Could not get deployment URL: " ++ e.Error),
             CmdLine.out "💡 Use --watch flag to see real-time progress"] }
    | none =>
        if r.url ≠ "" then
          { err := none
            out := out1 ++ r.out.map CmdLine.watch ++
              [CmdLine.out ("🌐 Deployment URL: " ++ r.url)] }
        else { err := none, out := out1 ++ r.out.map CmdLine.watch }

/-- The function `RunE` of the deploy command. The error of a failed
`auth.LoadToken` is wrapped between two pieces of text; the model keeps its
message. -/
def deployRunE (env : DeployEnv) : CmdResult :=
  let projectID :=
    match env.args with
    | a :: _ => if env.project = "" then a else env.project
    | [] => env.project
  let projectDir := if env.dir = "" then "." else env.dir
  if projectID = "" then
    { err := some (Err.msg
        "project ID is required (use: deploy <project-id> or --project flag)")
      out := [] }
  else
    match env.LoadToken with
    | .error e =>
        { err := some (Err.msg ("authentication required: " ++ e.Error ++
            "\nRun 'backend-im auth' first"))
          out := [] }
    | .ok accessToken =>
        let out1 := [CmdLine.out ("📂 Reading files from: " ++ projectDir)]
        match ReadProjectFiles env.fs projectDir with
        | (_, some e) =>
            { err := some (Err.wrap "failed to read project files: " e), out := out1 }
        | (fileMap, none) =>
            if fileMap.length = 0 then
              { err := some (Err.msg ("no files found in " ++ projectDir)), out := out1 }
            else
              let out2 := out1 ++
                [CmdLine.out ("📦 Found " ++ toString fileMap.length ++ " files"),
                 CmdLine.out ("📁 Project ID: " ++ projectID)]
              let apiClient := (NewClient env.apiURL).SetAuthToken accessToken
              let out3 := out2 ++ [CmdLine.out "🚀 Deploying to Backend.im..."]
              match env.Deploy apiClient fileMap projectID with
              | .error e => { err := some (Err.wrap "deployment failed: " e), out := out3 }
              | .ok deployResp =>
                  deployWatch env apiClient deployResp
                    (out3 ++
                      [CmdLine.out "✅ Deployment started!",
                       CmdLine.out ("📋 Deployment ID: " ++ deployResp.DeploymentID),
                       CmdLine.out ("🔑 Commit Hash: " ++ deployResp.CommitHash),
                       CmdLine.out ("📊 Status: " ++ deployResp.Status)])

/-- Lines 32-35 of `main`: the exit status of the process for the error the
command returned. -/
def exitStatus (err : Option Err) : Nat :=
  match err with
  | some _ => 1
  | none => 0

/-- Lines 22-27 of `RunE`: the project ID the command uses, the value of the
flag `--project` or, when that is empty, the first positional argument. -/
def deployProjectID (env : DeployEnv) : String :=
  match env.args with
  | a :: _ => if env.project = "" then a else env.project
  | [] => env.project

/-- An environment in which the command reaches the watch of a deployment
`dep-1`: project `demo`, one file, a stored token, a deploy request that is
accepted. -/
def exEnv (watch : Bool) (responses : List StatusResponse)
    (updates : List DeploymentUpdate) : DeployEnv :=
  { watch := watch, dir := "", project := "demo", args := []
    LoadToken := .ok "secret-token"
    fs := fun _ => [exFile "main.py" "print(1)"]
    apiURL := ""
    Deploy := fun _ _ projectID =>
      .ok { DeploymentID := "dep-1", ProjectID := projectID, CommitHash := "a1b2c3d4e5f6"
            Status := "queued" }
    GetStatus := exServer responses
    dial := exDial updates }

/-! ## The mock service (`mock-api/main.go`) -/

/-- The first `n` bytes of a string as they appear in a JSON text: the
characters that lie entirely within the first `n` bytes, followed, when byte
`n` falls inside a multi-byte character, by one replacement character U+FFFD
for each byte of that character among the first `n` (the JSON encoder writes
every byte that is not valid UTF-8 as U+FFFD). -/
def takeBytes : List Char → Nat → List Char
  | [], _ => []
  | c :: cs, n =>
      if c.utf8Size ≤ n then c :: takeBytes cs (n - c.utf8Size)
      else List.replicate n '\uFFFD'

/-- The Go slice expression `s[:n]`, the first `n` bytes of `s`, as the mock
service sends it in a JSON text; `none` is the run-time panic "slice bounds out
of range" raised when `s` has fewer than `n` bytes. -/
def slicePrefix (s : String) (n : Nat) : Option String :=
  if n ≤ s.utf8ByteSize then some ⟨takeBytes s.data n⟩ else none

/-- How a handler of the mock service ends: with a run-time panic (the HTTP
server aborts the request), with an HTTP error reply, or normally with what it
has sent. -/
inductive HandlerResult (α : Type) where
  | panic
  | httpError (code : Nat) (body : String)
  | ok (sent : α)
  deriving DecidableEq, Repr

/-- The JSON object of a status reply, key by key, each string as it stands in
the JSON text; `url` is `none` when the key is absent. -/
structure MockStatus where
  id : String
  projectId : String
  commitHash : String
  status : String
  url : Option String
  logs : List String
  deriving DecidableEq, Repr

/-- The two global maps of the mock service, `deploymentStatuses` and
`deploymentStartTimes`; a time is a number of nanoseconds. -/
structure MockStore where
  deploymentStatuses : String → Option MockStatus
  deploymentStartTimes : String → Option Int

/-- The readings of the clock during one status request: the two calls of
`time.Now()` made for a deployment without start time (the first is stored, the
second is the start time of this request) and the call inside `time.Since`. -/
structure ClockReads where
  onStore : Int
  onStart : Int
  onSince : Int
  deriving DecidableEq, Repr

/-- The constant `time.Second`, in nanoseconds. -/
def second : Int := 1000000000

/-- Lines 203-214 of `mockStatus`: the reply, with the key `url` only when the
URL is not empty. -/
def mockReply (deploymentID commitHash status url : String) (logs : List String) :
    MockStatus :=
  { id := deploymentID, projectId := "user123-myproject", commitHash := commitHash
    status := status, url := if url ≠ "" then some url else none, logs := logs }

/-- The handler `mockStatus`; `deploymentID` is the request path after
`/api/status/`. It gives the maps after the request and the reply. -/
def mockStatus (st : MockStore) (deploymentID : String) (clk : ClockReads) :
    MockStore × HandlerResult MockStatus :=
  if deploymentID = "" then (st, .httpError 400 "Deployment ID required\n")
  else
    match st.deploymentStatuses deploymentID with
    | some status => (st, .ok status)
    | none =>
        let started : MockStore × Int :=
          match st.deploymentStartTimes deploymentID with
          | some t => (st, t)
          | none =>
              ({ st with deploymentStartTimes := fun k =>
                   if k = deploymentID then some clk.onStore else st.deploymentStartTimes k },
               clk.onStart)
        let st1 := started.1
        let elapsed := clk.onSince - started.2
        let commitHash := "a1b2c3d4e5f6"
        if elapsed < 3 * second then
          (st1, .ok (mockReply deploymentID commitHash "queued" "" ["📦 Deployment queued..."]))
        else if elapsed < 6 * second then
          (st1, .ok (mockReply deploymentID commitHash "committing" ""
            ["📦 Committing files to repository..."]))
        else if elapsed < 9 * second then
          (st1, .ok (mockReply deploymentID commitHash "creating_namespace" ""
            ["🏗️ Creating Kubernetes namespace..."]))
        else if elapsed < 12 * second then
          (st1, .ok (mockReply deploymentID commitHash "creating_pvc" ""
            ["💾 Creating Persistent Volume Claim..."]))
        else if elapsed < 15 * second then
          (st1, .ok (mockReply deploymentID commitHash "building" ""
            ["🔨 Building container image..."]))
        else if elapsed < 18 * second then
          (st1, .ok (mockReply deploymentID commitHash "deploying" ""
            ["🚀 Deploying to Kubernetes cluster..."]))
        else
          match slicePrefix deploymentID 12 with
          | none => (st1, .panic)
          | some head =>
              let url := "https://" ++ head ++ ".backend.im"
              let logs := ["✅ Deployment complete!"]
              let stored : MockStatus :=
                { id := deploymentID, projectId := "user123-myproject", commitHash := commitHash
                  status := "complete", url := some url, logs := logs }
              ({ st1 with deploymentStatuses := fun k =>
                   if k = deploymentID then some stored else st1.deploymentStatuses k },
               .ok (mockReply deploymentID commitHash "complete" url logs))

/-- The maps of the mock service after a list of status requests, each with its
deployment ID and clock readings. -/
def mockServe (st : MockStore) : List (String × ClockReads) → MockStore
  | [] => st
  | (id, clk) :: rest => mockServe (mockStatus st id clk).1 rest

/-- The slice `stages` of `mockWebSocket` (main.go 256-294), each message given
as the `DeploymentUpdate` its JSON text decodes to; `head` is
`deploymentID[:12]`. -/
def mockStages (deploymentID head : String) : List DeploymentUpdate :=
  [ { DeploymentID := deploymentID, ProjectID := "user123-myproject"
      CommitHash := "a1b2c3d4e5f6", Status := "committing"
      Logs := ["📦 Committing files to repository..."] },
    { DeploymentID := deploymentID, ProjectID := "user123-myproject"
      CommitHash := "a1b2c3d4e5f6", Status := "creating_namespace"
      Logs := ["🏗️ Creating Kubernetes namespace..."] },
    { DeploymentID := deploymentID, ProjectID := "user123-myproject"
      CommitHash := "a1b2c3d4e5f6", Status := "creating_pvc"
      Logs := ["💾 Creating Persistent Volume Claim..."] },
    { DeploymentID := deploymentID, ProjectID := "user123-myproject"
      CommitHash := "a1b2c3d4e5f6", Status := "deploying"
      Logs := ["🚀 Deploying application..."] },
    { DeploymentID := deploymentID, ProjectID := "user123-myproject"
      CommitHash := "a1b2c3d4e5f6", Status := "complete"
      URL := "https://" ++ head ++ ".backend.im"
      Logs := ["✅ Deployment complete!"] } ]

/-- The loop of `mockWebSocket` over the stages: the messages written before
the first write that fails; `writeOk i` says whether write number `i` succeeds. -/
def mockSend (writeOk : Nat → Bool) : Nat → List DeploymentUpdate → List DeploymentUpdate
  | _, [] => []
  | i, m :: rest => if writeOk i then m :: mockSend writeOk (i + 1) rest else []

/-- The handler `mockWebSocket`; `deploymentID` is the query parameter
`deploymentId`, `upgrade` the HTTP error with which `upgrader.Upgrade` fails
(`none` when the connection is upgraded). It gives the messages sent. -/
def mockWebSocket (deploymentID : String) (upgrade : Option (Nat × String))
    (writeOk : Nat → Bool) : HandlerResult (List DeploymentUpdate) :=
  if deploymentID = "" then .httpError 400 "deploymentId required\n"
  else
    match upgrade with
    | some (code, body) => .httpError code body
    | none =>
        match slicePrefix deploymentID 12 with
        | none => .panic
        | some head => .ok (mockSend writeOk 0 (mockStages deploymentID head))

/-- Written from the specification: the canonical order of the stages. -/
def canonicalStages : List String :=
  ["queued", "committing", "creating_namespace", "creating_pvc", "building", "deploying",
   "complete"]

/-- Written from the specification of the mock polling schedule: the stage at
index `min (floor (e / 3s)) 6` of the canonical order, for an elapsed time `e`
in nanoseconds. -/
def stageAt (e : Int) : String :=
  canonicalStages.getD (min (e / (3 * second)).toNat 6) ""

/-- The mock service before any request. -/
def emptyStore : MockStore :=
  { deploymentStatuses := fun _ => none, deploymentStartTimes := fun _ => none }

/-- The mock service after the deployment with the given ID was first asked for
at time 0. -/
def startedStore (id : String) : MockStore :=
  { deploymentStatuses := fun _ => none
    deploymentStartTimes := fun k => if k = id then some 0 else none }

/-- Clock readings of a request made at one instant `t`. -/
def atTime (t : Int) : ClockReads := { onStore := t, onStart := t, onSince := t }

/-- The elapsed time `mockStatus` computes for a deployment that is not
memoized: the reading of the clock inside `time.Since` minus the start time,
which is the stored one or, for a deployment seen for the first time, the
second reading of this request. -/
def mockElapsed (st : MockStore) (deploymentID : String) (clk : ClockReads) : Int :=
  clk.onSince -
    (match st.deploymentStartTimes deploymentID with
     | some t => t
     | none => clk.onStart)

/-- The first four messages of `mockStages`, all non-terminal. -/
def mockStagesPending (deploymentID head : String) : List DeploymentUpdate :=
  (mockStages deploymentID head).dropLast

/-- The last message of `mockStages`, with stage `complete` and the URL. -/
def mockStageComplete (deploymentID head : String) : DeploymentUpdate :=
  { DeploymentID := deploymentID, ProjectID := "user123-myproject"
    CommitHash := "a1b2c3d4e5f6", Status := "complete"
    URL := "https://" ++ head ++ ".backend.im"
    Logs := ["✅ Deployment complete!"] }

/-! ## Lemmas on the polling watch -/

theorem pollVerdict_none_iff (s : StatusResponse) :
    pollVerdict s = none ↔ s.Status ≠ "failed" ∧ (s.Status = "complete" → s.URL = "") := by
  unfold pollVerdict
  by_cases hc : s.Status = "complete"
  · by_cases hu : s.URL = "" <;> simp [hc, hu]
  · by_cases hf : s.Status = "failed" <;> simp [hc, hf]

theorem pollVerdict_nonTerminal {s : StatusResponse} (h : NonTerminal s.Status) :
    pollVerdict s = none := by
  rw [pollVerdict_none_iff]
  exact ⟨h.2, fun hc => absurd hc h.1⟩

theorem pollVerdict_complete {s : StatusResponse} (hc : s.Status = "complete")
    (hu : s.URL ≠ "") : pollVerdict s = some (s.URL, none) := by
  simp [pollVerdict, hc, hu]

theorem pollVerdict_failed {s : StatusResponse} (hf : s.Status = "failed") :
    pollVerdict s = some ("", some (Err.msg "deployment failed")) := by
  simp [pollVerdict, hf]

theorem pollVerdict_some {s : StatusResponse} {u : String} {e : Option Err}
    (h : pollVerdict s = some (u, e)) :
    (s.Status = "complete" ∧ s.URL ≠ "" ∧ u = s.URL ∧ e = none) ∨
    (s.Status = "failed" ∧ u = "" ∧ e = some (Err.msg "deployment failed")) := by
  unfold pollVerdict at h
  by_cases hc : s.Status = "complete"
  · by_cases hu : s.URL = ""
    · simp [hc, hu] at h
    · simp [hc, hu] at h
      exact Or.inl ⟨hc, hu, h.1.symm, h.2.symm⟩
  · by_cases hf : s.Status = "failed"
    · simp [hc, hf] at h
      exact Or.inr ⟨hf, h.1.symm, h.2.symm⟩
    · simp [hc, hf] at h

theorem pollLoop_zero (G : Nat → Except Err StatusResponse) (a : Nat) (last : String)
    (out : List Line) :
    pollLoop G 0 a last out =
      { url := "", err := some pollTimeout, out := out, requests := a, seen := [] } := by
  have h : "timeout waiting for deployment URL (after " ++ toString maxAttempts ++ " seconds)"
      = "timeout waiting for deployment URL (after 30 seconds)" := by decide
  simp only [pollLoop, pollTimeout, h]

theorem pollLoop_error {G : Nat → Except Err StatusResponse} {a : Nat} {e : Err}
    (h : G a = .error e) (left : Nat) (last : String) (out : List Line) :
    pollLoop G (left + 1) a last out =
      { url := "", err := some e, out := out, requests := a + 1, seen := [] } := by
  simp [pollLoop, h]

theorem pollLoop_stop {G : Nat → Except Err StatusResponse} {a : Nat} {s : StatusResponse}
    {u : String} {e : Option Err} (h : G a = .ok s) (hv : pollVerdict s = some (u, e))
    (left : Nat) (last : String) (out : List Line) :
    pollLoop G (left + 1) a last out =
      { url := u, err := e, out := (pollShow last out s).2, requests := a + 1, seen := [s] } := by
  simp [pollLoop, h, hv]

theorem pollLoop_continue {G : Nat → Except Err StatusResponse} {a : Nat} {s : StatusResponse}
    (h : G a = .ok s) (hv : pollVerdict s = none)
    (left : Nat) (last : String) (out : List Line) :
    pollLoop G (left + 1) a last out =
      { pollLoop G left (a + 1) (pollShow last out s).1 (pollShow last out s).2 with
        seen := s :: (pollLoop G left (a + 1) (pollShow last out s).1 (pollShow last out s).2).seen } := by
  simp [pollLoop, h, hv]

theorem pollLoop_skip (G : Nat → Except Err StatusResponse) :
    ∀ (n left a : Nat) (last : String) (out : List Line),
      (∀ i < n, ∃ s, G (a + i) = .ok s ∧ pollVerdict s = none) →
      ∃ last1 out1 seen1, seen1.length = n ∧
        pollLoop G (left + n) a last out =
          { pollLoop G left (a + n) last1 out1 with
            seen := seen1 ++ (pollLoop G left (a + n) last1 out1).seen } := by
  intro n
  induction n with
  | zero =>
      intro left a last out _
      exact ⟨last, out, [], rfl, by simp⟩
  | succ n ih =>
      intro left a last out h
      obtain ⟨s, hs, hv⟩ := h 0 (Nat.succ_pos n)
      rw [Nat.add_zero] at hs
      have hshift : ∀ i < n, ∃ t, G (a + 1 + i) = .ok t ∧ pollVerdict t = none := by
        intro i hi
        have := h (i + 1) (Nat.succ_lt_succ hi)
        rwa [show a + (i + 1) = a + 1 + i by omega] at this
      obtain ⟨last1, out1, seen1, hlen, heq⟩ :=
        ih left (a + 1) (pollShow last out s).1 (pollShow last out s).2 hshift
      refine ⟨last1, out1, s :: seen1, by simp [hlen], ?_⟩
      rw [show left + (n + 1) = (left + n) + 1 by omega, pollLoop_continue hs hv, heq]
      simp [show a + 1 + n = a + (n + 1) by omega]

theorem pollLoop_requests_ge (G : Nat → Except Err StatusResponse) :
    ∀ (left a : Nat) (last : String) (out : List Line),
      a ≤ (pollLoop G left a last out).requests ∧
      (0 < left → a < (pollLoop G left a last out).requests) := by
  intro left
  induction left with
  | zero => intro a last out; simp [pollLoop_zero]
  | succ left ih =>
      intro a last out
      cases hg : G a with
      | error e => simp [pollLoop_error hg]
      | ok s =>
          cases hv : pollVerdict s with
          | some r =>
              obtain ⟨u, e⟩ := r
              simp [pollLoop_stop hg hv]
          | none =>
              rw [pollLoop_continue hg hv]
              have := (ih (a + 1) (pollShow last out s).1 (pollShow last out s).2).1
              simp only
              omega

theorem pollLoop_congr (G G1 : Nat → Except Err StatusResponse) :
    ∀ (left a : Nat) (last : String) (out : List Line),
      (∀ i, a ≤ i → i < (pollLoop G left a last out).requests → G1 i = G i) →
      pollLoop G1 left a last out = pollLoop G left a last out := by
  intro left
  induction left with
  | zero => intro a last out _; simp [pollLoop_zero]
  | succ left ih =>
      intro a last out h
      have ha : G1 a = G a :=
        h a (Nat.le_refl a) ((pollLoop_requests_ge G (left + 1) a last out).2 (Nat.succ_pos left))
      cases hg : G a with
      | error e =>
          rw [pollLoop_error hg, pollLoop_error (ha.trans hg)]
      | ok s =>
          cases hv : pollVerdict s with
          | some r =>
              obtain ⟨u, e⟩ := r
              rw [pollLoop_stop hg hv, pollLoop_stop (ha.trans hg) hv]
          | none =>
              rw [pollLoop_continue hg hv] at h
              rw [pollLoop_continue hg hv, pollLoop_continue (ha.trans hg) hv]
              rw [ih (a + 1) (pollShow last out s).1 (pollShow last out s).2
                (fun i hi hlt => h i (by omega) hlt)]

theorem pollLoop_ok (G : Nat → Except Err StatusResponse) :
    ∀ (left a : Nat) (last : String) (out : List Line),
      (pollLoop G left a last out).err = none →
      ∃ k, a ≤ k ∧ k < a + left ∧
        (∀ i, a ≤ i → i < k → ∃ s, G i = .ok s ∧ pollVerdict s = none) ∧
        ∃ s, G k = .ok s ∧ s.Status = "complete" ∧ s.URL ≠ "" ∧
          (pollLoop G left a last out).url = s.URL ∧
          (pollLoop G left a last out).requests = k + 1 := by
  intro left
  induction left with
  | zero => intro a last out h; simp [pollLoop_zero] at h
  | succ left ih =>
      intro a last out h
      cases hg : G a with
      | error e => simp [pollLoop_error hg] at h
      | ok s =>
          cases hv : pollVerdict s with
          | some r =>
              obtain ⟨u, e⟩ := r
              rw [pollLoop_stop hg hv] at h ⊢
              simp only at h
              rcases pollVerdict_some hv with ⟨hc, hu, hurl, _⟩ | ⟨_, _, he⟩
              · exact ⟨a, Nat.le_refl a, by omega, fun i h1 h2 => absurd h2 (by omega),
                  s, hg, hc, hu, hurl, rfl⟩
              · rw [he] at h; cases h
          | none =>
              rw [pollLoop_continue hg hv] at h ⊢
              simp only at h ⊢
              obtain ⟨k, hk1, hk2, hpre, t, ht⟩ :=
                ih (a + 1) (pollShow last out s).1 (pollShow last out s).2 h
              refine ⟨k, by omega, by omega, ?_, t, ht⟩
              intro i hi1 hi2
              by_cases hia : i = a
              · subst hia; exact ⟨s, hg, hv⟩
              · exact hpre i (by omega) hi2

theorem pollLoop_out (G : Nat → Except Err StatusResponse) :
    ∀ (left a : Nat) (last : String) (out : List Line),
      (pollLoop G left a last out).out =
        (pollShowAll last out (pollLoop G left a last out).seen).2 := by
  intro left
  induction left with
  | zero => intro a last out; simp [pollLoop_zero, pollShowAll]
  | succ left ih =>
      intro a last out
      cases hg : G a with
      | error e => simp [pollLoop_error hg, pollShowAll]
      | ok s =>
          cases hv : pollVerdict s with
          | some r =>
              obtain ⟨u, e⟩ := r
              simp [pollLoop_stop hg hv, pollShowAll]
          | none =>
              rw [pollLoop_continue hg hv]
              simp only [pollShowAll]
              exact ih _ _ _

theorem pollLoop_seen (G : Nat → Except Err StatusResponse) :
    ∀ (left a : Nat) (last : String) (out : List Line) (i : Nat) (s : StatusResponse),
      (pollLoop G left a last out).seen.get? i = some s → G (a + i) = .ok s := by
  intro left
  induction left with
  | zero => intro a last out i s h; simp [pollLoop_zero] at h
  | succ left ih =>
      intro a last out i s h
      cases hg : G a with
      | error e => simp [pollLoop_error hg] at h
      | ok t =>
          cases hv : pollVerdict t with
          | some r =>
              obtain ⟨u, e⟩ := r
              rw [pollLoop_stop hg hv] at h
              cases i with
              | zero => simp at h; rw [← h]; exact hg
              | succ i => simp at h
          | none =>
              rw [pollLoop_continue hg hv] at h
              cases i with
              | zero => simp at h; rw [← h]; exact hg
              | succ i =>
                  simp only [List.get?_cons_succ] at h
                  have := ih _ _ _ i s h
                  rwa [show a + 1 + i = a + (i + 1) by omega] at this

theorem statusStages_append (a b : List Line) :
    statusStages (a ++ b) = statusStages a ++ statusStages b := by
  simp [statusStages]

theorem shownLogs_append (a b : List Line) :
    shownLogs (a ++ b) = shownLogs a ++ shownLogs b := by
  simp [shownLogs]

theorem urlLines_append (a b : List Line) :
    urlLines (a ++ b) = urlLines a ++ urlLines b := by
  simp [urlLines]

theorem statusStages_pollShowAll :
    ∀ (l : List StatusResponse) (last : String) (out : List Line),
      statusStages (pollShowAll last out l).2 =
        statusStages out ++ stageChanges (some last) (l.map (fun s => s.Status)) := by
  intro l
  induction l with
  | nil => intro last out; simp [pollShowAll, stageChanges]
  | cons s rest ih =>
      intro last out
      simp only [pollShowAll, List.map_cons, stageChanges]
      rw [ih]
      by_cases h : s.Status = last
      · simp [pollShow, h]
      · have h2 : ¬ last = s.Status := fun e => h e.symm
        simp [pollShow, h, h2, statusStages_append, statusStages, Line.stage?]

theorem shownLogs_pollShowAll :
    ∀ (l : List StatusResponse) (last : String) (out : List Line),
      shownLogs (pollShowAll last out l).2 = shownLogs out ++ pollLogsShown last l := by
  intro l
  induction l with
  | nil => intro last out; simp [pollShowAll, pollLogsShown]
  | cons s rest ih =>
      intro last out
      simp only [pollShowAll, pollLogsShown]
      rw [ih]
      by_cases h : s.Status = last
      · simp [pollShow, h]
      · cases hl : s.Logs.getLast? <;>
          simp [pollShow, h, shownLogs_append, shownLogs, Line.log?, hl]

theorem stageChanges_first :
    ∀ (l : List String), (∀ s ∈ l, s ≠ "") →
      stageChanges (some "") l = stageChanges none l := by
  intro l h
  cases l with
  | nil => rfl
  | cons s rest =>
      have hs : s ≠ "" := h s (List.mem_cons_self s rest)
      have hs2 : ¬ "" = s := fun e => hs e.symm
      simp [stageChanges, hs2]

theorem stageChanges_destutter_aux :
    ∀ (l : List String) (a : String),
      a :: stageChanges (some a) l = List.destutter' (fun x y => x ≠ y) a l := by
  intro l
  induction l with
  | nil => intro a; simp [stageChanges]
  | cons b rest ih =>
      intro a
      rw [List.destutter'_cons]
      by_cases h : a = b
      · subst h
        simp [stageChanges, ih]
      · simp [stageChanges, h, ih]

theorem stageChanges_destutter (l : List String) :
    stageChanges none l = List.destutter (fun x y => x ≠ y) l := by
  cases l with
  | nil => rfl
  | cons a rest =>
      simp only [stageChanges, List.destutter]
      simpa using stageChanges_destutter_aux rest a

/-! ## Lemmas on the streaming watch -/

theorem deployCallback_fst (s : StreamState) (u : DeploymentUpdate) :
    (deployCallback s u).1 =
      { lastStatus := u.Status
        finalURL := if u.URL ≠ "" then u.URL else s.finalURL
        out := s.out
          ++ (if u.Status ≠ s.lastStatus then [Line.streamStatus u.Status u.Namespace u.PVC] else [])
          ++ u.Logs.map Line.log
          ++ (if u.Status = "complete" then
                [Line.blank,
                 if (if u.URL ≠ "" then u.URL else s.finalURL) ≠ "" then
                   Line.url (if u.URL ≠ "" then u.URL else s.finalURL)
                 else Line.completed]
              else []) } := by
  unfold deployCallback
  by_cases hl : u.Status = s.lastStatus
  · simp only [hl, ne_eq, not_true_eq_false, if_false]
    split_ifs <;> simp
  · simp only [hl, ne_eq, not_false_eq_true, if_true]
    split_ifs <;> simp

theorem deployCallback_snd (s : StreamState) (u : DeploymentUpdate) :
    (deployCallback s u).2 =
      if u.Status = "failed" then some (Err.msg "deployment failed") else none := by
  unfold deployCallback
  by_cases hc : u.Status = "complete" <;> by_cases hf : u.Status = "failed" <;>
    simp [hc, hf]

theorem deployCallback_snd_nonTerminal (s : StreamState) {u : DeploymentUpdate}
    (h : NonTerminal u.Status) : (deployCallback s u).2 = none := by
  rw [deployCallback_snd]; simp [h.2]

theorem callbackAll_append {σ : Type} (cb : σ → DeploymentUpdate → σ × Option Err) :
    ∀ (a b : List DeploymentUpdate) (s : σ),
      callbackAll cb s (a ++ b) = callbackAll cb (callbackAll cb s a) b := by
  intro a
  induction a with
  | nil => intro b s; rfl
  | cons x rest ih => intro b s; simp [callbackAll, ih]

theorem streamLoop_nil {σ : Type} (cb : σ → DeploymentUpdate → σ × Option Err)
    (eof : ReadErr) (s : σ) :
    streamLoop cb [] eof s = { state := s, err := readFailure eof, reads := 1, seen := [] } := by
  simp [streamLoop]

theorem streamLoop_fail {σ : Type} (cb : σ → DeploymentUpdate → σ × Option Err)
    (e : ReadErr) (rest : List ReadResult) (eof : ReadErr) (s : σ) :
    streamLoop cb (.fail e :: rest) eof s =
      { state := s, err := readFailure e, reads := 1, seen := [] } := by
  simp [streamLoop]

theorem streamLoop_err {σ : Type} {cb : σ → DeploymentUpdate → σ × Option Err}
    {s : σ} {u : DeploymentUpdate} {e : Err} (h : (cb s u).2 = some e)
    (rest : List ReadResult) (eof : ReadErr) :
    streamLoop cb (.msg u :: rest) eof s =
      { state := (cb s u).1, err := some e, reads := 1, seen := [u] } := by
  rcases hcb : cb s u with ⟨s1, e1⟩
  rw [hcb] at h
  simp only at h
  subst h
  simp [streamLoop, hcb]

theorem streamLoop_terminal {σ : Type} {cb : σ → DeploymentUpdate → σ × Option Err}
    {s : σ} {u : DeploymentUpdate} (h : (cb s u).2 = none)
    (ht : u.Status = "complete" ∨ u.Status = "failed")
    (rest : List ReadResult) (eof : ReadErr) :
    streamLoop cb (.msg u :: rest) eof s =
      { state := (cb s u).1, err := none, reads := 1, seen := [u] } := by
  rcases hcb : cb s u with ⟨s1, e1⟩
  rw [hcb] at h
  simp only at h
  subst h
  simp [streamLoop, hcb, ht]

theorem streamLoop_next {σ : Type} {cb : σ → DeploymentUpdate → σ × Option Err}
    {s : σ} {u : DeploymentUpdate} (h : (cb s u).2 = none)
    (ht : NonTerminal u.Status) (rest : List ReadResult) (eof : ReadErr) :
    streamLoop cb (.msg u :: rest) eof s =
      { streamLoop cb rest eof (cb s u).1 with
        reads := (streamLoop cb rest eof (cb s u).1).reads + 1
        seen := u :: (streamLoop cb rest eof (cb s u).1).seen } := by
  rcases hcb : cb s u with ⟨s1, e1⟩
  rw [hcb] at h
  simp only at h
  subst h
  have : ¬ (u.Status = "complete" ∨ u.Status = "failed") := by
    rintro (h | h)
    · exact ht.1 h
    · exact ht.2 h
  simp [streamLoop, hcb, this]

/-- Every way the loop treats a received update: the callback fails, or the
update is terminal, or the loop goes on. -/
theorem streamLoop_cases {σ : Type} (cb : σ → DeploymentUpdate → σ × Option Err)
    (s : σ) (u : DeploymentUpdate) :
    (∃ e, (cb s u).2 = some e) ∨
    ((cb s u).2 = none ∧ (u.Status = "complete" ∨ u.Status = "failed")) ∨
    ((cb s u).2 = none ∧ NonTerminal u.Status) := by
  cases h : (cb s u).2 with
  | some e => exact Or.inl ⟨e, rfl⟩
  | none =>
      right
      by_cases hc : u.Status = "complete"
      · exact Or.inl ⟨rfl, Or.inl hc⟩
      · by_cases hf : u.Status = "failed"
        · exact Or.inl ⟨rfl, Or.inr hf⟩
        · exact Or.inr ⟨rfl, hc, hf⟩

theorem streamLoop_state {σ : Type} (cb : σ → DeploymentUpdate → σ × Option Err) :
    ∀ (reads : List ReadResult) (eof : ReadErr) (s : σ),
      (streamLoop cb reads eof s).state = callbackAll cb s (streamLoop cb reads eof s).seen := by
  intro reads
  induction reads with
  | nil => intro eof s; simp [streamLoop_nil, callbackAll]
  | cons r rest ih =>
      intro eof s
      cases r with
      | fail e => simp [streamLoop_fail, callbackAll]
      | msg u =>
          rcases streamLoop_cases cb s u with ⟨e, he⟩ | ⟨he, ht⟩ | ⟨he, ht⟩
          · simp [streamLoop_err he, callbackAll]
          · simp [streamLoop_terminal he ht, callbackAll]
          · rw [streamLoop_next he ht]
            simp only [callbackAll]
            exact ih eof _

theorem streamLoop_skip {σ : Type} (cb : σ → DeploymentUpdate → σ × Option Err) :
    ∀ (pre : List DeploymentUpdate) (rest : List ReadResult) (eof : ReadErr) (s : σ),
      (∀ x ∈ pre, NonTerminal x.Status ∧ ∀ t, (cb t x).2 = none) →
      streamLoop cb (pre.map ReadResult.msg ++ rest) eof s =
        { streamLoop cb rest eof (callbackAll cb s pre) with
          reads := (streamLoop cb rest eof (callbackAll cb s pre)).reads + pre.length
          seen := pre ++ (streamLoop cb rest eof (callbackAll cb s pre)).seen } := by
  intro pre
  induction pre with
  | nil => intro rest eof s _; simp [callbackAll]
  | cons x pre ih =>
      intro rest eof s h
      have hx := h x (List.mem_cons_self x pre)
      have hpre : ∀ y ∈ pre, NonTerminal y.Status ∧ ∀ t, (cb t y).2 = none :=
        fun y hy => h y (List.mem_cons_of_mem x hy)
      simp only [List.map_cons, List.cons_append]
      rw [streamLoop_next (hx.2 s) hx.1, ih rest eof _ hpre]
      simp [callbackAll, Nat.add_assoc, Nat.add_comm]

theorem streamLoop_seen_dropLast {σ : Type} (cb : σ → DeploymentUpdate → σ × Option Err) :
    ∀ (reads : List ReadResult) (eof : ReadErr) (s : σ),
      ∀ x ∈ (streamLoop cb reads eof s).seen.dropLast, NonTerminal x.Status := by
  intro reads
  induction reads with
  | nil => intro eof s; simp [streamLoop_nil]
  | cons r rest ih =>
      intro eof s
      cases r with
      | fail e => simp [streamLoop_fail]
      | msg u =>
          rcases streamLoop_cases cb s u with ⟨e, he⟩ | ⟨he, ht⟩ | ⟨he, ht⟩
          · simp [streamLoop_err he]
          · simp [streamLoop_terminal he ht]
          · rw [streamLoop_next he ht]
            intro x hx
            simp only at hx
            cases hseen : (streamLoop cb rest eof (cb s u).1).seen with
            | nil => simp [hseen] at hx
            | cons y ys =>
                rw [hseen, List.dropLast_cons₂] at hx
                rcases List.mem_cons.mp hx with h | h
                · rw [h]; exact ht
                · exact ih eof _ x (by rw [hseen]; exact h)

/-- The updates handed to the callback are the first reads of the connection. -/
theorem streamLoop_seen_prefix {σ : Type} (cb : σ → DeploymentUpdate → σ × Option Err) :
    ∀ (reads : List ReadResult) (eof : ReadErr) (s : σ),
      (streamLoop cb reads eof s).seen.map ReadResult.msg <+: reads := by
  intro reads
  induction reads with
  | nil => intro eof s; simp [streamLoop_nil]
  | cons r rest ih =>
      intro eof s
      cases r with
      | fail e => simp [streamLoop_fail]
      | msg u =>
          rcases streamLoop_cases cb s u with ⟨e, he⟩ | ⟨he, ht⟩ | ⟨he, ht⟩
          · simp [streamLoop_err he, List.prefix_cons_inj]
          · simp [streamLoop_terminal he ht, List.prefix_cons_inj]
          · rw [streamLoop_next he ht]
            simp only [List.map_cons]
            exact (List.prefix_cons_inj _).mpr (ih eof _)

theorem statusStages_logs (l : List String) : statusStages (l.map Line.log) = [] := by
  induction l with
  | nil => rfl
  | cons x rest ih => simp [statusStages, Line.stage?]

theorem urlLines_logs (l : List String) : urlLines (l.map Line.log) = [] := by
  induction l with
  | nil => rfl
  | cons x rest ih => simp [urlLines, Line.url?]

theorem shownLogs_logs (l : List String) : shownLogs (l.map Line.log) = l := by
  induction l with
  | nil => rfl
  | cons x rest ih => simpa [shownLogs, Line.log?] using ih

theorem completed_not_mem_logs (l : List String) : Line.completed ∉ l.map Line.log := by
  simp

theorem deployCallback_finalURL (s : StreamState) (u : DeploymentUpdate) :
    (deployCallback s u).1.finalURL = if u.URL ≠ "" then u.URL else s.finalURL := by
  rw [deployCallback_fst]

theorem deployCallback_lastStatus (s : StreamState) (u : DeploymentUpdate) :
    (deployCallback s u).1.lastStatus = u.Status := by
  rw [deployCallback_fst]

theorem deployCallback_statusStages (s : StreamState) (u : DeploymentUpdate) :
    statusStages (deployCallback s u).1.out =
      statusStages s.out ++ (if u.Status ≠ s.lastStatus then [u.Status] else []) := by
  rw [deployCallback_fst]
  simp only [statusStages_append, statusStages_logs, List.append_nil]
  generalize (if u.URL ≠ "" then u.URL else s.finalURL) = f
  split_ifs <;> simp [statusStages, Line.stage?]

theorem deployCallback_shownLogs (s : StreamState) (u : DeploymentUpdate) :
    shownLogs (deployCallback s u).1.out = shownLogs s.out ++ u.Logs := by
  rw [deployCallback_fst]
  simp only [shownLogs_append, shownLogs_logs]
  generalize (if u.URL ≠ "" then u.URL else s.finalURL) = f
  split_ifs <;> simp [shownLogs, Line.log?]

theorem deployCallback_urlLines (s : StreamState) (u : DeploymentUpdate) :
    urlLines (deployCallback s u).1.out =
      urlLines s.out ++
        (if u.Status = "complete" ∧ (deployCallback s u).1.finalURL ≠ "" then
          [(deployCallback s u).1.finalURL] else []) := by
  rw [deployCallback_finalURL, deployCallback_fst]
  simp only [urlLines_append, urlLines_logs, List.append_nil]
  generalize (if u.URL ≠ "" then u.URL else s.finalURL) = f
  split_ifs <;> simp_all [urlLines, Line.url?]

theorem deployCallback_completed (s : StreamState) (u : DeploymentUpdate) :
    (Line.completed ∈ (deployCallback s u).1.out ↔
      Line.completed ∈ s.out ∨
        (u.Status = "complete" ∧ (deployCallback s u).1.finalURL = "")) := by
  rw [deployCallback_finalURL, deployCallback_fst]
  generalize (if u.URL ≠ "" then u.URL else s.finalURL) = f
  split_ifs <;> simp_all

theorem callbackAll_statusStages :
    ∀ (l : List DeploymentUpdate) (s : StreamState),
      statusStages (callbackAll deployCallback s l).out =
        statusStages s.out ++ stageChanges (some s.lastStatus) (l.map (fun u => u.Status)) := by
  intro l
  induction l with
  | nil => intro s; simp [callbackAll, stageChanges]
  | cons u rest ih =>
      intro s
      simp only [callbackAll, List.map_cons, stageChanges]
      rw [ih, deployCallback_statusStages, deployCallback_lastStatus]
      by_cases h : u.Status = s.lastStatus
      · simp [h]
      · have h2 : ¬ s.lastStatus = u.Status := fun e => h e.symm
        simp [h, h2]

theorem callbackAll_shownLogs :
    ∀ (l : List DeploymentUpdate) (s : StreamState),
      shownLogs (callbackAll deployCallback s l).out =
        shownLogs s.out ++ l.flatMap (fun u => u.Logs) := by
  intro l
  induction l with
  | nil => intro s; simp [callbackAll]
  | cons u rest ih =>
      intro s
      simp only [callbackAll, List.flatMap_cons]
      rw [ih, deployCallback_shownLogs, List.append_assoc]

theorem callbackAll_finalURL_empty :
    ∀ (l : List DeploymentUpdate) (s : StreamState), (∀ x ∈ l, x.URL = "") →
      (callbackAll deployCallback s l).finalURL = s.finalURL := by
  intro l
  induction l with
  | nil => intro s _; rfl
  | cons u rest ih =>
      intro s h
      simp only [callbackAll]
      rw [ih _ (fun x hx => h x (List.mem_cons_of_mem u hx)), deployCallback_finalURL]
      simp [h u (List.mem_cons_self u rest)]

theorem callbackAll_finalURL_last (a b : List DeploymentUpdate) (u : DeploymentUpdate)
    (s : StreamState) (hu : u.URL ≠ "") (hb : ∀ x ∈ b, x.URL = "") :
    (callbackAll deployCallback s (a ++ u :: b)).finalURL = u.URL := by
  rw [callbackAll_append]
  simp only [callbackAll]
  rw [callbackAll_finalURL_empty b _ hb, deployCallback_finalURL]
  simp [hu]

theorem callbackAll_urlLines_nonTerminal :
    ∀ (l : List DeploymentUpdate) (s : StreamState), (∀ x ∈ l, NonTerminal x.Status) →
      urlLines (callbackAll deployCallback s l).out = urlLines s.out := by
  intro l
  induction l with
  | nil => intro s _; rfl
  | cons u rest ih =>
      intro s h
      simp only [callbackAll]
      rw [ih _ (fun x hx => h x (List.mem_cons_of_mem u hx)), deployCallback_urlLines]
      simp [(h u (List.mem_cons_self u rest)).1]

theorem callbackAll_completed_nonTerminal :
    ∀ (l : List DeploymentUpdate) (s : StreamState), (∀ x ∈ l, NonTerminal x.Status) →
      (Line.completed ∈ (callbackAll deployCallback s l).out ↔ Line.completed ∈ s.out) := by
  intro l
  induction l with
  | nil => intro s _; rfl
  | cons u rest ih =>
      intro s h
      simp only [callbackAll]
      rw [ih _ (fun x hx => h x (List.mem_cons_of_mem u hx)), deployCallback_completed]
      simp [(h u (List.mem_cons_self u rest)).1]

theorem callbackAll_urlLines_nonempty :
    ∀ (l : List DeploymentUpdate) (s : StreamState), (∀ v ∈ urlLines s.out, v ≠ "") →
      ∀ v ∈ urlLines (callbackAll deployCallback s l).out, v ≠ "" := by
  intro l
  induction l with
  | nil => intro s h; exact h
  | cons u rest ih =>
      intro s h
      simp only [callbackAll]
      apply ih
      intro v hv
      rw [deployCallback_urlLines] at hv
      rcases List.mem_append.mp hv with h1 | h1
      · exact h v h1
      · by_cases hc : u.Status = "complete" ∧ (deployCallback s u).1.finalURL ≠ ""
        · simp [hc] at h1
          rw [h1]; exact hc.2
        · simp [hc] at h1

/-! ## Facts about whole runs of the two watches -/

theorem poll_after_continuing (G : Nat → Except Err StatusResponse) (k : Nat) (hk : k ≤ 30)
    (hpre : ∀ i < k, ∃ s, G i = .ok s ∧ pollVerdict s = none) :
    ∃ last1 out1 seen1, seen1.length = k ∧
      pollForDeploymentURL G =
        { pollLoop G (30 - k) k last1 out1 with
          seen := seen1 ++ (pollLoop G (30 - k) k last1 out1).seen } := by
  have h0 : ∀ i < k, ∃ s, G (0 + i) = .ok s ∧ pollVerdict s = none := by
    intro i hi; rw [Nat.zero_add]; exact hpre i hi
  obtain ⟨last1, out1, seen1, hlen, heq⟩ := pollLoop_skip G k (30 - k) 0 "" [] h0
  refine ⟨last1, out1, seen1, hlen, ?_⟩
  rw [Nat.zero_add] at heq
  rw [← heq]
  unfold pollForDeploymentURL maxAttempts
  rw [show 30 - k + k = 30 by omega]

theorem poll_stops_at (G : Nat → Except Err StatusResponse) (k : Nat) (hk : k < 30)
    (hpre : ∀ i < k, ∃ s, G i = .ok s ∧ pollVerdict s = none)
    (s : StatusResponse) (hs : G k = .ok s) (u : String) (e : Option Err)
    (hv : pollVerdict s = some (u, e)) :
    (pollForDeploymentURL G).url = u ∧ (pollForDeploymentURL G).err = e ∧
    (pollForDeploymentURL G).requests = k + 1 ∧
    (pollForDeploymentURL G).seen.length = k + 1 := by
  obtain ⟨last1, out1, seen1, hlen, heq⟩ := poll_after_continuing G k (Nat.le_of_lt hk) hpre
  rw [heq, show 30 - k = (29 - k) + 1 by omega, pollLoop_stop hs hv]
  simp [hlen]

theorem poll_prefix_only (G G1 : Nat → Except Err StatusResponse)
    (h : ∀ i < (pollForDeploymentURL G).requests, G1 i = G i) :
    pollForDeploymentURL G1 = pollForDeploymentURL G :=
  pollLoop_congr G G1 maxAttempts 0 "" [] (fun i _ hi => h i hi)

theorem poll_ok_url_nonempty (G : Nat → Except Err StatusResponse)
    (h : (pollForDeploymentURL G).err = none) : (pollForDeploymentURL G).url ≠ "" := by
  obtain ⟨k, _, _, _, s, _, _, hu, hurl, _⟩ := pollLoop_ok G maxAttempts 0 "" [] h
  unfold pollForDeploymentURL
  rw [hurl]
  exact hu

theorem nonTerminal_continues {G : Nat → Except Err StatusResponse} {k : Nat}
    (h : ∀ i < k, ∃ s, G i = .ok s ∧ NonTerminal s.Status) :
    ∀ i < k, ∃ s, G i = .ok s ∧ pollVerdict s = none := by
  intro i hi
  obtain ⟨s, hs, hn⟩ := h i hi
  exact ⟨s, hs, pollVerdict_nonTerminal hn⟩

theorem stream_connected {dial : String → Except Err Conn} {baseURL id : String} {conn : Conn}
    (h : dial (connectURL (NewWebSocketClient baseURL).baseURL id) = .ok conn) (w : String) :
    streamDeploymentUpdates dial baseURL id w =
      { err := match (streamLoop deployCallback conn.reads conn.eof streamStart).err with
               | some e => some (Err.wrap "WebSocket streaming error: " e)
               | none => none
        out := (streamLoop deployCallback conn.reads conn.eof streamStart).state.out
        inner := (streamLoop deployCallback conn.reads conn.eof streamStart).err
        finalURL := (streamLoop deployCallback conn.reads conn.eof streamStart).state.finalURL
        reads := (streamLoop deployCallback conn.reads conn.eof streamStart).reads
        seen := (streamLoop deployCallback conn.reads conn.eof streamStart).seen } := by
  simp [streamDeploymentUpdates, WebSocketClient.Connect, WebSocketClient.StreamUpdates, h,
    streamStart]

theorem stream_not_connected {dial : String → Except Err Conn} {baseURL id : String} {e : Err}
    (h : dial (connectURL (NewWebSocketClient baseURL).baseURL id) = .error e) (w : String) :
    streamDeploymentUpdates dial baseURL id w =
      { err := some (Err.wrap "failed to connect to WebSocket: "
                 (Err.wrap ("failed to connect to WebSocket at " ++
                    connectURL (NewWebSocketClient baseURL).baseURL id ++ ": ") e))
        out := [Line.connecting], inner := none, finalURL := "", reads := 0, seen := [] } := by
  simp [streamDeploymentUpdates, WebSocketClient.Connect, h]

/-- The output and the URL variable of the streaming watch are those of the
callback run over the updates it consumed, whatever the dial outcome. -/
theorem stream_out_eq (dial : String → Except Err Conn) (baseURL id w : String) :
    (streamDeploymentUpdates dial baseURL id w).seen = [] ∧
      statusStages (streamDeploymentUpdates dial baseURL id w).out = [] ∧
      shownLogs (streamDeploymentUpdates dial baseURL id w).out = [] ∧
      urlLines (streamDeploymentUpdates dial baseURL id w).out = [] ∨
    (streamDeploymentUpdates dial baseURL id w).out =
        (callbackAll deployCallback streamStart
          (streamDeploymentUpdates dial baseURL id w).seen).out ∧
      (streamDeploymentUpdates dial baseURL id w).finalURL =
        (callbackAll deployCallback streamStart
          (streamDeploymentUpdates dial baseURL id w).seen).finalURL ∧
      ∀ x ∈ (streamDeploymentUpdates dial baseURL id w).seen.dropLast, NonTerminal x.Status := by
  cases h : dial (connectURL (NewWebSocketClient baseURL).baseURL id) with
  | error e =>
      left
      rw [stream_not_connected h]
      simp [statusStages, shownLogs, urlLines, Line.stage?, Line.log?, Line.url?]
  | ok conn =>
      right
      rw [stream_connected h]
      simp only
      rw [streamLoop_state]
      exact ⟨rfl, rfl, streamLoop_seen_dropLast _ _ _ _⟩

theorem streamStart_stages : statusStages streamStart.out = [] := by
  simp [streamStart, statusStages, Line.stage?]

theorem streamStart_logs : shownLogs streamStart.out = [] := by
  simp [streamStart, shownLogs, Line.log?]

theorem streamStart_urls : urlLines streamStart.out = [] := by
  simp [streamStart, urlLines, Line.url?]

theorem streamStart_completed : Line.completed ∉ streamStart.out := by
  simp [streamStart]

/-- A run of the loop over non-terminal updates followed by a `complete` one. -/
theorem streamLoop_complete (pre : List DeploymentUpdate) (c : DeploymentUpdate)
    (rest : List ReadResult) (eof : ReadErr) (s : StreamState)
    (hpre : ∀ x ∈ pre, NonTerminal x.Status) (hc : c.Status = "complete") :
    streamLoop deployCallback (pre.map ReadResult.msg ++ .msg c :: rest) eof s =
      { state := (deployCallback (callbackAll deployCallback s pre) c).1
        err := none, reads := pre.length + 1, seen := pre ++ [c] } := by
  have hcb : (deployCallback (callbackAll deployCallback s pre) c).2 = none := by
    rw [deployCallback_snd]; simp [hc]
  rw [streamLoop_skip deployCallback pre _ eof s
      (fun x hx => ⟨hpre x hx, fun t => deployCallback_snd_nonTerminal t (hpre x hx)⟩),
    streamLoop_terminal hcb (Or.inl hc)]
  simp [Nat.add_comm]

/-- A run of the loop over non-terminal updates followed by a `failed` one. -/
theorem streamLoop_failed (pre : List DeploymentUpdate) (f : DeploymentUpdate)
    (rest : List ReadResult) (eof : ReadErr) (s : StreamState)
    (hpre : ∀ x ∈ pre, NonTerminal x.Status) (hf : f.Status = "failed") :
    streamLoop deployCallback (pre.map ReadResult.msg ++ .msg f :: rest) eof s =
      { state := (deployCallback (callbackAll deployCallback s pre) f).1
        err := some (Err.msg "deployment failed"), reads := pre.length + 1
        seen := pre ++ [f] } := by
  have hcb : (deployCallback (callbackAll deployCallback s pre) f).2 =
      some (Err.msg "deployment failed") := by
    rw [deployCallback_snd]; simp [hf]
  rw [streamLoop_skip deployCallback pre _ eof s
      (fun x hx => ⟨hpre x hx, fun t => deployCallback_snd_nonTerminal t (hpre x hx)⟩),
    streamLoop_err hcb]
  simp [Nat.add_comm]

/-- A run of a loop whose read fails after a list of updates that did not stop it. -/
theorem streamLoop_read_fails {σ : Type} (cb : σ → DeploymentUpdate → σ × Option Err)
    (pre : List DeploymentUpdate) (tail : List ReadResult) (e eof : ReadErr) (s : σ)
    (hpre : ∀ x ∈ pre, NonTerminal x.Status ∧ ∀ t, (cb t x).2 = none)
    (htail : (tail = [] ∧ eof = e) ∨ ∃ rest, tail = .fail e :: rest) :
    streamLoop cb (pre.map ReadResult.msg ++ tail) eof s =
      { state := callbackAll cb s pre, err := readFailure e, reads := pre.length + 1
        seen := pre } := by
  rw [streamLoop_skip cb pre tail eof s hpre]
  rcases htail with ⟨h1, h2⟩ | ⟨rest, h1⟩
  · subst h1 h2
    simp [streamLoop_nil, Nat.add_comm]
  · subst h1
    simp [streamLoop_fail, Nat.add_comm]

theorem readFailure_none_iff (e : ReadErr) :
    readFailure e = none ↔
      ∃ code inner, e = .close code inner ∧
        (code = CloseNormalClosure ∨ code = CloseGoingAway) := by
  cases e with
  | close code inner =>
      by_cases h : code = CloseNormalClosure ∨ code = CloseGoingAway
      · simp [readFailure, h]
      · simp [readFailure, h]
  | timeout inner => simp [readFailure]
  | other inner => simp [readFailure]

/-- When a consumed update is `complete`, it is the last one consumed and all
updates before it were non-terminal. -/
theorem seen_complete_last {seen : List DeploymentUpdate} {c : DeploymentUpdate}
    (hd : ∀ x ∈ seen.dropLast, NonTerminal x.Status) (hc : c ∈ seen)
    (hcs : c.Status = "complete") : seen = seen.dropLast ++ [c] := by
  have hne : seen ≠ [] := List.ne_nil_of_mem hc
  have hsplit := List.dropLast_append_getLast hne
  rw [← hsplit] at hc
  rcases List.mem_append.mp hc with h | h
  · exact absurd hcs (hd c h).1
  · rw [List.mem_singleton] at h
    rw [h]
    exact hsplit.symm

theorem deployCallback_getLast (s : StreamState) {c : DeploymentUpdate}
    (hc : c.Status = "complete") (hf : (deployCallback s c).1.finalURL ≠ "") :
    (deployCallback s c).1.out.getLast? = some (Line.url (deployCallback s c).1.finalURL) := by
  rw [deployCallback_finalURL] at hf ⊢
  rw [deployCallback_fst]
  generalize (if c.URL ≠ "" then c.URL else s.finalURL) = f at hf ⊢
  simp only [hc, if_true, if_pos hf]
  rw [List.getLast?_append]
  simp

/-! ## The claims -/

/-- C1. Streaming watch: when the first terminal update received is a `complete`
(updates `pre` are non-terminal, `c` is `complete`), the watch returns no error
and the URL it reports, in the variable `finalURL` and in the single
deployment-URL line that ends its output, is the URL of `u`, the last update up
to and including `c` whose URL is non-empty, wherever `u` stands in the
sequence; and the callback never turns a non-empty accumulated URL into an
empty one. -/
theorem stream_complete_reports_last_url
    (dial : String → Except Err Conn) (baseURL id w : String)
    (pre a b : List DeploymentUpdate) (c u : DeploymentUpdate)
    (rest : List ReadResult) (eof : ReadErr)
    (hdial : dial (connectURL (NewWebSocketClient baseURL).baseURL id) =
      .ok { reads := pre.map ReadResult.msg ++ ReadResult.msg c :: rest, eof := eof })
    (hpre : ∀ x ∈ pre, NonTerminal x.Status) (hc : c.Status = "complete")
    (hsplit : pre ++ [c] = a ++ u :: b) (hu : u.URL ≠ "") (hb : ∀ x ∈ b, x.URL = "") :
    (streamDeploymentUpdates dial baseURL id w).err = none ∧
    (streamDeploymentUpdates dial baseURL id w).seen = pre ++ [c] ∧
    (streamDeploymentUpdates dial baseURL id w).finalURL = u.URL ∧
    urlLines (streamDeploymentUpdates dial baseURL id w).out = [u.URL] ∧
    (streamDeploymentUpdates dial baseURL id w).out.getLast? = some (Line.url u.URL) ∧
    (∀ (s : StreamState) (x : DeploymentUpdate),
      s.finalURL ≠ "" → (deployCallback s x).1.finalURL ≠ "") := by
  have hfin : (deployCallback (callbackAll deployCallback streamStart pre) c).1.finalURL
      = u.URL := by
    have h := callbackAll_finalURL_last a b u streamStart hu hb
    rw [← hsplit, callbackAll_append] at h
    exact h
  rw [stream_connected hdial, streamLoop_complete pre c rest eof streamStart hpre hc]
  refine ⟨rfl, rfl, hfin, ?_, ?_, ?_⟩
  · simp only
    rw [deployCallback_urlLines, callbackAll_urlLines_nonTerminal pre _ hpre,
      streamStart_urls, hfin]
    simp [hc, hu]
  · simp only
    rw [deployCallback_getLast _ hc (by rw [hfin]; exact hu), hfin]
  · intro s x hs
    rw [deployCallback_finalURL]
    by_cases hx : x.URL = ""
    · simpa [hx] using hs
    · simp [hx]

/-- Witness of C1: the URL arrives on the non-terminal `deploying` update and
the `complete` update carries none. -/
theorem stream_complete_reports_last_url_witness :
    (streamDeploymentUpdates
        (exDial [exUpdate "deploying" "https://abc123def456.backend.im" [],
                 exUpdate "complete" "" []]) "" "dep-1" "").err = none ∧
    (streamDeploymentUpdates
        (exDial [exUpdate "deploying" "https://abc123def456.backend.im" [],
                 exUpdate "complete" "" []]) "" "dep-1" "").out.getLast? =
      some (Line.url "https://abc123def456.backend.im") :=
  have h := stream_complete_reports_last_url
    (exDial [exUpdate "deploying" "https://abc123def456.backend.im" [],
             exUpdate "complete" "" []]) "" "dep-1" ""
    [exUpdate "deploying" "https://abc123def456.backend.im" []] []
    [exUpdate "complete" "" []] (exUpdate "complete" "" [])
    (exUpdate "deploying" "https://abc123def456.backend.im" []) [] 
    (ReadErr.close 1000 (Err.msg "websocket: close 1000 (normal)"))
    rfl (by decide) rfl rfl (by decide) (by decide)
  ⟨h.1, h.2.2.2.2.1⟩

/-- C2. Polling happy path: for `k < 30`, when the first `k` status responses
succeed with non-terminal stages and response `k` is `complete` with a
non-empty URL `u`, `pollForDeploymentURL` returns `u` and no error after exactly
`k + 1` status requests. -/
theorem poll_happy_path (G : Nat → Except Err StatusResponse) (k : Nat) (hk : k < 30)
    (s : StatusResponse) (u : String)
    (hpre : ∀ i < k, ∃ t, G i = .ok t ∧ NonTerminal t.Status)
    (hs : G k = .ok s) (hc : s.Status = "complete") (hurl : s.URL = u) (hu : u ≠ "") :
    (pollForDeploymentURL G).url = u ∧ (pollForDeploymentURL G).err = none ∧
    (pollForDeploymentURL G).requests = k + 1 := by
  have hv : pollVerdict s = some (u, none) := by
    rw [← hurl]; exact pollVerdict_complete hc (by rw [hurl]; exact hu)
  obtain ⟨h1, h2, h3, _⟩ := poll_stops_at G k hk (nonTerminal_continues hpre) s hs u none hv
  exact ⟨h1, h2, h3⟩

/-- Witness of C2: two `building` responses, then `complete` with a URL. -/
theorem poll_happy_path_witness :
    (pollForDeploymentURL (exServer [exBuilding, exBuilding, exDone])).url =
      "https://abc123def456.backend.im" ∧
    (pollForDeploymentURL (exServer [exBuilding, exBuilding, exDone])).err = none ∧
    (pollForDeploymentURL (exServer [exBuilding, exBuilding, exDone])).requests = 2 + 1 :=
  poll_happy_path (exServer [exBuilding, exBuilding, exDone]) 2 (by decide) exDone
    "https://abc123def456.backend.im"
    (fun i hi => ⟨exBuilding, by
      have : i = 0 ∨ i = 1 := by omega
      rcases this with h | h <;> subst h <;> exact ⟨rfl, by decide⟩⟩)
    rfl rfl rfl (by decide)

/-- C3. Remote failure short-circuits both watches. Polling: when response `k`
(`k < 30`) is the first `failed` one, after `k` successful non-terminal
responses, `pollForDeploymentURL` returns the error "deployment failed" after
exactly `k + 1` requests and `k + 1` observations, and no later response
changes anything it returns or prints. Streaming: when update `f` is `failed`
after the non-terminal updates `pre`, `StreamUpdates` returns the error
"deployment failed" of the callback (which `streamDeploymentUpdates` wraps
unchanged under its own message) after exactly `pre.length + 1` reads and
updates, and nothing that follows `f` on the connection changes anything the
watch returns or prints. -/
theorem failed_short_circuits
    (G : Nat → Except Err StatusResponse) (k : Nat) (sf : StatusResponse)
    (dial : String → Except Err Conn) (baseURL id w : String)
    (pre : List DeploymentUpdate) (f : DeploymentUpdate) (rest : List ReadResult)
    (eof : ReadErr)
    (hk : k < 30)
    (hbefore : ∀ i < k, ∃ t, G i = .ok t ∧ NonTerminal t.Status)
    (hsf : G k = .ok sf) (hfailed : sf.Status = "failed")
    (hdial : dial (connectURL (NewWebSocketClient baseURL).baseURL id) =
      .ok { reads := pre.map ReadResult.msg ++ ReadResult.msg f :: rest, eof := eof })
    (hpre : ∀ x ∈ pre, NonTerminal x.Status) (hf : f.Status = "failed") :
    ((pollForDeploymentURL G).url = "" ∧
      (pollForDeploymentURL G).err = some (Err.msg "deployment failed") ∧
      (pollForDeploymentURL G).requests = k + 1 ∧
      (pollForDeploymentURL G).seen.length = k + 1 ∧
      ∀ G1 : Nat → Except Err StatusResponse, (∀ i, i ≤ k → G1 i = G i) →
        pollForDeploymentURL G1 = pollForDeploymentURL G) ∧
    ((streamDeploymentUpdates dial baseURL id w).inner = some (Err.msg "deployment failed") ∧
      (streamDeploymentUpdates dial baseURL id w).err =
        some (Err.wrap "WebSocket streaming error: " (Err.msg "deployment failed")) ∧
      (streamDeploymentUpdates dial baseURL id w).reads = pre.length + 1 ∧
      (streamDeploymentUpdates dial baseURL id w).seen = pre ++ [f] ∧
      ∀ (dial1 : String → Except Err Conn) (rest1 : List ReadResult) (eof1 : ReadErr),
        dial1 (connectURL (NewWebSocketClient baseURL).baseURL id) =
          .ok { reads := pre.map ReadResult.msg ++ ReadResult.msg f :: rest1, eof := eof1 } →
        streamDeploymentUpdates dial1 baseURL id w =
          streamDeploymentUpdates dial baseURL id w) := by
  constructor
  · obtain ⟨h1, h2, h3, h4⟩ := poll_stops_at G k hk (nonTerminal_continues hbefore) sf hsf ""
      (some (Err.msg "deployment failed")) (pollVerdict_failed hfailed)
    refine ⟨h1, h2, h3, h4, ?_⟩
    intro G1 hG1
    apply poll_prefix_only
    intro i hi
    rw [h3] at hi
    exact hG1 i (by omega)
  · refine ⟨?_, ?_, ?_, ?_, ?_⟩
    · rw [stream_connected hdial, streamLoop_failed pre f rest eof streamStart hpre hf]
    · rw [stream_connected hdial, streamLoop_failed pre f rest eof streamStart hpre hf]
    · rw [stream_connected hdial, streamLoop_failed pre f rest eof streamStart hpre hf]
    · rw [stream_connected hdial, streamLoop_failed pre f rest eof streamStart hpre hf]
    · intro dial1 rest1 eof1 hdial1
      rw [stream_connected hdial, stream_connected hdial1,
        streamLoop_failed pre f rest eof streamStart hpre hf,
        streamLoop_failed pre f rest1 eof1 streamStart hpre hf]

/-- Witness of C3: the third observation is `failed`, and more observations are
queued behind it on both transports. -/
theorem failed_short_circuits_witness :
    ((pollForDeploymentURL (exServer [exBuilding, exBuilding, exFailed, exDone])).err =
        some (Err.msg "deployment failed") ∧
      (pollForDeploymentURL (exServer [exBuilding, exBuilding, exFailed, exDone])).requests
        = 2 + 1) ∧
    ((streamDeploymentUpdates
        (exDial [exUpdate "building" "" [], exUpdate "failed" "" ["boom"],
                 exUpdate "complete" "https://late.backend.im" ["late"]]) "" "dep-1" "").inner =
        some (Err.msg "deployment failed") ∧
      (streamDeploymentUpdates
        (exDial [exUpdate "building" "" [], exUpdate "failed" "" ["boom"],
                 exUpdate "complete" "https://late.backend.im" ["late"]]) "" "dep-1" "").reads
        = 1 + 1) :=
  have h := failed_short_circuits
    (exServer [exBuilding, exBuilding, exFailed, exDone]) 2 exFailed
    (exDial [exUpdate "building" "" [], exUpdate "failed" "" ["boom"],
             exUpdate "complete" "https://late.backend.im" ["late"]]) "" "dep-1" ""
    [exUpdate "building" "" []] (exUpdate "failed" "" ["boom"])
    [ReadResult.msg (exUpdate "complete" "https://late.backend.im" ["late"])]
    (ReadErr.close 1000 (Err.msg "websocket: close 1000 (normal)"))
    (by decide)
    (fun i hi => ⟨exBuilding, by
      have : i = 0 ∨ i = 1 := by omega
      rcases this with h | h <;> subst h <;> exact ⟨rfl, by decide⟩⟩)
    rfl rfl rfl (by decide) rfl
  ⟨⟨h.1.2.1, h.1.2.2.1⟩, ⟨h.2.1, h.2.2.2.1⟩⟩

/-- C4. Poll timeout: when the 30 status responses all succeed with a
non-terminal stage, `pollForDeploymentURL` issues exactly 30 status requests
and returns an empty URL with the timeout error. -/
theorem poll_timeout (G : Nat → Except Err StatusResponse)
    (h : ∀ i < 30, ∃ s, G i = .ok s ∧ NonTerminal s.Status) :
    (pollForDeploymentURL G).url = "" ∧
    (pollForDeploymentURL G).err =
      some (Err.msg "timeout waiting for deployment URL (after 30 seconds)") ∧
    (pollForDeploymentURL G).requests = 30 ∧
    (pollForDeploymentURL G).seen.length = 30 := by
  obtain ⟨last1, out1, seen1, hlen, heq⟩ :=
    poll_after_continuing G 30 (Nat.le_refl 30) (nonTerminal_continues h)
  rw [heq, show 30 - 30 = 0 by rfl, pollLoop_zero]
  simp [hlen, pollTimeout]

/-- Witness of C4: a server that answers `building` to every request. -/
theorem poll_timeout_witness :
    (pollForDeploymentURL (fun _ => .ok exBuilding)).url = "" ∧
    (pollForDeploymentURL (fun _ => .ok exBuilding)).err =
      some (Err.msg "timeout waiting for deployment URL (after 30 seconds)") ∧
    (pollForDeploymentURL (fun _ => .ok exBuilding)).requests = 30 ∧
    (pollForDeploymentURL (fun _ => .ok exBuilding)).seen.length = 30 :=
  poll_timeout (fun _ => .ok exBuilding) (fun _ _ => ⟨exBuilding, rfl, by decide⟩)

/-- Counterexample to C5: every response is `complete` without a URL. The watch
does not stop at the first one with a nil error: it issues all 30 requests and
returns the timeout error. -/
theorem poll_complete_without_url_counterexample :
    ¬ ((pollForDeploymentURL (fun _ => .ok exDoneNoURL)).requests = 1 ∧
        (pollForDeploymentURL (fun _ => .ok exDoneNoURL)).err = none) ∧
    (pollForDeploymentURL (fun _ => .ok exDoneNoURL)).requests = 30 ∧
    (pollForDeploymentURL (fun _ => .ok exDoneNoURL)).err =
      some (Err.msg "timeout waiting for deployment URL (after 30 seconds)") := by
  decide

/-- C5, amended. In the polling watch a `complete` observation is terminal only
when it carries a non-empty URL. A response does not stop the watch when it is
not `failed` and, if `complete`, has an empty URL. `pollForDeploymentURL`
returns no error exactly when some response `k < 30` is `complete` with a
non-empty URL and every response before it succeeded without stopping the
watch; it then returns that URL after exactly `k + 1` requests. A `complete`
response with an empty URL does not stop the watch: the next request is issued
as long as the attempt budget allows, and when none of the 30 responses stops
the watch, the function returns an empty URL and the timeout error after
exactly 30 requests. -/
theorem poll_success_iff (G : Nat → Except Err StatusResponse) :
    ((pollForDeploymentURL G).err = none ↔
      ∃ k, k < 30 ∧
        (∀ i, i < k → ∃ s, G i = .ok s ∧ s.Status ≠ "failed" ∧
          (s.Status = "complete" → s.URL = "")) ∧
        ∃ s, G k = .ok s ∧ s.Status = "complete" ∧ s.URL ≠ "") ∧
    (∀ (k : Nat) (s : StatusResponse), k < 30 →
      (∀ i, i < k → ∃ t, G i = .ok t ∧ t.Status ≠ "failed" ∧
        (t.Status = "complete" → t.URL = "")) →
      G k = .ok s → s.Status = "complete" → s.URL ≠ "" →
      (pollForDeploymentURL G).url = s.URL ∧ (pollForDeploymentURL G).err = none ∧
      (pollForDeploymentURL G).requests = k + 1) ∧
    (∀ (k : Nat) (s : StatusResponse), k + 1 < 30 →
      (∀ i, i < k → ∃ t, G i = .ok t ∧ t.Status ≠ "failed" ∧
        (t.Status = "complete" → t.URL = "")) →
      G k = .ok s → s.Status = "complete" → s.URL = "" →
      k + 2 ≤ (pollForDeploymentURL G).requests) ∧
    ((∀ i, i < 30 → ∃ s, G i = .ok s ∧ s.Status ≠ "failed" ∧
        (s.Status = "complete" → s.URL = "")) →
      (pollForDeploymentURL G).url = "" ∧
      (pollForDeploymentURL G).err =
        some (Err.msg "timeout waiting for deployment URL (after 30 seconds)") ∧
      (pollForDeploymentURL G).requests = 30) := by
  have hcont : ∀ k, (∀ i, i < k → ∃ t, G i = .ok t ∧ t.Status ≠ "failed" ∧
      (t.Status = "complete" → t.URL = "")) →
      ∀ i < k, ∃ t, G i = .ok t ∧ pollVerdict t = none := by
    intro k hpre i hi
    obtain ⟨t, ht, hv⟩ := hpre i hi
    exact ⟨t, ht, (pollVerdict_none_iff t).mpr hv⟩
  refine ⟨⟨?_, ?_⟩, ?_, ?_, ?_⟩
  · intro h
    obtain ⟨k, _, hk, hpre, s, hs, hc, hu, _⟩ := pollLoop_ok G maxAttempts 0 "" [] h
    refine ⟨k, by simpa [maxAttempts] using hk, ?_, s, hs, hc, hu⟩
    intro i hi
    obtain ⟨t, ht, hv⟩ := hpre i (Nat.zero_le i) hi
    exact ⟨t, ht, (pollVerdict_none_iff t).mp hv⟩
  · rintro ⟨k, hk, hpre, s, hs, hc, hu⟩
    exact (poll_stops_at G k hk (hcont k hpre) s hs s.URL none (pollVerdict_complete hc hu)).2.1
  · intro k s hk hpre hs hc hu
    obtain ⟨h1, h2, h3, _⟩ :=
      poll_stops_at G k hk (hcont k hpre) s hs s.URL none (pollVerdict_complete hc hu)
    exact ⟨h1, h2, h3⟩
  · intro k s hk hpre hs hc hu
    have hpre1 : ∀ i < k + 1, ∃ t, G i = .ok t ∧ pollVerdict t = none := by
      intro i hi
      by_cases hik : i = k
      · subst hik
        exact ⟨s, hs, (pollVerdict_none_iff s).mpr ⟨by rw [hc]; decide, fun _ => hu⟩⟩
      · exact hcont k hpre i (by omega)
    obtain ⟨last1, out1, seen1, _, heq⟩ :=
      poll_after_continuing G (k + 1) (by omega) hpre1
    rw [heq]
    have := (pollLoop_requests_ge G (30 - (k + 1)) (k + 1) last1 out1).2 (by omega)
    simp only
    omega
  · intro hall
    obtain ⟨last1, out1, seen1, _, heq⟩ :=
      poll_after_continuing G 30 (Nat.le_refl 30) (hcont 30 hall)
    rw [heq, show 30 - 30 = 0 by rfl, pollLoop_zero]
    simp [pollTimeout]

/-- Witness of C5, amended: a `complete` response without URL is passed over,
and the `complete` response with a URL that follows ends the watch at the
third request. -/
theorem poll_success_iff_witness :
    (pollForDeploymentURL (exServer [exBuilding, exDoneNoURL, exDone])).err = none ∧
    (pollForDeploymentURL (exServer [exBuilding, exDoneNoURL, exDone])).requests = 2 + 1 ∧
    1 + 2 ≤ (pollForDeploymentURL (exServer [exBuilding, exDoneNoURL, exDone])).requests :=
  have hpre : ∀ i, i < 2 → ∃ t, exServer [exBuilding, exDoneNoURL, exDone] i = .ok t ∧
      t.Status ≠ "failed" ∧ (t.Status = "complete" → t.URL = "") := fun i hi => by
    have : i = 0 ∨ i = 1 := by omega
    rcases this with h | h <;> subst h
    · exact ⟨exBuilding, rfl, by decide, by decide⟩
    · exact ⟨exDoneNoURL, rfl, by decide, by decide⟩
  have h := poll_success_iff (exServer [exBuilding, exDoneNoURL, exDone])
  ⟨h.1.mpr ⟨2, by decide, hpre, exDone, rfl, rfl, by decide⟩,
   (h.2.1 2 exDone (by decide) hpre rfl rfl (by decide)).2.2,
   h.2.2.1 1 exDoneNoURL (by decide)
     (fun i hi => hpre i (by omega)) rfl rfl rfl⟩

/-- C6. No watch reports a success with an empty URL. Whenever
`pollForDeploymentURL` returns no error the URL it returns is non-empty; every
deployment-URL line the streaming watch prints carries a non-empty URL; and
when the streaming watch consumes a `complete` update without any consumed
update having carried a URL, it prints the completion notice and no
deployment-URL line. -/
theorem no_success_with_empty_url
    (G : Nat → Except Err StatusResponse)
    (dial : String → Except Err Conn) (baseURL id w : String) :
    ((pollForDeploymentURL G).err = none → (pollForDeploymentURL G).url ≠ "") ∧
    (∀ v ∈ urlLines (streamDeploymentUpdates dial baseURL id w).out, v ≠ "") ∧
    (∀ c ∈ (streamDeploymentUpdates dial baseURL id w).seen, c.Status = "complete" →
      (∀ x ∈ (streamDeploymentUpdates dial baseURL id w).seen, x.URL = "") →
      Line.completed ∈ (streamDeploymentUpdates dial baseURL id w).out ∧
      urlLines (streamDeploymentUpdates dial baseURL id w).out = []) := by
  refine ⟨poll_ok_url_nonempty G, ?_, ?_⟩
  · rcases stream_out_eq dial baseURL id w with ⟨_, _, _, h⟩ | ⟨h, _, _⟩
    · rw [h]; simp
    · rw [h]
      apply callbackAll_urlLines_nonempty
      rw [streamStart_urls]; simp
  · intro c hc hcs hno
    rcases stream_out_eq dial baseURL id w with ⟨h, _, _, _⟩ | ⟨hout, _, hdrop⟩
    · rw [h] at hc; simp at hc
    · have hshape := seen_complete_last hdrop hc hcs
      have hnoPre : ∀ x ∈ (streamDeploymentUpdates dial baseURL id w).seen.dropLast,
          x.URL = "" := by
        intro x hx
        apply hno
        rw [hshape]
        exact List.mem_append_left _ hx
      have hcu : c.URL = "" := hno c hc
      have hfin : (deployCallback (callbackAll deployCallback streamStart
          (streamDeploymentUpdates dial baseURL id w).seen.dropLast) c).1.finalURL = "" := by
        rw [deployCallback_finalURL, callbackAll_finalURL_empty _ _ hnoPre]
        simp [hcu, streamStart]
      rw [hout, hshape, callbackAll_append]
      simp only [callbackAll]
      constructor
      · rw [deployCallback_completed]
        exact Or.inr ⟨hcs, hfin⟩
      · rw [deployCallback_urlLines, callbackAll_urlLines_nonTerminal _ _ hdrop,
          streamStart_urls, hfin]
        simp

/-- Witness of C6: a poll that succeeds, and a stream that completes without
ever carrying a URL. -/
theorem no_success_with_empty_url_witness :
    (pollForDeploymentURL (exServer [exBuilding, exDone])).url ≠ "" ∧
    (Line.completed ∈ (streamDeploymentUpdates
        (exDial [exUpdate "building" "" [], exUpdate "complete" "" []]) "" "dep-1" "").out ∧
      urlLines (streamDeploymentUpdates
        (exDial [exUpdate "building" "" [], exUpdate "complete" "" []]) "" "dep-1" "").out
        = []) :=
  have h := no_success_with_empty_url (exServer [exBuilding, exDone])
    (exDial [exUpdate "building" "" [], exUpdate "complete" "" []]) "" "dep-1" ""
  ⟨h.1 (by decide), h.2.2 (exUpdate "complete" "" []) (by decide) rfl (by decide)⟩

/-- C7. Stage dedup. When the stages of the consumed observations are
non-empty, the status-change lines of the polling watch and of the streaming
watch announce, in arrival order, exactly the stages that differ from the stage
of the observation just before them, the first observation included
(`stageChanges none`), with no condition on the order of the stages; so the
number of status-change lines is the number of maximal runs of equal
consecutive stages, and the stages queued, queued, committing give exactly the
two lines queued and committing. -/
theorem stage_dedup
    (G : Nat → Except Err StatusResponse)
    (dial : String → Except Err Conn) (baseURL id w : String)
    (hp : ∀ x ∈ (pollForDeploymentURL G).seen, x.Status ≠ "")
    (hs : ∀ x ∈ (streamDeploymentUpdates dial baseURL id w).seen, x.Status ≠ "") :
    (statusStages (pollForDeploymentURL G).out =
        stageChanges none ((pollForDeploymentURL G).seen.map (fun x => x.Status)) ∧
      (statusStages (pollForDeploymentURL G).out).length =
        (List.destutter (fun a b => a ≠ b)
          ((pollForDeploymentURL G).seen.map (fun x => x.Status))).length ∧
      ((pollForDeploymentURL G).seen.map (fun x => x.Status) =
          ["queued", "queued", "committing"] →
        statusStages (pollForDeploymentURL G).out = ["queued", "committing"])) ∧
    (statusStages (streamDeploymentUpdates dial baseURL id w).out =
        stageChanges none
          ((streamDeploymentUpdates dial baseURL id w).seen.map (fun x => x.Status)) ∧
      (statusStages (streamDeploymentUpdates dial baseURL id w).out).length =
        (List.destutter (fun a b => a ≠ b)
          ((streamDeploymentUpdates dial baseURL id w).seen.map (fun x => x.Status))).length ∧
      ((streamDeploymentUpdates dial baseURL id w).seen.map (fun x => x.Status) =
          ["queued", "queued", "committing"] →
        statusStages (streamDeploymentUpdates dial baseURL id w).out =
          ["queued", "committing"])) := by
  have hpoll : statusStages (pollForDeploymentURL G).out =
      stageChanges none ((pollForDeploymentURL G).seen.map (fun x => x.Status)) := by
    have h1 : (pollForDeploymentURL G).out =
        (pollShowAll "" [] (pollForDeploymentURL G).seen).2 :=
      pollLoop_out G maxAttempts 0 "" []
    rw [h1, statusStages_pollShowAll, stageChanges_first]
    · simp [statusStages]
    · intro s hs
      obtain ⟨x, hx, rfl⟩ := List.mem_map.mp hs
      exact hp x hx
  have hstream : statusStages (streamDeploymentUpdates dial baseURL id w).out =
      stageChanges none
        ((streamDeploymentUpdates dial baseURL id w).seen.map (fun x => x.Status)) := by
    rcases stream_out_eq dial baseURL id w with ⟨h1, h2, _, _⟩ | ⟨hout, _, _⟩
    · rw [h2, h1]; rfl
    · rw [hout, callbackAll_statusStages, streamStart_stages,
        show streamStart.lastStatus = "" from rfl, stageChanges_first]
      · simp
      · intro s hs1
        obtain ⟨x, hx, rfl⟩ := List.mem_map.mp hs1
        exact hs x hx
  refine ⟨⟨hpoll, ?_, ?_⟩, ⟨hstream, ?_, ?_⟩⟩
  · rw [hpoll, stageChanges_destutter]
  · intro h; rw [hpoll, h]; decide
  · rw [hstream, stageChanges_destutter]
  · intro h; rw [hstream, h]; decide

/-- Witness of C7: the observations queued, queued, committing on both
transports give the two status-change lines queued and committing. -/
theorem stage_dedup_witness :
    statusStages (pollForDeploymentURL
        (exServer [exStatus "queued" [], exStatus "queued" [], exStatus "committing" []])).out =
      ["queued", "committing"] ∧
    statusStages (streamDeploymentUpdates
        (exDial [exUpdate "queued" "" [], exUpdate "queued" "" [],
                 exUpdate "committing" "" []]) "" "dep-1" "").out =
      ["queued", "committing"] :=
  have h := stage_dedup
    (exServer [exStatus "queued" [], exStatus "queued" [], exStatus "committing" []])
    (exDial [exUpdate "queued" "" [], exUpdate "queued" "" [], exUpdate "committing" "" []])
    "" "dep-1" "" (by decide) (by decide)
  ⟨h.1.2.2 (by decide), h.2.2.2 (by decide)⟩

/-- Counterexample to C8: the polling watch receives two `building` responses,
the second with the new log line "compiling". The whole output is the single
status line of the first response; the log line "compiling" is not shown. -/
theorem poll_log_not_shown_counterexample :
    "compiling" ∈ (pollForDeploymentURL
        (exServer [exStatus "building" ["pulling image"],
                   exStatus "building" ["compiling"]])).seen.flatMap (fun x => x.Logs) ∧
    (pollForDeploymentURL
        (exServer [exStatus "building" ["pulling image"],
                   exStatus "building" ["compiling"]])).out =
      [Line.pollStatus "building" (some "pulling image")] ∧
    "compiling" ∉ shownLogs (pollForDeploymentURL
        (exServer [exStatus "building" ["pulling image"],
                   exStatus "building" ["compiling"]])).out := by
  decide

/-- C8, amended. The streaming watch shows every log line of every update it
consumes, in order, whether or not the stage changed. The polling watch shows
log lines only as part of a status-change line: for each response whose stage
differs from the stage of the response before it, the last log line of that
response, and nothing for a response with an unchanged stage. -/
theorem logs_surfaced
    (G : Nat → Except Err StatusResponse)
    (dial : String → Except Err Conn) (baseURL id w : String) :
    shownLogs (streamDeploymentUpdates dial baseURL id w).out =
      (streamDeploymentUpdates dial baseURL id w).seen.flatMap (fun u => u.Logs) ∧
    shownLogs (pollForDeploymentURL G).out =
      pollLogsShown "" (pollForDeploymentURL G).seen := by
  constructor
  · rcases stream_out_eq dial baseURL id w with ⟨h1, _, h3, _⟩ | ⟨hout, _, _⟩
    · rw [h3, h1]; rfl
    · rw [hout, callbackAll_shownLogs, streamStart_logs]; simp
  · have h1 : (pollForDeploymentURL G).out =
        (pollShowAll "" [] (pollForDeploymentURL G).seen).2 :=
      pollLoop_out G maxAttempts 0 "" []
    rw [h1, shownLogs_pollShowAll]
    simp [shownLogs]

/-- Counterexample to C9: a stream of one non-terminal update closed by the
server with the normal close code, and a stream that ends in `complete`, make
`streamDeploymentUpdates` return the same result, a nil error. -/
theorem early_close_same_result_counterexample :
    (streamDeploymentUpdates (exDial [exUpdate "building" "" []]) "" "dep-1" "").err =
      (streamDeploymentUpdates
        (exDial [exUpdate "building" "" [],
                 exUpdate "complete" "https://abc123def456.backend.im" []]) "" "dep-1" "").err ∧
    (streamDeploymentUpdates (exDial [exUpdate "building" "" []]) "" "dep-1" "").err = none := by
  decide

/-- C9, amended. When the server closes the session with the normal or the
going-away close code after non-terminal updates only, `streamDeploymentUpdates`
returns a nil error, the same result it returns when the updates are followed
by `complete`; the run differs from a completed one only in its output, which
has neither a deployment-URL line nor the completion notice. -/
theorem early_close_returns_nil
    (dial : String → Except Err Conn) (baseURL id w : String)
    (pre : List DeploymentUpdate) (tail : List ReadResult) (code : Int) (inner : Err)
    (eof : ReadErr)
    (hdial : dial (connectURL (NewWebSocketClient baseURL).baseURL id) =
      .ok { reads := pre.map ReadResult.msg ++ tail, eof := eof })
    (hpre : ∀ x ∈ pre, NonTerminal x.Status)
    (hcode : code = CloseNormalClosure ∨ code = CloseGoingAway)
    (htail : (tail = [] ∧ eof = ReadErr.close code inner) ∨
      ∃ rest, tail = ReadResult.fail (ReadErr.close code inner) :: rest) :
    (streamDeploymentUpdates dial baseURL id w).err = none ∧
    (streamDeploymentUpdates dial baseURL id w).seen = pre ∧
    urlLines (streamDeploymentUpdates dial baseURL id w).out = [] ∧
    Line.completed ∉ (streamDeploymentUpdates dial baseURL id w).out ∧
    (∀ (dial2 : String → Except Err Conn) (c : DeploymentUpdate) (rest2 : List ReadResult)
        (eof2 : ReadErr), c.Status = "complete" →
      dial2 (connectURL (NewWebSocketClient baseURL).baseURL id) =
        .ok { reads := pre.map ReadResult.msg ++ ReadResult.msg c :: rest2, eof := eof2 } →
      (streamDeploymentUpdates dial2 baseURL id w).err =
        (streamDeploymentUpdates dial baseURL id w).err) := by
  have hrun := streamLoop_read_fails deployCallback pre tail (ReadErr.close code inner) eof
    streamStart
    (fun x hx => ⟨hpre x hx, fun t => deployCallback_snd_nonTerminal t (hpre x hx)⟩) htail
  have hnone : readFailure (ReadErr.close code inner) = none :=
    (readFailure_none_iff _).mpr ⟨code, inner, rfl, hcode⟩
  have herr : (streamDeploymentUpdates dial baseURL id w).err = none := by
    rw [stream_connected hdial]
    simp only
    rw [hrun, hnone]
  refine ⟨herr, ?_, ?_, ?_, ?_⟩
  · rw [stream_connected hdial]
    simp only
    rw [hrun]
  · rw [stream_connected hdial]
    simp only
    rw [hrun]
    simp only
    rw [callbackAll_urlLines_nonTerminal pre _ hpre, streamStart_urls]
  · rw [stream_connected hdial]
    simp only
    rw [hrun]
    simp only
    rw [callbackAll_completed_nonTerminal pre _ hpre]
    exact streamStart_completed
  · intro dial2 c rest2 eof2 hc hdial2
    rw [herr, stream_connected hdial2, streamLoop_complete pre c rest2 eof2 streamStart hpre hc]

/-- Witness of C9, amended: two non-terminal updates, then a going-away close. -/
theorem early_close_returns_nil_witness :
    (streamDeploymentUpdates
      (fun _ => .ok { reads := [ReadResult.msg (exUpdate "queued" "" []),
                                ReadResult.msg (exUpdate "building" "https://x.backend.im" []),
                                ReadResult.fail (ReadErr.close 1001 (Err.msg "going away"))]
                      eof := ReadErr.other (Err.msg "use of closed network connection") })
      "" "dep-1" "").err = none ∧
    Line.completed ∉ (streamDeploymentUpdates
      (fun _ => .ok { reads := [ReadResult.msg (exUpdate "queued" "" []),
                                ReadResult.msg (exUpdate "building" "https://x.backend.im" []),
                                ReadResult.fail (ReadErr.close 1001 (Err.msg "going away"))]
                      eof := ReadErr.other (Err.msg "use of closed network connection") })
      "" "dep-1" "").out :=
  have h := early_close_returns_nil
    (fun _ => .ok { reads := [ReadResult.msg (exUpdate "queued" "" []),
                              ReadResult.msg (exUpdate "building" "https://x.backend.im" []),
                              ReadResult.fail (ReadErr.close 1001 (Err.msg "going away"))]
                    eof := ReadErr.other (Err.msg "use of closed network connection") })
    "" "dep-1" ""
    [exUpdate "queued" "" [], exUpdate "building" "https://x.backend.im" []]
    [ReadResult.fail (ReadErr.close 1001 (Err.msg "going away"))] 1001 (Err.msg "going away")
    (ReadErr.other (Err.msg "use of closed network connection"))
    rfl (by decide) (Or.inr rfl) (Or.inr ⟨[], rfl⟩)
  ⟨h.1, h.2.2.2.1⟩

/-- C10. Close classification in `StreamUpdates`. When a read fails with `e`,
after updates `pre` that did not end the loop, `StreamUpdates` returns no error
exactly when `e` is a close with code 1000 (normal closure) or 1001 (going
away); a close with another code, a read timeout and any other failure, such
as an undecodable message, each make it return an error; and the failing read
is the last one: the method has made `pre.length + 1` reads and handed only
`pre` to the callback, whatever is still queued on the connection. -/
theorem close_classification {σ : Type}
    (cb : σ → DeploymentUpdate → σ × Option Err) (c : WebSocketClient) (s : σ)
    (pre : List DeploymentUpdate) (tail : List ReadResult) (e eof : ReadErr)
    (hconn : c.conn = some { reads := pre.map ReadResult.msg ++ tail, eof := eof })
    (hpre : ∀ x ∈ pre, NonTerminal x.Status ∧ ∀ t, (cb t x).2 = none)
    (htail : (tail = [] ∧ eof = e) ∨ ∃ rest, tail = ReadResult.fail e :: rest) :
    ((c.StreamUpdates cb s).err = none ↔
      ∃ code inner, e = ReadErr.close code inner ∧ (code = 1000 ∨ code = 1001)) ∧
    (∀ code inner, e = ReadErr.close code inner → code ≠ 1000 → code ≠ 1001 →
      (c.StreamUpdates cb s).err =
        some (Err.wrap ("WebSocket closed with code " ++ toString code ++ ": ") inner)) ∧
    (∀ inner, e = ReadErr.timeout inner →
      (c.StreamUpdates cb s).err =
        some (Err.msg "WebSocket read timeout - connection may be stale")) ∧
    (∀ inner, e = ReadErr.other inner →
      (c.StreamUpdates cb s).err =
        some (Err.wrap "failed to read WebSocket message: " inner)) ∧
    (c.StreamUpdates cb s).reads = pre.length + 1 ∧
    (c.StreamUpdates cb s).seen = pre := by
  have hrun : c.StreamUpdates cb s =
      { state := callbackAll cb s pre, err := readFailure e, reads := pre.length + 1
        seen := pre } := by
    unfold WebSocketClient.StreamUpdates
    rw [hconn]
    exact streamLoop_read_fails cb pre tail e eof s hpre htail
  rw [hrun]
  refine ⟨?_, ?_, ?_, ?_, rfl, rfl⟩
  · simpa [CloseNormalClosure, CloseGoingAway] using readFailure_none_iff e
  · intro code inner he h1 h2
    subst he
    simp [readFailure, CloseNormalClosure, CloseGoingAway, h1, h2]
  · intro inner he
    subst he
    simp [readFailure]
  · intro inner he
    subst he
    simp [readFailure]

/-- Witness of C10: an undecodable message arrives after one update, with a
`complete` update queued behind it; the method returns the read error after
two reads. -/
theorem close_classification_witness :
    (WebSocketClient.StreamUpdates
      { baseURL := "http://localhost:8080"
        conn := some { reads := [ReadResult.msg (exUpdate "building" "" []),
                                 ReadResult.fail (ReadErr.other (Err.msg "invalid character")),
                                 ReadResult.msg (exUpdate "complete" "" [])]
                       eof := ReadErr.close 1000 (Err.msg "websocket: close 1000 (normal)") } }
      deployCallback streamStart).err =
        some (Err.wrap "failed to read WebSocket message: " (Err.msg "invalid character")) ∧
    (WebSocketClient.StreamUpdates
      { baseURL := "http://localhost:8080"
        conn := some { reads := [ReadResult.msg (exUpdate "building" "" []),
                                 ReadResult.fail (ReadErr.other (Err.msg "invalid character")),
                                 ReadResult.msg (exUpdate "complete" "" [])]
                       eof := ReadErr.close 1000 (Err.msg "websocket: close 1000 (normal)") } }
      deployCallback streamStart).reads = 1 + 1 :=
  have h := close_classification deployCallback
    { baseURL := "http://localhost:8080"
      conn := some { reads := [ReadResult.msg (exUpdate "building" "" []),
                               ReadResult.fail (ReadErr.other (Err.msg "invalid character")),
                               ReadResult.msg (exUpdate "complete" "" [])]
                     eof := ReadErr.close 1000 (Err.msg "websocket: close 1000 (normal)") } }
    streamStart [exUpdate "building" "" []]
    [ReadResult.fail (ReadErr.other (Err.msg "invalid character")),
     ReadResult.msg (exUpdate "complete" "" [])]
    (ReadErr.other (Err.msg "invalid character"))
    (ReadErr.close 1000 (Err.msg "websocket: close 1000 (normal)"))
    rfl
    (fun x hx => by
      have hx1 : x = exUpdate "building" "" [] := by simpa using hx
      subst hx1
      exact ⟨by decide, fun t => deployCallback_snd_nonTerminal t (by decide)⟩)
    (Or.inr ⟨[ReadResult.msg (exUpdate "complete" "" [])], rfl⟩)
  ⟨h.2.2.2.1 (Err.msg "invalid character") rfl, h.2.2.2.2.1⟩

/-! ## Lemmas on the stream endpoint URL -/

theorem data_http : "http://".data = ['h', 't', 't', 'p', ':', '/', '/'] := by decide

theorem data_https : "https://".data = ['h', 't', 't', 'p', 's', ':', '/', '/'] := by decide

theorem data_ws : "ws://".data = ['w', 's', ':', '/', '/'] := by decide

theorem data_wss : "wss://".data = ['w', 's', 's', ':', '/', '/'] := by decide

theorem HasPrefix_append (p h : String) : HasPrefix (p ++ h) p = true := by
  simp [HasPrefix, String.data_append]

theorem sliceFrom_append (p h : String) (n : Nat) (hn : p.data.length = n) :
    sliceFrom (p ++ h) n = h := by
  simp [sliceFrom, String.data_append, ← hn]

theorem append_ne_empty (p h : String) (hp : p ≠ "") : p ++ h ≠ "" := by
  intro he
  apply hp
  have := congrArg String.data he
  simp [String.data_append] at this
  exact String.ext this.1

theorem wsBaseOf_http (h : String) : wsBaseOf ("http://" ++ h) = "ws://" ++ h := by
  unfold wsBaseOf
  rw [if_pos (HasPrefix_append _ _), sliceFrom_append _ _ 7 (by decide)]

theorem https_not_http (h : String) : HasPrefix ("https://" ++ h) "http://" = false := by
  simp [HasPrefix, String.data_append, data_http, data_https, List.isPrefixOf]

theorem ws_not_http (h : String) : HasPrefix ("ws://" ++ h) "http://" = false := by
  simp [HasPrefix, String.data_append, data_http, data_ws, List.isPrefixOf]

theorem ws_not_https (h : String) : HasPrefix ("ws://" ++ h) "https://" = false := by
  simp [HasPrefix, String.data_append, data_https, data_ws, List.isPrefixOf]

theorem wss_not_http (h : String) : HasPrefix ("wss://" ++ h) "http://" = false := by
  simp [HasPrefix, String.data_append, data_http, data_wss, List.isPrefixOf]

theorem wss_not_https (h : String) : HasPrefix ("wss://" ++ h) "https://" = false := by
  simp [HasPrefix, String.data_append, data_https, data_wss, List.isPrefixOf]

theorem wsBaseOf_https (h : String) : wsBaseOf ("https://" ++ h) = "wss://" ++ h := by
  unfold wsBaseOf
  rw [https_not_http, if_neg (by decide), if_pos (HasPrefix_append _ _),
    sliceFrom_append _ _ 8 (by decide)]

theorem wsBaseOf_ws (h : String) : wsBaseOf ("ws://" ++ h) = "ws://" ++ h := by
  unfold wsBaseOf
  simp [ws_not_http, ws_not_https, HasPrefix_append]

theorem wsBaseOf_wss (h : String) : wsBaseOf ("wss://" ++ h) = "wss://" ++ h := by
  unfold wsBaseOf
  simp [wss_not_http, wss_not_https, HasPrefix_append]

theorem wsBaseOf_bare (h : String) (h1 : HasPrefix h "http://" = false)
    (h2 : HasPrefix h "https://" = false) (h3 : HasPrefix h "ws://" = false)
    (h4 : HasPrefix h "wss://" = false) : wsBaseOf h = "ws://" ++ h := by
  unfold wsBaseOf
  simp [h1, h2, h3, h4]

theorem NewWebSocketClient_baseURL (b : String) (hb : b ≠ "") :
    (NewWebSocketClient b).baseURL = b := by
  simp [NewWebSocketClient, hb]

/-- C18. Stream endpoint URL. For a host string `h` that begins with none of
the four scheme prefixes and a deployment ID `d`, the URL the streaming client
dials is `ws://h/ws?deploymentId=d` when the base URL is `http://h`, `ws://h`
or the bare, non-empty `h`, and `wss://h/ws?deploymentId=d` when the base URL
is `https://h` or `wss://h`; an empty base URL is replaced by
`http://localhost:8080` and dials `ws://localhost:8080/ws?deploymentId=d`. -/
theorem stream_endpoint_url (h d : String)
    (h1 : HasPrefix h "http://" = false) (h2 : HasPrefix h "https://" = false)
    (h3 : HasPrefix h "ws://" = false) (h4 : HasPrefix h "wss://" = false) :
    connectURL (NewWebSocketClient ("http://" ++ h)).baseURL d =
      "ws://" ++ h ++ "/ws?deploymentId=" ++ d ∧
    connectURL (NewWebSocketClient ("ws://" ++ h)).baseURL d =
      "ws://" ++ h ++ "/ws?deploymentId=" ++ d ∧
    (h ≠ "" → connectURL (NewWebSocketClient h).baseURL d =
      "ws://" ++ h ++ "/ws?deploymentId=" ++ d) ∧
    connectURL (NewWebSocketClient ("https://" ++ h)).baseURL d =
      "wss://" ++ h ++ "/ws?deploymentId=" ++ d ∧
    connectURL (NewWebSocketClient ("wss://" ++ h)).baseURL d =
      "wss://" ++ h ++ "/ws?deploymentId=" ++ d ∧
    (NewWebSocketClient "").baseURL = "http://localhost:8080" ∧
    connectURL (NewWebSocketClient "").baseURL d =
      connectURL (NewWebSocketClient "http://localhost:8080").baseURL d ∧
    connectURL (NewWebSocketClient "").baseURL d =
      "ws://localhost:8080/ws?deploymentId=" ++ d := by
  have e0 : (NewWebSocketClient "").baseURL = "http://localhost:8080" := by
    simp [NewWebSocketClient, DefaultAPIURL]
  have e1 : (NewWebSocketClient "http://localhost:8080").baseURL = "http://localhost:8080" :=
    NewWebSocketClient_baseURL _ (by decide)
  refine ⟨?_, ?_, ?_, ?_, ?_, e0, ?_, ?_⟩
  · rw [NewWebSocketClient_baseURL _ (append_ne_empty _ _ (by decide))]
    simp [connectURL, wsBaseOf_http]
  · rw [NewWebSocketClient_baseURL _ (append_ne_empty _ _ (by decide))]
    simp [connectURL, wsBaseOf_ws]
  · intro hne
    rw [NewWebSocketClient_baseURL _ hne]
    simp [connectURL, wsBaseOf_bare h h1 h2 h3 h4]
  · rw [NewWebSocketClient_baseURL _ (append_ne_empty _ _ (by decide))]
    simp [connectURL, wsBaseOf_https]
  · rw [NewWebSocketClient_baseURL _ (append_ne_empty _ _ (by decide))]
    simp [connectURL, wsBaseOf_wss]
  · rw [e0, e1]
  · have hw : wsBaseOf "http://localhost:8080" = "ws://localhost:8080" := by decide
    rw [e0, connectURL, hw]
    rfl

/-- Witness of C18: the host `mock-api:8080` and the deployment ID `dep-1`. -/
theorem stream_endpoint_url_witness :
    connectURL (NewWebSocketClient "http://mock-api:8080").baseURL "dep-1" =
      "ws://mock-api:8080/ws?deploymentId=dep-1" ∧
    connectURL (NewWebSocketClient "https://mock-api:8080").baseURL "dep-1" =
      "wss://mock-api:8080/ws?deploymentId=dep-1" :=
  have h := stream_endpoint_url "mock-api:8080" "dep-1"
    (by decide) (by decide) (by decide) (by decide)
  ⟨h.1, h.2.2.2.1⟩

/-! ## Lemmas on the HTTP client -/

theorem handleResponse_ok_iff {α : Type} (decode : String → Except Err α)
    (resp : HttpResponse) (v : α) :
    handleResponse decode resp = .ok v ↔
      (200 ≤ resp.StatusCode ∧ resp.StatusCode < 300) ∧ decode resp.Body = .ok v := by
  unfold handleResponse
  by_cases h : resp.StatusCode < 200 ∨ resp.StatusCode ≥ 300
  · simp only [h, if_true]
    constructor
    · intro h1; cases h1
    · rintro ⟨⟨h1, h2⟩, _⟩
      omega
  · simp only [h, if_false]
    have h' : 200 ≤ resp.StatusCode ∧ resp.StatusCode < 300 := by omega
    cases hd : decode resp.Body with
    | error e => simp [h']
    | ok u => simp [h']

theorem Client_get_ok_iff {α : Type} (c : Client) (net : Transport)
    (decode : String → Except Err α) (path : String) (v : α) :
    c.get net decode path = .ok v ↔
      net.NewRequest "GET" (c.baseURL ++ path) = none ∧
      ∃ resp, net.Do (c.getRequest path) = .ok resp ∧
        (200 ≤ resp.StatusCode ∧ resp.StatusCode < 300) ∧ decode resp.Body = .ok v := by
  unfold Client.get
  cases hn : net.NewRequest "GET" (c.baseURL ++ path) with
  | some e => simp
  | none =>
      cases hd : net.Do (c.getRequest path) with
      | error e => simp
      | ok resp => simp [handleResponse_ok_iff]

/-- C11. Polling has no retry on request failure. For `k < 30`, when the first
`k` status requests succeed without ending the watch and request `k` fails with
error `e`, `pollForDeploymentURL` returns an empty URL and the error `e` itself
after exactly `k + 1` requests, and no later answer of the server changes
anything it returns or prints. A status request of the API client fails in
each of the three ways: the transport fails, the response is not 2xx, or the
body cannot be decoded; it succeeds only on a 2xx response with a decodable
body. -/
theorem poll_no_retry (G : Nat → Except Err StatusResponse) (k : Nat) (e : Err)
    (hk : k < 30)
    (hpre : ∀ i < k, ∃ s, G i = .ok s ∧ pollVerdict s = none)
    (hfail : G k = .error e) :
    ((pollForDeploymentURL G).url = "" ∧
      (pollForDeploymentURL G).err = some e ∧
      (pollForDeploymentURL G).requests = k + 1 ∧
      (pollForDeploymentURL G).seen.length = k ∧
      ∀ G1 : Nat → Except Err StatusResponse, (∀ i, i ≤ k → G1 i = G i) →
        pollForDeploymentURL G1 = pollForDeploymentURL G) ∧
    (∀ (c : Client) (net : Transport) (decode : String → Except Err StatusResponse)
        (id : String),
      (∀ err, net.NewRequest "GET" (c.baseURL ++ ("/api/status/" ++ id)) = none →
        net.Do (c.getRequest ("/api/status/" ++ id)) = .error err →
        c.GetStatus net decode id = .error (Err.wrap "request failed: " err)) ∧
      (∀ resp, net.NewRequest "GET" (c.baseURL ++ ("/api/status/" ++ id)) = none →
        net.Do (c.getRequest ("/api/status/" ++ id)) = .ok resp →
        (resp.StatusCode < 200 ∨ resp.StatusCode ≥ 300) →
        c.GetStatus net decode id =
          .error (Err.msg ("API error (" ++ toString resp.StatusCode ++ "): " ++ resp.Body))) ∧
      (∀ resp err, net.NewRequest "GET" (c.baseURL ++ ("/api/status/" ++ id)) = none →
        net.Do (c.getRequest ("/api/status/" ++ id)) = .ok resp →
        200 ≤ resp.StatusCode → resp.StatusCode < 300 → decode resp.Body = .error err →
        c.GetStatus net decode id = .error (Err.wrap "failed to decode response: " err)) ∧
      (∀ s, c.GetStatus net decode id = .ok s ↔
        net.NewRequest "GET" (c.baseURL ++ ("/api/status/" ++ id)) = none ∧
        ∃ resp, net.Do (c.getRequest ("/api/status/" ++ id)) = .ok resp ∧
          (200 ≤ resp.StatusCode ∧ resp.StatusCode < 300) ∧ decode resp.Body = .ok s)) := by
  constructor
  · obtain ⟨last1, out1, seen1, hlen, heq⟩ := poll_after_continuing G k (Nat.le_of_lt hk) hpre
    have hrun : pollForDeploymentURL G =
        { url := "", err := some e, out := out1, requests := k + 1, seen := seen1 } := by
      rw [heq, show 30 - k = (29 - k) + 1 by omega, pollLoop_error hfail]
      simp
    refine ⟨by rw [hrun], by rw [hrun], by rw [hrun], by rw [hrun]; exact hlen, ?_⟩
    intro G1 hG1
    apply poll_prefix_only
    intro i hi
    rw [hrun] at hi
    exact hG1 i (by simp only at hi; omega)
  · intro c net decode id
    refine ⟨?_, ?_, ?_, ?_⟩
    · intro err hn hdo
      simp [Client.GetStatus, Client.get, hn, hdo]
    · intro resp hn hdo hcode
      simp [Client.GetStatus, Client.get, hn, hdo, handleResponse, hcode]
    · intro resp err hn hdo h1 h2 hdec
      have : ¬ (resp.StatusCode < 200 ∨ resp.StatusCode ≥ 300) := by omega
      simp [Client.GetStatus, Client.get, hn, hdo, handleResponse, this, hdec]
    · intro s
      exact Client_get_ok_iff c net decode _ s

/-- Witness of C11: two `building` responses, then a request that fails. -/
theorem poll_no_retry_witness :
    (pollForDeploymentURL (exServer [exBuilding, exBuilding])).url = "" ∧
    (pollForDeploymentURL (exServer [exBuilding, exBuilding])).err =
      some (Err.msg "request failed: connection refused") ∧
    (pollForDeploymentURL (exServer [exBuilding, exBuilding])).requests = 2 + 1 :=
  have h := poll_no_retry (exServer [exBuilding, exBuilding]) 2
    (Err.msg "request failed: connection refused") (by decide)
    (fun i hi => ⟨exBuilding, by
      have : i = 0 ∨ i = 1 := by omega
      rcases this with h | h <;> subst h <;> exact ⟨rfl, by decide⟩⟩)
    rfl
  ⟨h.1.1, h.1.2.1, h.1.2.2.1⟩

/-! ## Lemmas on the deploy command -/

theorem deployRunE_reaches_watch (env : DeployEnv) (tok : String)
    (fileMap : List (String × String)) (resp : DeployResponse)
    (hproj : deployProjectID env ≠ "") (htok : env.LoadToken = .ok tok)
    (hfiles : ReadProjectFiles env.fs (if env.dir = "" then "." else env.dir) = (fileMap, none))
    (hne : fileMap ≠ [])
    (hdep : env.Deploy ((NewClient env.apiURL).SetAuthToken tok) fileMap (deployProjectID env) =
      .ok resp) :
    ∃ out, deployRunE env =
      deployWatch env ((NewClient env.apiURL).SetAuthToken tok) resp out := by
  have hlen : ¬ fileMap.length = 0 := by
    intro h; exact hne (List.length_eq_zero.mp h)
  unfold deployProjectID at hproj hdep
  unfold deployRunE
  generalize env.args = args at hproj hdep ⊢
  cases args with
  | nil =>
      simp only at hproj hdep
      simp only [hproj, if_false, htok, hfiles, hlen, hdep]
      exact ⟨_, rfl⟩
  | cons a rest =>
      simp only at hproj hdep
      simp only [hproj, if_false, htok, hfiles, hlen, hdep]
      exact ⟨_, rfl⟩

theorem stream_err_of_failed {dial : String → Except Err Conn} {baseURL id : String}
    (w : String) (pre : List DeploymentUpdate) (f : DeploymentUpdate) (rest : List ReadResult)
    (eof : ReadErr)
    (hdial : dial (connectURL (NewWebSocketClient baseURL).baseURL id) =
      .ok { reads := pre.map ReadResult.msg ++ ReadResult.msg f :: rest, eof := eof })
    (hpre : ∀ x ∈ pre, NonTerminal x.Status) (hf : f.Status = "failed") :
    (streamDeploymentUpdates dial baseURL id w).err =
      some (Err.wrap "WebSocket streaming error: " (Err.msg "deployment failed")) := by
  rw [stream_connected hdial, streamLoop_failed pre f rest eof streamStart hpre hf]

theorem stream_err_of_complete {dial : String → Except Err Conn} {baseURL id : String}
    (w : String) (pre : List DeploymentUpdate) (c : DeploymentUpdate) (rest : List ReadResult)
    (eof : ReadErr)
    (hdial : dial (connectURL (NewWebSocketClient baseURL).baseURL id) =
      .ok { reads := pre.map ReadResult.msg ++ ReadResult.msg c :: rest, eof := eof })
    (hpre : ∀ x ∈ pre, NonTerminal x.Status) (hc : c.Status = "complete") :
    (streamDeploymentUpdates dial baseURL id w).err = none := by
  rw [stream_connected hdial, streamLoop_complete pre c rest eof streamStart hpre hc]

theorem stream_err_of_read_fails {dial : String → Except Err Conn} {baseURL id : String}
    (w : String) (pre : List DeploymentUpdate) (tail : List ReadResult) (e eof : ReadErr)
    (hdial : dial (connectURL (NewWebSocketClient baseURL).baseURL id) =
      .ok { reads := pre.map ReadResult.msg ++ tail, eof := eof })
    (hpre : ∀ x ∈ pre, NonTerminal x.Status)
    (htail : (tail = [] ∧ eof = e) ∨ ∃ rest, tail = ReadResult.fail e :: rest) :
    ((streamDeploymentUpdates dial baseURL id w).err = none ↔
      ∃ code inner, e = ReadErr.close code inner ∧ (code = 1000 ∨ code = 1001)) := by
  rw [stream_connected hdial]
  simp only
  rw [streamLoop_read_fails deployCallback pre tail e eof streamStart
    (fun x hx => ⟨hpre x hx, fun t => deployCallback_snd_nonTerminal t (hpre x hx)⟩) htail]
  simp only
  rw [← show (readFailure e = none ↔
      ∃ code inner, e = ReadErr.close code inner ∧ (code = 1000 ∨ code = 1001)) from by
    simpa [CloseNormalClosure, CloseGoingAway] using readFailure_none_iff e]
  cases readFailure e <;> simp

/-- Counterexample to C12: with the watch flag off, the remote reports `failed`
(the polling watch returns the error "deployment failed"), and in a second run
the polling watch times out; the command returns no error both times and the
process exits with status 0. -/
theorem deploy_polling_failure_exit_counterexample :
    (pollForDeploymentURL (exEnv false [exBuilding, exFailed] []).GetStatus).err =
      some (Err.msg "deployment failed") ∧
    (deployRunE (exEnv false [exBuilding, exFailed] [])).err = none ∧
    exitStatus (deployRunE (exEnv false [exBuilding, exFailed] [])).err = 0 ∧
    (pollForDeploymentURL (fun _ => .ok exBuilding)).err =
      some (Err.msg "timeout waiting for deployment URL (after 30 seconds)") ∧
    (deployRunE { exEnv false [] [] with GetStatus := fun _ => .ok exBuilding }).err = none := by
  decide

/-- C12, amended. Once the deployment has been started (the project ID, given
by the flag or as positional argument, is not empty, and token, files and
deploy request succeed): with the watch flag on, the command returns an error,
so that the process exits non-zero, exactly when `streamDeploymentUpdates`
returns an error, and that error is the one of the streaming watch wrapped under
"failed to stream updates: "; so it exits with status 1 when the remote reports
`failed`, when the stream connection cannot be opened and when a read fails
before a terminal stage with anything but a close of code 1000 or 1001, and with
status 0 when `complete` is observed and when such a close ends the stream.
With the watch flag off, the command returns no error and the process exits
with status 0 whatever `pollForDeploymentURL` returns: an error of the polling
watch is printed last, as a warning on standard error followed by the hint to
use `--watch`, and a success ends with the deployment URL line. -/
theorem deploy_exit_behaviour (env : DeployEnv) (tok : String)
    (fileMap : List (String × String)) (resp : DeployResponse)
    (hproj : deployProjectID env ≠ "") (htok : env.LoadToken = .ok tok)
    (hfiles : ReadProjectFiles env.fs (if env.dir = "" then "." else env.dir) = (fileMap, none))
    (hne : fileMap ≠ [])
    (hdep : env.Deploy ((NewClient env.apiURL).SetAuthToken tok) fileMap (deployProjectID env) =
      .ok resp) :
    (env.watch = true →
      (deployRunE env).err =
        (match (streamDeploymentUpdates env.dial (NewClient env.apiURL).BaseURL
            resp.DeploymentID resp.WebSocketURL).err with
         | some e => some (Err.wrap "failed to stream updates: " e)
         | none => none) ∧
      (exitStatus (deployRunE env).err = 0 ↔
        (streamDeploymentUpdates env.dial (NewClient env.apiURL).BaseURL
          resp.DeploymentID resp.WebSocketURL).err = none) ∧
      (∀ (pre : List DeploymentUpdate) (f : DeploymentUpdate) (rest : List ReadResult)
          (eof : ReadErr),
        env.dial (connectURL (NewWebSocketClient (NewClient env.apiURL).BaseURL).baseURL
            resp.DeploymentID) =
          .ok { reads := pre.map ReadResult.msg ++ ReadResult.msg f :: rest, eof := eof } →
        (∀ x ∈ pre, NonTerminal x.Status) → f.Status = "failed" →
        exitStatus (deployRunE env).err = 1) ∧
      (∀ e : Err,
        env.dial (connectURL (NewWebSocketClient (NewClient env.apiURL).BaseURL).baseURL
            resp.DeploymentID) = .error e →
        exitStatus (deployRunE env).err = 1) ∧
      (∀ (pre : List DeploymentUpdate) (tail : List ReadResult) (e eof : ReadErr),
        env.dial (connectURL (NewWebSocketClient (NewClient env.apiURL).BaseURL).baseURL
            resp.DeploymentID) =
          .ok { reads := pre.map ReadResult.msg ++ tail, eof := eof } →
        (∀ x ∈ pre, NonTerminal x.Status) →
        ((tail = [] ∧ eof = e) ∨ ∃ rest, tail = ReadResult.fail e :: rest) →
        (exitStatus (deployRunE env).err = 0 ↔
          ∃ code inner, e = ReadErr.close code inner ∧ (code = 1000 ∨ code = 1001))) ∧
      (∀ (pre : List DeploymentUpdate) (c : DeploymentUpdate) (rest : List ReadResult)
          (eof : ReadErr),
        env.dial (connectURL (NewWebSocketClient (NewClient env.apiURL).BaseURL).baseURL
            resp.DeploymentID) =
          .ok { reads := pre.map ReadResult.msg ++ ReadResult.msg c :: rest, eof := eof } →
        (∀ x ∈ pre, NonTerminal x.Status) → c.Status = "complete" →
        exitStatus (deployRunE env).err = 0)) ∧
    (env.watch = false →
      (deployRunE env).err = none ∧ exitStatus (deployRunE env).err = 0 ∧
      (∀ e : Err, (pollForDeploymentURL env.GetStatus).err = some e →
        ∃ before, (deployRunE env).out = before ++
          [CmdLine.warn ("⚠️  Warning: Could not get deployment URL: " ++ e.Error),
           CmdLine.out "💡 Use --watch flag to see real-time progress"]) ∧
      ((pollForDeploymentURL env.GetStatus).err = none →
        ∃ before, (deployRunE env).out = before ++
          [CmdLine.out ("🌐 Deployment URL: " ++ (pollForDeploymentURL env.GetStatus).url)])) := by
  obtain ⟨out, hrun⟩ := deployRunE_reaches_watch env tok fileMap resp hproj htok hfiles hne hdep
  rw [hrun]
  constructor
  · intro hw
    have hb : ((NewClient env.apiURL).SetAuthToken tok).BaseURL = (NewClient env.apiURL).BaseURL :=
      rfl
    have herr : (deployWatch env ((NewClient env.apiURL).SetAuthToken tok) resp out).err =
        (match (streamDeploymentUpdates env.dial (NewClient env.apiURL).BaseURL
            resp.DeploymentID resp.WebSocketURL).err with
         | some e => some (Err.wrap "failed to stream updates: " e)
         | none => none) := by
      unfold deployWatch
      simp only [hw, if_true, hb]
      cases (streamDeploymentUpdates env.dial (NewClient env.apiURL).BaseURL
        resp.DeploymentID resp.WebSocketURL).err <;> rfl
    have hexit : (exitStatus (deployWatch env ((NewClient env.apiURL).SetAuthToken tok)
        resp out).err = 0 ↔
        (streamDeploymentUpdates env.dial (NewClient env.apiURL).BaseURL
          resp.DeploymentID resp.WebSocketURL).err = none) := by
      rw [herr]
      cases (streamDeploymentUpdates env.dial (NewClient env.apiURL).BaseURL
        resp.DeploymentID resp.WebSocketURL).err <;> simp [exitStatus]
    have hone : ∀ e, (streamDeploymentUpdates env.dial (NewClient env.apiURL).BaseURL
          resp.DeploymentID resp.WebSocketURL).err = some e →
        exitStatus (deployWatch env ((NewClient env.apiURL).SetAuthToken tok)
          resp out).err = 1 := by
      intro e he
      rw [herr, he]
      rfl
    refine ⟨herr, hexit, ?_, ?_, ?_, ?_⟩
    · intro pre f rest eof hdial hpre hf
      exact hone _ (stream_err_of_failed resp.WebSocketURL pre f rest eof hdial hpre hf)
    · intro e hdial
      have hs := stream_not_connected hdial resp.WebSocketURL
      exact hone _ (by rw [hs])
    · intro pre tail e eof hdial hpre htail
      rw [hexit]
      exact stream_err_of_read_fails resp.WebSocketURL pre tail e eof hdial hpre htail
    · intro pre c rest eof hdial hpre hc
      rw [hexit]
      exact stream_err_of_complete resp.WebSocketURL pre c rest eof hdial hpre hc
  · intro hw
    unfold deployWatch
    simp only [hw]
    cases hp : (pollForDeploymentURL env.GetStatus).err with
    | some e =>
        refine ⟨rfl, rfl, ?_, ?_⟩
        · intro e1 he1
          cases he1
          exact ⟨_, rfl⟩
        · intro h; cases h
    | none =>
        have hu : (pollForDeploymentURL env.GetStatus).url ≠ "" :=
          poll_ok_url_nonempty env.GetStatus hp
        simp only [hu, ne_eq, not_false_eq_true, if_true]
        refine ⟨rfl, rfl, ?_, ?_⟩
        · intro e1 he1; cases he1
        · intro _
          exact ⟨_, rfl⟩

/-- Witness of C12, amended: the project ID is given as positional argument; a
streamed deployment that fails exits with status 1, a polled deployment that
fails exits with status 0 after the warning and the hint. -/
theorem deploy_exit_behaviour_witness :
    exitStatus (deployRunE
      { exEnv true [] [exUpdate "building" "" [], exUpdate "failed" "" []] with
        project := "", args := ["demo"] }).err = 1 ∧
    exitStatus (deployRunE
      { exEnv false [exBuilding, exFailed] [] with project := "", args := ["demo"] }).err = 0 ∧
    ∃ before, (deployRunE
      { exEnv false [exBuilding, exFailed] [] with project := "", args := ["demo"] }).out =
        before ++
          [CmdLine.warn ("⚠️  Warning: Could not get deployment URL: " ++
             (Err.msg "deployment failed").Error),
           CmdLine.out "💡 Use --watch flag to see real-time progress"] :=
  ⟨((deploy_exit_behaviour
        { exEnv true [] [exUpdate "building" "" [], exUpdate "failed" "" []] with
          project := "", args := ["demo"] }
        "secret-token" [("main.py", "print(1)")]
        { DeploymentID := "dep-1", ProjectID := "demo", CommitHash := "a1b2c3d4e5f6"
          Status := "queued" }
        (by decide) rfl (by decide) (by decide) rfl).1 rfl).2.2.1
      [exUpdate "building" "" []] (exUpdate "failed" "" []) []
      (ReadErr.close 1000 (Err.msg "websocket: close 1000 (normal)")) rfl (by decide) rfl,
    ((deploy_exit_behaviour
        { exEnv false [exBuilding, exFailed] [] with project := "", args := ["demo"] }
        "secret-token" [("main.py", "print(1)")]
        { DeploymentID := "dep-1", ProjectID := "demo", CommitHash := "a1b2c3d4e5f6"
          Status := "queued" }
        (by decide) rfl (by decide) (by decide) rfl).2 rfl).2.1,
    ((deploy_exit_behaviour
        { exEnv false [exBuilding, exFailed] [] with project := "", args := ["demo"] }
        "secret-token" [("main.py", "print(1)")]
        { DeploymentID := "dep-1", ProjectID := "demo", CommitHash := "a1b2c3d4e5f6"
          Status := "queued" }
        (by decide) rfl (by decide) (by decide) rfl).2 rfl).2.2.1
      (Err.msg "deployment failed") (by decide)⟩

/-- A run of the streaming watch over non-terminal updates followed by a
terminal one does not depend on what follows the terminal update. -/
theorem stream_terminal_run (pre : List DeploymentUpdate) (t : DeploymentUpdate)
    (rest : List ReadResult) (eof : ReadErr) (s : StreamState)
    (hpre : ∀ x ∈ pre, NonTerminal x.Status)
    (ht : t.Status = "complete" ∨ t.Status = "failed") :
    streamLoop deployCallback (pre.map ReadResult.msg ++ ReadResult.msg t :: rest) eof s =
      { state := (deployCallback (callbackAll deployCallback s pre) t).1
        err := (deployCallback (callbackAll deployCallback s pre) t).2
        reads := pre.length + 1, seen := pre ++ [t] } := by
  rcases ht with hc | hf
  · rw [streamLoop_complete pre t rest eof s hpre hc, deployCallback_snd]
    have : ¬ t.Status = "failed" := by rw [hc]; decide
    simp [this]
  · rw [streamLoop_failed pre t rest eof s hpre hf, deployCallback_snd]
    simp [hf]

/-- C13. Idempotence of the terminal observation in the streaming watch. For
non-terminal updates `pre` and a terminal update `t` (`complete` or `failed`),
the watch run on `pre` followed by `t` twice returns the same error and prints
the same output as the watch run on `pre` followed by `t` once (the whole
results are equal); and so does the watch run on `pre`, `t` and anything after
it. -/
theorem terminal_idempotent
    (dial dial2 : String → Except Err Conn) (baseURL id w : String)
    (pre : List DeploymentUpdate) (t : DeploymentUpdate) (eof eof2 : ReadErr)
    (hpre : ∀ x ∈ pre, NonTerminal x.Status)
    (ht : t.Status = "complete" ∨ t.Status = "failed")
    (h1 : dial (connectURL (NewWebSocketClient baseURL).baseURL id) =
      .ok { reads := pre.map ReadResult.msg ++ [ReadResult.msg t], eof := eof })
    (h2 : dial2 (connectURL (NewWebSocketClient baseURL).baseURL id) =
      .ok { reads := pre.map ReadResult.msg ++ [ReadResult.msg t, ReadResult.msg t]
            eof := eof2 }) :
    streamDeploymentUpdates dial2 baseURL id w = streamDeploymentUpdates dial baseURL id w ∧
    (streamDeploymentUpdates dial2 baseURL id w).err =
      (streamDeploymentUpdates dial baseURL id w).err ∧
    (streamDeploymentUpdates dial2 baseURL id w).out =
      (streamDeploymentUpdates dial baseURL id w).out ∧
    (∀ (dial3 : String → Except Err Conn) (rest : List ReadResult) (eof3 : ReadErr),
      dial3 (connectURL (NewWebSocketClient baseURL).baseURL id) =
        .ok { reads := pre.map ReadResult.msg ++ ReadResult.msg t :: rest, eof := eof3 } →
      streamDeploymentUpdates dial3 baseURL id w = streamDeploymentUpdates dial baseURL id w) := by
  have key : ∀ (dial3 : String → Except Err Conn) (rest : List ReadResult) (eof3 : ReadErr),
      dial3 (connectURL (NewWebSocketClient baseURL).baseURL id) =
        .ok { reads := pre.map ReadResult.msg ++ ReadResult.msg t :: rest, eof := eof3 } →
      streamDeploymentUpdates dial3 baseURL id w = streamDeploymentUpdates dial baseURL id w := by
    intro dial3 rest eof3 h3
    rw [stream_connected h3, stream_connected h1,
      stream_terminal_run pre t rest eof3 streamStart hpre ht,
      stream_terminal_run pre t [] eof streamStart hpre ht]
  have h := key dial2 [ReadResult.msg t] eof2 h2
  exact ⟨h, by rw [h], by rw [h], key⟩

/-- Witness of C13: a `failed` update delivered twice after one `building`. -/
theorem terminal_idempotent_witness :
    streamDeploymentUpdates
        (exDial [exUpdate "building" "" ["step"], exUpdate "failed" "" ["boom"],
                 exUpdate "failed" "" ["boom"]]) "" "dep-1" "" =
      streamDeploymentUpdates
        (exDial [exUpdate "building" "" ["step"], exUpdate "failed" "" ["boom"]])
        "" "dep-1" "" :=
  (terminal_idempotent
    (exDial [exUpdate "building" "" ["step"], exUpdate "failed" "" ["boom"]])
    (exDial [exUpdate "building" "" ["step"], exUpdate "failed" "" ["boom"],
             exUpdate "failed" "" ["boom"]]) "" "dep-1" ""
    [exUpdate "building" "" ["step"]] (exUpdate "failed" "" ["boom"])
    (ReadErr.close 1000 (Err.msg "websocket: close 1000 (normal)"))
    (ReadErr.close 1000 (Err.msg "websocket: close 1000 (normal)"))
    (by decide) (Or.inr rfl) rfl rfl).1

/-! ## Lemmas on the mock service -/

theorem slicePrefix_eq_some_iff (s : String) (n : Nat) :
    (∃ head, slicePrefix s n = some head) ↔ n ≤ s.utf8ByteSize := by
  unfold slicePrefix
  by_cases h : n ≤ s.utf8ByteSize <;> simp [h]

theorem slicePrefix_eq_none_iff (s : String) (n : Nat) :
    slicePrefix s n = none ↔ s.utf8ByteSize < n := by
  unfold slicePrefix
  by_cases h : n ≤ s.utf8ByteSize
  · simp [h]
  · simp [h]; omega

theorem stageAt_of_lt (e : Int) (j : Nat) (hj : j < 6)
    (h1 : (j : Int) * (3 * second) ≤ e) (h2 : e < ((j : Int) + 1) * (3 * second)) :
    stageAt e = canonicalStages.getD j "" := by
  have hs : (3 : Int) * second = 3000000000 := by decide
  rw [hs] at h1 h2
  have hq : e / 3000000000 = (j : Int) := by omega
  unfold stageAt
  rw [hs, hq]
  simp [Nat.min_eq_left (Nat.le_of_lt hj)]

theorem stageAt_of_ge (e : Int) (h : 18 * second ≤ e) : stageAt e = "complete" := by
  have hs : (3 : Int) * second = 3000000000 := by decide
  have h18 : (18 : Int) * second = 18000000000 := by decide
  rw [h18] at h
  have hq : 6 ≤ (e / 3000000000).toNat := by omega
  unfold stageAt
  rw [hs, Nat.min_eq_right hq]
  decide

/-- The stage of the canonical order picked by `stageAt` is `complete` exactly
from 18 seconds on, for a non-negative elapsed time. -/
theorem stageAt_complete_iff (e : Int) (h0 : 0 ≤ e) :
    stageAt e = "complete" ↔ 18 * second ≤ e := by
  constructor
  · intro hc
    by_contra hlt
    have hs : (3 : Int) * second = 3000000000 := by decide
    have h18 : (18 : Int) * second = 18000000000 := by decide
    rw [h18] at hlt
    have hq : (e / 3000000000).toNat < 6 := by omega
    unfold stageAt at hc
    rw [hs, Nat.min_eq_left (Nat.le_of_lt hq)] at hc
    generalize (e / 3000000000).toNat = j at hq hc
    have : j = 0 ∨ j = 1 ∨ j = 2 ∨ j = 3 ∨ j = 4 ∨ j = 5 := by omega
    rcases this with h | h | h | h | h | h <;> subst h <;> revert hc <;> decide
  · exact stageAt_of_ge e

/-- What `mockStatus` replies for a deployment that is not memoized, when the
elapsed time is not negative: the stage of the threshold schedule, whenever it
replies; it replies unless the elapsed time has reached 18 seconds and the
deployment ID has fewer than 12 bytes, in which case it panics. -/
theorem mockStatus_stage (st : MockStore) (id : String) (clk : ClockReads)
    (hid : id ≠ "") (hmemo : st.deploymentStatuses id = none)
    (he : 0 ≤ mockElapsed st id clk) :
    (mockElapsed st id clk < 18 * second ∨ 12 ≤ id.utf8ByteSize →
      ∃ p, (mockStatus st id clk).2 = .ok p ∧ p.status = stageAt (mockElapsed st id clk)) ∧
    (18 * second ≤ mockElapsed st id clk → id.utf8ByteSize < 12 →
      (mockStatus st id clk).2 = .panic) := by
  have hel : clk.onSince -
      (match st.deploymentStartTimes id with
        | some t => (st, t)
        | none =>
            ({ st with deploymentStartTimes := fun k =>
                 if k = id then some clk.onStore else st.deploymentStartTimes k },
             clk.onStart)).2 = mockElapsed st id clk := by
    unfold mockElapsed
    cases st.deploymentStartTimes id <;> rfl
  unfold mockStatus
  simp only [hid, if_false, hmemo, hel]
  generalize mockElapsed st id clk = e at he ⊢
  have hs : second = 1000000000 := rfl
  constructor
  · intro hcase
    by_cases h3 : e < 3 * second
    · simp only [h3, if_true]
      refine ⟨_, rfl, ?_⟩
      rw [stageAt_of_lt e 0 (by decide) (by rw [hs]; omega) (by rw [hs] at h3 ⊢; omega)]
      rfl
    by_cases h6 : e < 6 * second
    · simp only [h3, h6, if_true, if_false]
      refine ⟨_, rfl, ?_⟩
      rw [stageAt_of_lt e 1 (by decide) (by rw [hs] at h3 ⊢; omega) (by rw [hs] at h6 ⊢; omega)]
      rfl
    by_cases h9 : e < 9 * second
    · simp only [h3, h6, h9, if_true, if_false]
      refine ⟨_, rfl, ?_⟩
      rw [stageAt_of_lt e 2 (by decide) (by rw [hs] at h6 ⊢; omega) (by rw [hs] at h9 ⊢; omega)]
      rfl
    by_cases h12 : e < 12 * second
    · simp only [h3, h6, h9, h12, if_true, if_false]
      refine ⟨_, rfl, ?_⟩
      rw [stageAt_of_lt e 3 (by decide) (by rw [hs] at h9 ⊢; omega) (by rw [hs] at h12 ⊢; omega)]
      rfl
    by_cases h15 : e < 15 * second
    · simp only [h3, h6, h9, h12, h15, if_true, if_false]
      refine ⟨_, rfl, ?_⟩
      rw [stageAt_of_lt e 4 (by decide) (by rw [hs] at h12 ⊢; omega) (by rw [hs] at h15 ⊢; omega)]
      rfl
    by_cases h18 : e < 18 * second
    · simp only [h3, h6, h9, h12, h15, h18, if_true, if_false]
      refine ⟨_, rfl, ?_⟩
      rw [stageAt_of_lt e 5 (by decide) (by rw [hs] at h15 ⊢; omega) (by rw [hs] at h18 ⊢; omega)]
      rfl
    · simp only [h3, h6, h9, h12, h15, h18, if_false]
      have hlen : 12 ≤ id.utf8ByteSize := by
        rcases hcase with h | h
        · exact absurd h h18
        · exact h
      obtain ⟨head, hhead⟩ := (slicePrefix_eq_some_iff id 12).mpr hlen
      rw [hhead]
      refine ⟨_, rfl, ?_⟩
      rw [stageAt_of_ge e (by omega)]
      rfl
  · intro h18 hshort
    have h3 : ¬ e < 3 * second := by rw [hs] at h18 ⊢; omega
    have h6 : ¬ e < 6 * second := by rw [hs] at h18 ⊢; omega
    have h9 : ¬ e < 9 * second := by rw [hs] at h18 ⊢; omega
    have h12 : ¬ e < 12 * second := by rw [hs] at h18 ⊢; omega
    have h15 : ¬ e < 15 * second := by rw [hs] at h18 ⊢; omega
    have h18' : ¬ e < 18 * second := by omega
    simp only [h3, h6, h9, h12, h15, h18', if_false]
    rw [(slicePrefix_eq_none_iff id 12).mpr hshort]

/-- C14, at the failing input. The deployment ID `abc` has 3 bytes, its start
time is stored and it is not memoized. At an elapsed time of exactly 18
seconds, where the schedule of the claim gives the stage `complete`, the
handler `mockStatus` panics in `deploymentID[:12]` and reports no status; one
nanosecond earlier it reports `deploying`. -/
theorem mock_status_short_id_panics :
    (startedStore "abc").deploymentStatuses "abc" = none ∧
    mockElapsed (startedStore "abc") "abc" (atTime (18 * second)) = 18 * second ∧
    stageAt (18 * second) = "complete" ∧
    (mockStatus (startedStore "abc") "abc" (atTime (18 * second))).2 = .panic ∧
    (mockStatus (startedStore "abc") "abc" (atTime (18 * second - 1))).2 =
      .ok (mockReply "abc" "a1b2c3d4e5f6" "deploying" ""
        ["🚀 Deploying to Kubernetes cluster..."]) := by
  decide

theorem mockReply_url_ne (id hash status head : String) (logs : List String) :
    mockReply id hash status ("https://" ++ head ++ ".backend.im") logs =
      { id := id, projectId := "user123-myproject", commitHash := hash, status := status
        url := some ("https://" ++ head ++ ".backend.im"), logs := logs } := by
  have hne : "https://" ++ head ++ ".backend.im" ≠ "" := by
    rw [String.append_assoc]
    exact append_ne_empty _ _ (by decide)
  simp [mockReply, hne]

/-- The three ways `mockStatus` treats a deployment that is not memoized: it
replies with a stage other than `complete` and memoizes nothing, or it panics
and memoizes nothing, or it replies `complete` and memoizes that reply. -/
theorem mockStatus_shape (st : MockStore) (id : String) (clk : ClockReads)
    (hid : id ≠ "") (hmemo : st.deploymentStatuses id = none) :
    (∃ status logs, status ≠ "complete" ∧
      (mockStatus st id clk).2 = .ok (mockReply id "a1b2c3d4e5f6" status "" logs) ∧
      (mockStatus st id clk).1.deploymentStatuses = st.deploymentStatuses) ∨
    ((mockStatus st id clk).2 = .panic ∧
      (mockStatus st id clk).1.deploymentStatuses = st.deploymentStatuses) ∨
    (∃ head,
      (mockStatus st id clk).2 =
        .ok (mockReply id "a1b2c3d4e5f6" "complete" ("https://" ++ head ++ ".backend.im")
          ["✅ Deployment complete!"]) ∧
      (mockStatus st id clk).1.deploymentStatuses = fun k =>
        if k = id then
          some (mockReply id "a1b2c3d4e5f6" "complete" ("https://" ++ head ++ ".backend.im")
            ["✅ Deployment complete!"])
        else st.deploymentStatuses k) := by
  unfold mockStatus
  simp only [hid, if_false, hmemo]
  generalize hstarted : (match st.deploymentStartTimes id with
      | some t => (st, t)
      | none =>
          ({ st with deploymentStartTimes := fun k =>
               if k = id then some clk.onStore else st.deploymentStartTimes k },
           clk.onStart)) = started
  have hst : started.1.deploymentStatuses = st.deploymentStatuses := by
    rw [← hstarted]
    cases st.deploymentStartTimes id <;> rfl
  generalize clk.onSince - started.2 = e
  by_cases h3 : e < 3 * second
  · simp only [h3, if_true]
    exact Or.inl ⟨_, _, by decide, rfl, hst⟩
  by_cases h6 : e < 6 * second
  · simp only [h3, h6, if_true, if_false]
    exact Or.inl ⟨_, _, by decide, rfl, hst⟩
  by_cases h9 : e < 9 * second
  · simp only [h3, h6, h9, if_true, if_false]
    exact Or.inl ⟨_, _, by decide, rfl, hst⟩
  by_cases h12 : e < 12 * second
  · simp only [h3, h6, h9, h12, if_true, if_false]
    exact Or.inl ⟨_, _, by decide, rfl, hst⟩
  by_cases h15 : e < 15 * second
  · simp only [h3, h6, h9, h12, h15, if_true, if_false]
    exact Or.inl ⟨_, _, by decide, rfl, hst⟩
  by_cases h18 : e < 18 * second
  · simp only [h3, h6, h9, h12, h15, h18, if_true, if_false]
    exact Or.inl ⟨_, _, by decide, rfl, hst⟩
  simp only [h3, h6, h9, h12, h15, h18, if_false]
  cases slicePrefix id 12 with
  | none => exact Or.inr (Or.inl ⟨rfl, hst⟩)
  | some head =>
      refine Or.inr (Or.inr ⟨head, rfl, ?_⟩)
      simp only [hst, mockReply_url_ne]

/-- A status request that replies `complete` leaves that reply memoized under
the deployment ID. -/
theorem mockStatus_complete_memoizes (st : MockStore) (id : String) (clk : ClockReads)
    (p : MockStatus) (h : (mockStatus st id clk).2 = .ok p) (hp : p.status = "complete") :
    (mockStatus st id clk).1.deploymentStatuses id = some p := by
  have hid : id ≠ "" := by
    intro e
    simp [mockStatus, e] at h
  cases hmemo : st.deploymentStatuses id with
  | some q =>
      have hq : mockStatus st id clk = (st, .ok q) := by simp [mockStatus, hid, hmemo]
      rw [hq] at h ⊢
      cases h
      exact hmemo
  | none =>
      rcases mockStatus_shape st id clk hid hmemo with
        ⟨status, logs, hne, hr, _⟩ | ⟨hr, _⟩ | ⟨head, hr, hs⟩
      · rw [hr] at h
        cases h
        exact absurd hp hne
      · rw [hr] at h; cases h
      · rw [hr] at h
        cases h
        rw [hs]
        simp

/-- A status request does not touch what is memoized under another deployment
ID, and not what is memoized under its own. -/
theorem mockStatus_keeps_memo (st : MockStore) (id other : String) (clk : ClockReads)
    (p : MockStatus) (h : st.deploymentStatuses id = some p) :
    (mockStatus st other clk).1.deploymentStatuses id = some p := by
  by_cases ho : other = ""
  · simp [mockStatus, ho, h]
  · cases hmemo : st.deploymentStatuses other with
    | some q =>
        have hq : mockStatus st other clk = (st, .ok q) := by simp [mockStatus, ho, hmemo]
        rw [hq]
        exact h
    | none =>
        have hne : id ≠ other := by
          intro e; rw [e, hmemo] at h; cases h
        rcases mockStatus_shape st other clk ho hmemo with
          ⟨_, _, _, _, hs⟩ | ⟨_, hs⟩ | ⟨head, _, hs⟩
        · rw [hs]; exact h
        · rw [hs]; exact h
        · rw [hs]; simp [hne, h]

theorem mockServe_keeps_memo (id : String) (p : MockStatus) :
    ∀ (reqs : List (String × ClockReads)) (st : MockStore),
      st.deploymentStatuses id = some p →
      (mockServe st reqs).deploymentStatuses id = some p := by
  intro reqs
  induction reqs with
  | nil => intro st h; exact h
  | cons r rest ih =>
      intro st h
      obtain ⟨other, clk⟩ := r
      simp only [mockServe]
      exact ih _ (mockStatus_keeps_memo st id other clk p h)

theorem mockStatus_memoized_reply (st : MockStore) (id : String) (clk : ClockReads)
    (p : MockStatus) (hid : id ≠ "") (h : st.deploymentStatuses id = some p) :
    mockStatus st id clk = (st, .ok p) := by
  simp [mockStatus, hid, h]

/-- C15. Mock terminal memoization. Once a status request for a deployment ID
has replied with status `complete`, every later status request for that ID
replies with the same payload, equal in every field (id, projectId, commitHash,
status, url, logs), whatever the clock reads at the later request and whatever
status requests, for any deployment IDs, were served in between. -/
theorem mock_memoized (st : MockStore) (id : String) (clk : ClockReads) (p : MockStatus)
    (hfirst : (mockStatus st id clk).2 = .ok p) (hp : p.status = "complete")
    (reqs : List (String × ClockReads)) (later : ClockReads) :
    (mockStatus (mockServe (mockStatus st id clk).1 reqs) id later).2 = .ok p := by
  have hid : id ≠ "" := by
    intro e
    simp [mockStatus, e] at hfirst
  have hmemo := mockServe_keeps_memo id p reqs _ (mockStatus_complete_memoizes st id clk p hfirst hp)
  rw [mockStatus_memoized_reply _ id later p hid hmemo]

/-- Witness of C15: the deployment `abc123def456789` completes at 20 seconds;
after requests for two other deployments it is asked for again, much later and
with a clock that went backwards. -/
theorem mock_memoized_witness :
    (mockStatus
      (mockServe (mockStatus (startedStore "abc123def456789") "abc123def456789"
          (atTime (20 * second))).1
        [("other-deployment-1", atTime (21 * second)), ("xyz", atTime (22 * second))])
      "abc123def456789" (atTime (-5 * second))).2 =
      .ok { id := "abc123def456789", projectId := "user123-myproject"
            commitHash := "a1b2c3d4e5f6", status := "complete"
            url := some "https://abc123def456.backend.im"
            logs := ["✅ Deployment complete!"] } :=
  mock_memoized (startedStore "abc123def456789") "abc123def456789" (atTime (20 * second))
    { id := "abc123def456789", projectId := "user123-myproject"
      commitHash := "a1b2c3d4e5f6", status := "complete"
      url := some "https://abc123def456.backend.im"
      logs := ["✅ Deployment complete!"] }
    (by decide) rfl
    [("other-deployment-1", atTime (21 * second)), ("xyz", atTime (22 * second))]
    (atTime (-5 * second))

theorem mockSend_all (msgs : List DeploymentUpdate) :
    ∀ i, mockSend (fun _ => true) i msgs = msgs := by
  induction msgs with
  | nil => intro i; rfl
  | cons m rest ih => intro i; simp [mockSend, ih]

theorem mockWebSocket_sends (id head : String) (hhead : slicePrefix id 12 = some head)
    (hlen : 12 ≤ id.utf8ByteSize) :
    mockWebSocket id none (fun _ => true) = .ok (mockStages id head) := by
  have hid : id ≠ "" := by
    intro e
    rw [e] at hlen
    revert hlen
    decide
  simp [mockWebSocket, hid, hhead, mockSend_all]

/-- Counterexample to C16: for the deployment ID `abc123def456789` the mock
stream endpoint sends five messages, with the stages committing,
creating_namespace, creating_pvc, deploying, complete, not the seven stages of
the canonical order: `queued` and `building` are never sent. -/
theorem mock_stream_not_canonical_counterexample :
    mockWebSocket "abc123def456789" none (fun _ => true) =
      .ok (mockStages "abc123def456789" "abc123def456") ∧
    (mockStages "abc123def456789" "abc123def456").map (fun m => m.Status) =
      ["committing", "creating_namespace", "creating_pvc", "deploying", "complete"] ∧
    (mockStages "abc123def456789" "abc123def456").map (fun m => m.Status) ≠
      ["queued", "committing", "creating_namespace", "creating_pvc", "building",
       "deploying", "complete"] := by
  decide

/-- C16, amended. For every deployment ID of at least 12 bytes, when the
connection is upgraded and every write succeeds, the stages of the messages the
mock stream endpoint sends are, in order, exactly committing,
creating_namespace, creating_pvc, deploying, complete: five stages of the
canonical order, in canonical order, without `queued` and `building`; the
handler reads no clock. -/
theorem mock_stream_stages (id : String) (hlen : 12 ≤ id.utf8ByteSize) :
    ∃ msgs, mockWebSocket id none (fun _ => true) = .ok msgs ∧
      msgs.map (fun m => m.Status) =
        ["committing", "creating_namespace", "creating_pvc", "deploying", "complete"] ∧
      msgs.length = 5 ∧
      List.Sublist (msgs.map (fun m => m.Status)) canonicalStages := by
  obtain ⟨head, hhead⟩ := (slicePrefix_eq_some_iff id 12).mpr hlen
  refine ⟨mockStages id head, mockWebSocket_sends id head hhead hlen, rfl, rfl, ?_⟩
  show List.Sublist ["committing", "creating_namespace", "creating_pvc", "deploying",
    "complete"] canonicalStages
  decide

/-- Witness of C16, amended: the deployment ID `abc123def456789`. -/
theorem mock_stream_stages_witness :
    ∃ msgs, mockWebSocket "abc123def456789" none (fun _ => true) = .ok msgs ∧
      msgs.map (fun m => m.Status) =
        ["committing", "creating_namespace", "creating_pvc", "deploying", "complete"] ∧
      msgs.length = 5 ∧
      List.Sublist (msgs.map (fun m => m.Status)) canonicalStages :=
  mock_stream_stages "abc123def456789" (by decide)

theorem utf8ByteSize_eq_go (s : String) : s.utf8ByteSize = String.utf8ByteSize.go s.data := by
  cases s
  rfl

theorem utf8ByteSize_go_cons (c : Char) (cs : List Char) :
    String.utf8ByteSize.go (c :: cs) = String.utf8ByteSize.go cs + c.utf8Size := rfl

theorem utf8ByteSize_go_prefix :
    ∀ (p cs : List Char), p <+: cs → String.utf8ByteSize.go p ≤ String.utf8ByteSize.go cs := by
  intro p
  induction p with
  | nil => intro cs _; exact Nat.zero_le _
  | cons c p ih =>
      intro cs h
      cases cs with
      | nil => simp at h
      | cons d cs =>
          obtain ⟨hcd, hp⟩ := List.cons_prefix_cons.mp h
          subst hcd
          have := ih cs hp
          rw [utf8ByteSize_go_cons, utf8ByteSize_go_cons]
          omega

/-- When the first `n` bytes of a string are themselves a string `p`, the
slice of the first `n` bytes is `p`. -/
theorem takeBytes_of_prefix :
    ∀ (p cs : List Char), p <+: cs → takeBytes cs (String.utf8ByteSize.go p) = p := by
  intro p
  induction p with
  | nil =>
      intro cs _
      cases cs with
      | nil => rfl
      | cons d cs =>
          have hd := Char.utf8Size_pos d
          have hz : String.utf8ByteSize.go [] = 0 := rfl
          rw [hz]
          simp only [takeBytes]
          rw [if_neg (by omega)]
          rfl
  | cons c p ih =>
      intro cs h
      cases cs with
      | nil => simp at h
      | cons d cs =>
          obtain ⟨hcd, hp⟩ := List.cons_prefix_cons.mp h
          subst hcd
          rw [utf8ByteSize_go_cons]
          simp only [takeBytes]
          rw [if_pos (by omega), Nat.add_sub_cancel, ih cs hp]

theorem slicePrefix_of_prefix (id head : String) (n : Nat)
    (hp : head.data <+: id.data) (hn : head.utf8ByteSize = n) :
    slicePrefix id n = some head := by
  rw [utf8ByteSize_eq_go] at hn
  have hle : n ≤ id.utf8ByteSize := by
    rw [utf8ByteSize_eq_go, ← hn]
    exact utf8ByteSize_go_prefix _ _ hp
  unfold slicePrefix
  rw [if_pos hle, ← hn, takeBytes_of_prefix _ _ hp]

theorem utf8ByteSize_go_ascii :
    ∀ (cs : List Char), (∀ c ∈ cs, c.utf8Size = 1) → String.utf8ByteSize.go cs = cs.length := by
  intro cs
  induction cs with
  | nil => intro _; rfl
  | cons c cs ih =>
      intro h
      rw [utf8ByteSize_go_cons, ih (fun x hx => h x (List.mem_cons_of_mem c hx)),
        h c (List.mem_cons_self c cs)]
      rfl

/-- For a string of one-byte characters with at least `n` of them, the slice of
the first `n` bytes is the string of its first `n` characters. -/
theorem slicePrefix_ascii (id : String) (n : Nat) (hascii : ∀ c ∈ id.data, c.utf8Size = 1)
    (hlen : n ≤ id.utf8ByteSize) : slicePrefix id n = some ⟨id.data.take n⟩ := by
  apply slicePrefix_of_prefix
  · exact List.take_prefix n id.data
  · rw [utf8ByteSize_eq_go] at hlen ⊢
    rw [utf8ByteSize_go_ascii _ hascii] at hlen
    rw [utf8ByteSize_go_ascii _ (fun c hc => hascii c (List.mem_of_mem_take hc))]
    exact (List.length_take n id.data).trans (Nat.min_eq_left hlen)

/-- Counterexample to C17: the deployment ID `abcdefghijké` has 13 bytes and
its 12th byte is the first byte of `é`. The mock stream endpoint sends, and the
streaming watch reports, the URL `https://abcdefghijk` ++ U+FFFD ++
`.backend.im`; no beginning of the ID has 12 bytes, and the URL reported is not
`https://` ++ p ++ `.backend.im` for any beginning p of the ID. -/
theorem stream_url_cut_character_counterexample :
    "abcdefghijké".utf8ByteSize = 13 ∧
    mockWebSocket "abcdefghijké" none (fun _ => true) =
      .ok (mockStages "abcdefghijké" "abcdefghijk\uFFFD") ∧
    urlLines (streamDeploymentUpdates
      (fun _ => .ok { reads := (mockStages "abcdefghijké" "abcdefghijk\uFFFD").map ReadResult.msg
                      eof := ReadErr.close 1006 (Err.msg "unexpected EOF") })
      "http://localhost:8080" "abcdefghijké" "").out =
      ["https://abcdefghijk\uFFFD.backend.im"] ∧
    (∀ p ∈ "abcdefghijké".data.inits, (String.mk p).utf8ByteSize ≠ 12) ∧
    (∀ p ∈ "abcdefghijké".data.inits,
      "https://" ++ String.mk p ++ ".backend.im" ≠ "https://abcdefghijk\uFFFD.backend.im") := by
  decide

/-- C17, amended. Streaming happy path end to end. For a deployment ID of at
least 12 bytes, the streaming watch run over the messages `msgs` that the mock
stream endpoint sends consumes exactly 5 messages in 5 reads, prints exactly 5
status-change lines whose stages are in strictly increasing canonical order and
end in `complete`, returns no error, and reports exactly one URL, the non-empty
URL of the final message. When the first 12 bytes of the ID are themselves a
string `head` (they end on a character boundary), that URL is `https://` ++
`head` ++ `.backend.im`; for an ID of one-byte characters `head` is its first
12 characters. -/
theorem stream_happy_path
    (dial : String → Except Err Conn) (baseURL id w : String)
    (msgs : List DeploymentUpdate) (eof : ReadErr)
    (hlen : 12 ≤ id.utf8ByteSize)
    (hmock : mockWebSocket id none (fun _ => true) = .ok msgs)
    (hdial : dial (connectURL (NewWebSocketClient baseURL).baseURL id) =
      .ok { reads := msgs.map ReadResult.msg, eof := eof }) :
    (streamDeploymentUpdates dial baseURL id w).seen = msgs ∧
    (streamDeploymentUpdates dial baseURL id w).seen.length = 5 ∧
    (streamDeploymentUpdates dial baseURL id w).reads = 5 ∧
    statusStages (streamDeploymentUpdates dial baseURL id w).out =
      ["committing", "creating_namespace", "creating_pvc", "deploying", "complete"] ∧
    (statusStages (streamDeploymentUpdates dial baseURL id w).out).length = 5 ∧
    List.Pairwise (fun a b => a < b)
      ((statusStages (streamDeploymentUpdates dial baseURL id w).out).map
        (fun s => canonicalStages.indexOf s)) ∧
    (statusStages (streamDeploymentUpdates dial baseURL id w).out).getLast? = some "complete" ∧
    (streamDeploymentUpdates dial baseURL id w).err = none ∧
    (∃ u, u ≠ "" ∧ msgs.getLast?.map (fun m => m.URL) = some u ∧
      (streamDeploymentUpdates dial baseURL id w).finalURL = u ∧
      urlLines (streamDeploymentUpdates dial baseURL id w).out = [u]) ∧
    (∀ head : String, head.data <+: id.data → head.utf8ByteSize = 12 →
      msgs.getLast?.map (fun m => m.URL) = some ("https://" ++ head ++ ".backend.im") ∧
      (streamDeploymentUpdates dial baseURL id w).finalURL =
        "https://" ++ head ++ ".backend.im" ∧
      urlLines (streamDeploymentUpdates dial baseURL id w).out =
        ["https://" ++ head ++ ".backend.im"]) ∧
    ((∀ c ∈ id.data, c.utf8Size = 1) →
      urlLines (streamDeploymentUpdates dial baseURL id w).out =
        ["https://" ++ String.mk (id.data.take 12) ++ ".backend.im"]) := by
  obtain ⟨head, hhead⟩ := (slicePrefix_eq_some_iff id 12).mpr hlen
  have hmsgs : msgs = mockStages id head := by
    rw [mockWebSocket_sends id head hhead hlen] at hmock
    cases hmock
    rfl
  subst hmsgs
  have hne : "https://" ++ head ++ ".backend.im" ≠ "" := by
    rw [String.append_assoc]
    exact append_ne_empty _ _ (by decide)
  have hsplit : mockStages id head =
      mockStagesPending id head ++ [mockStageComplete id head] := rfl
  have hpre : ∀ x ∈ mockStagesPending id head, NonTerminal x.Status := by
    intro x hx
    simp only [mockStagesPending, mockStages, List.dropLast, List.mem_cons,
      List.mem_singleton] at hx
    rcases hx with h | h | h | h | h
    all_goals first | (rw [h]; simp [NonTerminal]) | simp at h
  have hrun := streamLoop_complete (mockStagesPending id head) (mockStageComplete id head)
    [] eof streamStart hpre rfl
  have hreads : (mockStages id head).map ReadResult.msg =
      (mockStagesPending id head).map ReadResult.msg ++
        [ReadResult.msg (mockStageComplete id head)] := by
    rw [hsplit]; simp
  rw [← hreads] at hrun
  have hfin : (deployCallback (callbackAll deployCallback streamStart
      (mockStagesPending id head)) (mockStageComplete id head)).1.finalURL =
      "https://" ++ head ++ ".backend.im" := by
    rw [deployCallback_finalURL]
    simp [mockStageComplete, hne]
  have hstate : (deployCallback (callbackAll deployCallback streamStart
      (mockStagesPending id head)) (mockStageComplete id head)).1 =
      callbackAll deployCallback streamStart (mockStages id head) := by
    rw [hsplit, callbackAll_append]
    rfl
  have hres := stream_connected hdial w
  simp only [hrun] at hres
  have hstages : statusStages (streamDeploymentUpdates dial baseURL id w).out =
      ["committing", "creating_namespace", "creating_pvc", "deploying", "complete"] := by
    rw [hres]
    simp only
    rw [hstate, callbackAll_statusStages, streamStart_stages]
    simp [mockStages, stageChanges, streamStart]
  have hlast : (mockStages id head).getLast?.map (fun m => m.URL) =
      some ("https://" ++ head ++ ".backend.im") := rfl
  have hfinal : (streamDeploymentUpdates dial baseURL id w).finalURL =
      "https://" ++ head ++ ".backend.im" := by
    rw [hres]; exact hfin
  have hurls : urlLines (streamDeploymentUpdates dial baseURL id w).out =
      ["https://" ++ head ++ ".backend.im"] := by
    rw [hres]
    simp only
    rw [deployCallback_urlLines, callbackAll_urlLines_nonTerminal _ _ hpre, streamStart_urls,
      hfin]
    simp [mockStageComplete, hne]
  refine ⟨?_, ?_, ?_, hstages, ?_, ?_, ?_, ?_, ⟨_, hne, hlast, hfinal, hurls⟩, ?_, ?_⟩
  · rw [hres, hsplit]
  · rw [hres]; rfl
  · rw [hres]; rfl
  · rw [hstages]; rfl
  · rw [hstages]; decide
  · rw [hstages]; rfl
  · rw [hres]
  · intro head1 hp h12
    have h1 := slicePrefix_of_prefix id head1 12 hp h12
    rw [hhead] at h1
    cases h1
    exact ⟨hlast, hfinal, hurls⟩
  · intro hascii
    have h1 := slicePrefix_ascii id 12 hascii hlen
    rw [hhead] at h1
    cases h1
    exact hurls

/-- Witness of C17, amended: the deployment ID `abc123def456789`, with the
connection dropped by the server after the last message. -/
theorem stream_happy_path_witness :
    (streamDeploymentUpdates
      (fun _ => .ok { reads := (mockStages "abc123def456789" "abc123def456").map ReadResult.msg
                      eof := ReadErr.close 1006 (Err.msg "unexpected EOF") })
      "http://localhost:8080" "abc123def456789" "").err = none ∧
    urlLines (streamDeploymentUpdates
      (fun _ => .ok { reads := (mockStages "abc123def456789" "abc123def456").map ReadResult.msg
                      eof := ReadErr.close 1006 (Err.msg "unexpected EOF") })
      "http://localhost:8080" "abc123def456789" "").out =
      ["https://" ++ "abc123def456" ++ ".backend.im"] :=
  have h := stream_happy_path
    (fun _ => .ok { reads := (mockStages "abc123def456789" "abc123def456").map ReadResult.msg
                    eof := ReadErr.close 1006 (Err.msg "unexpected EOF") })
    "http://localhost:8080" "abc123def456789" ""
    (mockStages "abc123def456789" "abc123def456")
    (ReadErr.close 1006 (Err.msg "unexpected EOF"))
    (by decide) (by decide) rfl
  ⟨h.2.2.2.2.2.2.2.1, (h.2.2.2.2.2.2.2.2.2.1 "abc123def456" (by decide) (by decide)).2.2⟩

/-- Counterexample to C19: with the token `secret-token` set on the API client,
the connection request that `streamDeploymentUpdates` opens for the deployment
`dep-1` carries no `Authorization` header. -/
theorem websocket_no_bearer_counterexample :
    ((NewWebSocketClient ((NewClient "").SetAuthToken "secret-token").BaseURL).connectRequest
        "dep-1").Header.lookup "Authorization" = none ∧
    ((NewWebSocketClient ((NewClient "").SetAuthToken "secret-token").BaseURL).connectRequest
        "dep-1").Header.lookup "Authorization" ≠ some ("Bearer " ++ "secret-token") := by
  decide

/-- C19, amended. Once a non-empty token `t` has been set on the API client,
every GET and every POST request of the API client carries the header
`Authorization` with value `"Bearer " ++ t`, and these are the requests handed
to the transport; with an empty token the requests carry no `Authorization`
header. The connection request of the streaming client is dialled without any
request header, so it carries no `Authorization` header. -/
theorem bearer_on_api_requests (c : Client) (t path jsonData : String) (ht : t ≠ "") :
    ((c.SetAuthToken t).getRequest path).Header.lookup "Authorization" =
      some ("Bearer " ++ t) ∧
    ((c.SetAuthToken t).postRequest path jsonData).Header.lookup "Authorization" =
      some ("Bearer " ++ t) ∧
    ((c.SetAuthToken "").getRequest path).Header.lookup "Authorization" = none ∧
    ((c.SetAuthToken "").postRequest path jsonData).Header.lookup "Authorization" = none ∧
    (∀ (net net1 : Transport) (decode : String → Except Err StatusResponse),
      net.NewRequest = net1.NewRequest →
      net.Do ((c.SetAuthToken t).getRequest path) = net1.Do ((c.SetAuthToken t).getRequest path) →
      (c.SetAuthToken t).get net decode path = (c.SetAuthToken t).get net1 decode path) ∧
    (∀ (net net1 : Transport) (decode : String → Except Err StatusResponse),
      net.NewRequest = net1.NewRequest →
      net.Do ((c.SetAuthToken t).postRequest path jsonData) =
        net1.Do ((c.SetAuthToken t).postRequest path jsonData) →
      (c.SetAuthToken t).post net decode path (.ok jsonData) =
        (c.SetAuthToken t).post net1 decode path (.ok jsonData)) ∧
    (∀ (baseURL id : String),
      ((NewWebSocketClient baseURL).connectRequest id).Header = []) := by
  refine ⟨?_, ?_, ?_, ?_, ?_, ?_, ?_⟩
  · simp [Client.getRequest, Client.SetAuthToken, ht, headerSet, List.lookup]
  · simp [Client.postRequest, Client.SetAuthToken, ht, headerSet, List.lookup]
  · simp [Client.getRequest, Client.SetAuthToken]
  · simp [Client.postRequest, Client.SetAuthToken, headerSet, List.lookup]
  · intro net net1 decode hn hd
    simp only [Client.get, hn, hd]
  · intro net net1 decode hn hd
    simp only [Client.post, hn, hd]
  · intro baseURL id
    rfl

/-- Witness of C19, amended: the status request and the deploy request of a
client with the token `secret-token`. -/
theorem bearer_on_api_requests_witness :
    (((NewClient "").SetAuthToken "secret-token").getRequest "/api/status/dep-1").Header.lookup
        "Authorization" = some ("Bearer " ++ "secret-token") ∧
    (((NewClient "").SetAuthToken "secret-token").postRequest "/api/deploy"
        "\x7b\x7d").Header.lookup "Authorization" = some ("Bearer " ++ "secret-token") :=
  have h := bearer_on_api_requests (NewClient "") "secret-token" "/api/status/dep-1" "\x7b\x7d"
    (by decide)
  ⟨h.1, (bearer_on_api_requests (NewClient "") "secret-token" "/api/deploy" "\x7b\x7d"
    (by decide)).2.1⟩

/-! ## Lemmas on the file collector -/

theorem shouldIgnoreLoop_eq_any (path : String) (l : List String) :
    shouldIgnoreLoop path l =
      l.any (fun pattern => filepathMatch pattern path ||
        decide (pattern.data.getLast? = some '/' ∧ HasPrefix path pattern)) := by
  induction l with
  | nil => rfl
  | cons p rest ih =>
      simp only [shouldIgnoreLoop, List.any_cons, ih]
      by_cases h1 : filepathMatch p path = true
      · simp [h1]
      · by_cases h2 : p.data.getLast? = some '/' ∧ HasPrefix path p = true
        · simp [h1, h2]
        · simp [h1, h2]

/-- A file directly under a top-level directory `.git`, `__pycache__`,
`node_modules` or `.backend-im` is ignored. -/
theorem shouldIgnore_top_level (dir rest : String)
    (hdir : dir = ".git/" ∨ dir = "__pycache__/" ∨ dir = "node_modules/" ∨
      dir = ".backend-im/") :
    shouldIgnore (dir ++ rest) = true := by
  unfold shouldIgnore
  rw [shouldIgnoreLoop_eq_any, List.any_eq_true]
  refine ⟨dir, ?_, ?_⟩
  · rcases hdir with h | h | h | h <;> subst h <;> decide
  · have hp : HasPrefix (dir ++ rest) dir = true := HasPrefix_append dir rest
    have hl : dir.data.getLast? = some '/' := by
      rcases hdir with h | h | h | h <;> subst h <;> decide
    simp [hp, hl]

/-- An entry that `shouldIgnore` rejects, or whose base name begins with a dot,
leaves the map as it is. -/
theorem walkFn_skips (files : List (String × String)) (e : WalkEntry)
    (h : (filepathBase e.path).data.head? = some '.' ∨ shouldIgnore e.relPath = true)
    (hw : e.walkErr = none) : walkFn files e = (files, none) := by
  unfold walkFn
  rw [hw]
  by_cases hd : e.isDir = true
  · simp [hd]
  · by_cases h1 : (filepathBase e.path).data.head? = some '.'
    · simp [hd, h1]
    · rcases h with h | h
      · exact absurd h h1
      · simp [hd, h1, h]

/-- C20, at the failing input. A walk of the project directory `proj` that
visits `main.py`, `web/node_modules/left-pad/index.js`,
`app/__pycache__/models.cpython-311.pyc` and `vendor/.git/config`: the last
three have `node_modules`, `__pycache__` and `.git` among their directory
components, and the third ends in `.pyc`, yet `ReadProjectFiles` puts all four
paths into the mapping it returns. -/
theorem nested_artifacts_not_excluded :
    "node_modules" ∈ dirComponents "web/node_modules/left-pad/index.js" ∧
    "__pycache__" ∈ dirComponents "app/__pycache__/models.cpython-311.pyc" ∧
    ".git" ∈ dirComponents "vendor/.git/config" ∧
    shouldIgnore "web/node_modules/left-pad/index.js" = false ∧
    shouldIgnore "app/__pycache__/models.cpython-311.pyc" = false ∧
    shouldIgnore "vendor/.git/config" = false ∧
    ReadProjectFiles
        (fun _ =>
          [exDir ".", exFile "main.py" "print(1)", exDir "web", exDir "web/node_modules",
           exDir "web/node_modules/left-pad",
           exFile "web/node_modules/left-pad/index.js" "module.exports = 1",
           exDir "app", exDir "app/__pycache__",
           exFile "app/__pycache__/models.cpython-311.pyc" "bytecode",
           exDir "vendor", exDir "vendor/.git", exFile "vendor/.git/config" "[core]"])
        "proj" =
      ([("main.py", "print(1)"),
        ("web/node_modules/left-pad/index.js", "module.exports = 1"),
        ("app/__pycache__/models.cpython-311.pyc", "bytecode"),
        ("vendor/.git/config", "[core]")], none) := by
  decide

/-- Below 3 seconds of elapsed time, negative times included, `mockStatus`
replies `queued` for a deployment that is not memoized. -/
theorem mockStatus_queued (st : MockStore) (id : String) (clk : ClockReads)
    (hid : id ≠ "") (hmemo : st.deploymentStatuses id = none)
    (he : mockElapsed st id clk < 3 * second) :
    (mockStatus st id clk).2 =
      .ok (mockReply id "a1b2c3d4e5f6" "queued" "" ["📦 Deployment queued..."]) := by
  have hel : clk.onSince -
      (match st.deploymentStartTimes id with
        | some t => (st, t)
        | none =>
            ({ st with deploymentStartTimes := fun k =>
                 if k = id then some clk.onStore else st.deploymentStartTimes k },
             clk.onStart)).2 = mockElapsed st id clk := by
    unfold mockElapsed
    cases st.deploymentStartTimes id <;> rfl
  unfold mockStatus
  simp only [hid, if_false, hmemo, hel, he, if_true]

/-- With a deployment ID of at least 12 bytes the handler `mockStatus` never
panics, whatever the maps and the clock readings. -/
theorem mockStatus_no_panic_of_long (st : MockStore) (id : String) (clk : ClockReads)
    (hlen : 12 ≤ id.utf8ByteSize) : (mockStatus st id clk).2 ≠ .panic := by
  have hid : id ≠ "" := by
    intro e
    rw [e] at hlen
    revert hlen
    decide
  cases hmemo : st.deploymentStatuses id with
  | some q =>
      have hq : mockStatus st id clk = (st, .ok q) := by simp [mockStatus, hid, hmemo]
      rw [hq]
      intro h
      cases h
  | none =>
      have hel : 0 ≤ mockElapsed st id clk ∨ mockElapsed st id clk < 0 := by omega
      rcases hel with he | he
      · obtain ⟨p, hp, _⟩ := (mockStatus_stage st id clk hid hmemo he).1 (Or.inr hlen)
        rw [hp]
        intro h
        cases h
      · have h3 : mockElapsed st id clk < 3 * second := by
          have hs : second = 1000000000 := rfl
          rw [hs]
          omega
        rw [mockStatus_queued st id clk hid hmemo h3]
        intro h
        cases h

/-- The handler `mockWebSocket`, once the connection is upgraded, panics for a
non-empty deployment ID exactly when the ID has fewer than 12 bytes; otherwise
it ends normally with the messages it has sent. -/
theorem mockWebSocket_panic_iff (id : String) (hid : id ≠ "") (writeOk : Nat → Bool) :
    mockWebSocket id none writeOk = .panic ↔ id.utf8ByteSize < 12 := by
  unfold mockWebSocket
  simp only [hid, if_false]
  cases hs : slicePrefix id 12 with
  | none =>
      simp only [true_iff]
      exact (slicePrefix_eq_none_iff id 12).mp hs
  | some head =>
      have hlen : 12 ≤ id.utf8ByteSize := (slicePrefix_eq_some_iff id 12).mp ⟨head, hs⟩
      constructor
      · intro h; cases h
      · intro h; omega

/-- The handler `mockStatus` panics for every non-empty deployment ID of fewer
than 12 bytes that is not memoized, once 18 seconds have elapsed. -/
theorem mockStatus_panics_of_short (st : MockStore) (id : String) (clk : ClockReads)
    (hid : id ≠ "") (hmemo : st.deploymentStatuses id = none)
    (hshort : id.utf8ByteSize < 12) (he : 18 * second ≤ mockElapsed st id clk) :
    (mockStatus st id clk).2 = .panic := by
  have h0 : 0 ≤ mockElapsed st id clk := by
    have hs : second = 1000000000 := rfl
    rw [hs] at he
    omega
  exact (mockStatus_stage st id clk hid hmemo h0).2 he hshort

/-- C21, at the failing input. The deployment ID `abc` is not empty and has 3
bytes, so `deploymentID[:12]` is out of range. The mock stream handler panics
before it sends any message; the mock status handler, asked for `abc` a first
time (it replies `queued`) and again 30 seconds later, panics at the second
request; neither produces its payload. -/
theorem mock_not_total_on_short_id :
    "abc" ≠ "" ∧
    "abc".utf8ByteSize = 3 ∧
    slicePrefix "abc" 12 = none ∧
    mockWebSocket "abc" none (fun _ => true) = .panic ∧
    (mockStatus emptyStore "abc" (atTime 0)).2 =
      .ok (mockReply "abc" "a1b2c3d4e5f6" "queued" "" ["📦 Deployment queued..."]) ∧
    (mockStatus (mockServe emptyStore [("abc", atTime 0)]) "abc" (atTime (30 * second))).2 =
      .panic := by
  decide

end BackendIm
